import Mathlib

/-!
# Checkout transaction engine of the E-commerce API

A shallow embedding of `src/services/OrderService.js`, `src/services/CartService.js`,
`src/repositories/ProductRepository.js`, `src/repositories/CartRepository.js`,
`src/utils/errors.js`, `src/middlewares/errorHandler.js`, `src/middlewares/auth.js`,
`src/controllers/OrderController.js`, `src/services/ProductService.js`,
`src/config/redis.js` and the guards of the route files, followed by theorems
about the checkout, the cart and the catalogue.

Conventions of the embedding.

* A database table is the list of its rows.  Prisma `Int` columns are `Int`
  (the column width is declared in the Prisma schema, which is not among the
  sources, so integers are unbounded here); identifiers are `Nat`.  The one
  column written with a number taken from a request, the quantity of a cart
  item, has the 32 bits of a Prisma `Int`: a write outside that range is
  refused by the client (`P2020`).
* A price is held in hundredths of the currency unit; the floating-point
  accumulation `parseFloat(price) * quantity` followed by `toFixed(2)` is
  represented by exact arithmetic on hundredths.
* An `async` function is a function from the database state to a result and
  a new state.  A rejected promise is `Except.error`.
* `prisma.$transaction(cb)` runs `cb` on the current state and keeps the
  state `cb` produced when it returns, the state from before when it throws.
* The cache is the list of its keys with the value under each; an entry
  stays until it is deleted (the time to live of one hour is not modelled).
* The referential actions of the relations to the product table are
  parameters (`Schema`), as `prisma/schema.prisma` is not among the sources.
* The ids of new rows come from the sequence of their table, held next to
  the database (`App`); a quantity as `parseInt` returns it is `Option Int`,
  with `none` for `NaN`.
* The function `jwt.verify` of the library `jsonwebtoken` is a parameter.
-/

namespace Ecommerce

/-! ## Errors (`src/utils/errors.js`) -/

/-- A JavaScript value as far as it reaches an error constructor. -/
inductive JsVal where
  | undefined
  | num (n : Int)
  | str (s : String)
deriving DecidableEq, Repr

/-- Rendering of a value inside a template literal. -/
def JsVal.render : JsVal → String
  | .undefined => "undefined"
  | .num n => toString n
  | .str s => s

/-- An instance of `AppError` or of one of its subclasses. -/
structure AppError where
  message : String
  statusCode : Nat
  code : String
  isOperational : Bool := true
  productId : JsVal := .undefined
  available : JsVal := .undefined
  requested : JsVal := .undefined
deriving DecidableEq, Repr

/-- The class `ValidationError`. -/
def ValidationError (message : String) : AppError :=
  { message := message, statusCode := 400, code := "VALIDATION_ERROR" }

/-- The class `NotFoundError`. -/
def NotFoundError (message : String) : AppError :=
  { message := message, statusCode := 404, code := "NOT_FOUND" }

/-- The class `ConflictError`. -/
def ConflictError (message : String) : AppError :=
  { message := message, statusCode := 409, code := "CONFLICT" }

/-- The class `VersionMismatchError`: a `ConflictError` whose code is overwritten. -/
def VersionMismatchError (message : String) : AppError :=
  { ConflictError message with code := "VERSION_MISMATCH" }

/-- The class `InsufficientStockError`, with its three constructor arguments. -/
def InsufficientStockError (productId available requested : JsVal) : AppError :=
  { message := "Insufficient stock for product " ++ productId.render ++ ". Available: "
      ++ available.render ++ ", Requested: " ++ requested.render,
    statusCode := 400,
    code := "INSUFFICIENT_STOCK",
    productId := productId,
    available := available,
    requested := requested }

/-- What a rejected promise carries: an `AppError`, or an exception raised by
the database client or by the JavaScript runtime. -/
inductive Thrown where
  | app (e : AppError)
  | runtime (what : String)
deriving DecidableEq, Repr

deriving instance DecidableEq for Except

/-- The `code` property of an `AppError`; a runtime exception has none. -/
def Thrown.code : Thrown → Option String
  | .app e => some e.code
  | .runtime _ => none

/-! ## Data model -/

/-- A row of the user table, as far as the checkout reads it. -/
structure User where
  id : Nat
  name : String
  email : String
deriving DecidableEq, Repr

/-- A row of the product table. -/
structure Product where
  id : Nat
  name : String
  price : Nat
  stockQuantity : Int
  version : Int
  category : String := ""
  description : String := ""
deriving DecidableEq, Repr

/-- A row of the cart table. -/
structure Cart where
  id : Nat
  userId : Nat
deriving DecidableEq, Repr

/-- A row of the cart item table. -/
structure CartItem where
  id : Nat
  cartId : Nat
  productId : Nat
  quantity : Int
deriving DecidableEq, Repr

/-- A row of the order item table. -/
structure OrderItem where
  id : Nat
  orderId : Nat
  productId : Nat
  quantity : Int
  priceAtPurchase : Nat
deriving DecidableEq, Repr

/-- A row of the order table together with its order items. -/
structure Order where
  id : Nat
  userId : Nat
  totalPrice : Int
  status : String
  items : List OrderItem
deriving DecidableEq, Repr

/-- The database. -/
structure Db where
  users : List User
  products : List Product
  carts : List Cart
  cartItems : List CartItem
  orders : List Order
  nextOrderId : Nat
  nextOrderItemId : Nat
deriving DecidableEq, Repr

/-- A cart item read with `include: { product: true }`. -/
structure CartItemWithProduct where
  id : Nat
  cartId : Nat
  productId : Nat
  quantity : Int
  product : Product
deriving DecidableEq, Repr

/-- A cart read with its items and their products. -/
structure CartWithItems where
  id : Nat
  userId : Nat
  items : List CartItemWithProduct
deriving DecidableEq, Repr

/-- The selection `user: { select: { id, name, email } }`. -/
structure UserSummary where
  id : Nat
  name : String
  email : String
deriving DecidableEq, Repr

/-- What `tx.order.create` returns with `include: { items: true, user: ... }`. -/
structure CreatedOrder where
  order : Order
  user : UserSummary
deriving DecidableEq, Repr

/-- An element of the `orderItems` array built by the transaction. -/
structure OrderItemData where
  productId : Nat
  quantity : Int
  priceAtPurchase : Nat
deriving DecidableEq, Repr

/-! ## Prisma client operations -/

/-- The call `prisma.product.findUnique({ where: { id } })`. -/
def findUniqueProduct (rows : List Product) (id : Nat) : Option Product :=
  rows.find? (fun p => p.id == id)

/-- The call `prisma.product.updateMany({ where, data })`: every row that
satisfies `cond` is replaced by `data` of it; the second component is `count`. -/
def updateMany (cond : Product → Bool) (data : Product → Product)
    (rows : List Product) : List Product × Nat :=
  (rows.map (fun p => if cond p then data p else p), (rows.filter cond).length)

/-- The exception of the client when a required relation has no row. -/
def inconsistentResult : Thrown :=
  .runtime "Inconsistent query result: Field product is required to return data, got null instead"

/-- The join `include: { product: true }` over a list of cart items. -/
def includeProduct (products : List Product) : List CartItem → Except Thrown (List CartItemWithProduct)
  | [] => .ok []
  | ci :: rest =>
    match findUniqueProduct products ci.productId with
    | none => .error inconsistentResult
    | some p =>
      match includeProduct products rest with
      | .error e => .error e
      | .ok items =>
        .ok ({ id := ci.id, cartId := ci.cartId, productId := ci.productId,
               quantity := ci.quantity, product := p } :: items)

/-! ## `src/repositories/ProductRepository.js` -/

namespace ProductRepository

/-- The method `findById`. -/
def findById (db : Db) (id : Nat) : Option Product :=
  findUniqueProduct db.products id

/-- The method `findByIdWithVersion`; the selected fields are those of `Product`. -/
def findByIdWithVersion (db : Db) (id : Nat) : Option Product :=
  findUniqueProduct db.products id

/-- The method `updateStockWithVersionCheck`: the new database and the
`count` of the `updateMany` it returns. -/
def updateStockWithVersionCheck (db : Db) (id : Nat) (quantityChange : Int)
    (currentVersion : Int) : Db × Nat :=
  let r := updateMany (fun p => p.id == id && p.version == currentVersion)
    (fun p => { p with stockQuantity := p.stockQuantity + quantityChange,
                       version := p.version + 1 })
    db.products
  ({ db with products := r.1 }, r.2)

end ProductRepository

/-! ## `src/repositories/CartRepository.js` -/

namespace CartRepository

/-- The method `findByUserId`. -/
def findByUserId (db : Db) (userId : Nat) : Except Thrown (Option CartWithItems) :=
  match db.carts.find? (fun c => c.userId == userId) with
  | none => .ok none
  | some c =>
    match includeProduct db.products (db.cartItems.filter (fun ci => ci.cartId == c.id)) with
    | .error e => .error e
    | .ok items => .ok (some { id := c.id, userId := c.userId, items := items })

/-- The method `getCartItems`. -/
def getCartItems (db : Db) (cartId : Nat) : Except Thrown (List CartItemWithProduct) :=
  includeProduct db.products (db.cartItems.filter (fun ci => ci.cartId == cartId))

/-- The method `clearCart`, also the `tx.cartItem.deleteMany` of the checkout. -/
def clearCart (db : Db) (cartId : Nat) : Db :=
  { db with cartItems := db.cartItems.filter (fun ci => !(ci.cartId == cartId)) }

end CartRepository

/-! ## `src/services/CartService.js` -/

namespace CartService

/-- The loop of `validateCartForCheckout` over the cart items. -/
def checkStock : List CartItemWithProduct → Except Thrown Unit
  | [] => .ok ()
  | item :: rest =>
    if item.quantity > item.product.stockQuantity then
      .error (.app (InsufficientStockError (.num item.product.id)
        (.num item.product.stockQuantity) (.num item.quantity)))
    else checkStock rest

/-- The method `validateCartForCheckout`. -/
def validateCartForCheckout (db : Db) (cartId : Nat) : Except Thrown (List CartItemWithProduct) :=
  match CartRepository.getCartItems db cartId with
  | .error e => .error e
  | .ok cartItems =>
    if cartItems.length = 0 then .error (.app (ValidationError "Cart is empty"))
    else
      match checkStock cartItems with
      | .error e => .error e
      | .ok _ => .ok cartItems

end CartService

/-! ## `src/config/queue.js` -/

/-- A job handed to `emailQueue.add`. -/
structure EmailJob where
  name : String
  orderId : Nat
  userId : Nat
  userEmail : String
  userName : String
  totalPrice : Int
  itemCount : Nat
deriving DecidableEq, Repr

/-- The three behaviours of `emailQueue.add`: the BullMQ queue accepts the
job, the no-op stub stands in for an unreachable Redis, or the queue throws. -/
inductive QueueBackend where
  | real
  | stub
  | failing
deriving DecidableEq, Repr

/-- The method `emailQueue.add`, on the list of queued jobs. -/
def emailQueueAdd (backend : QueueBackend) (jobs : List EmailJob) (job : EmailJob) :
    Except Thrown (List EmailJob) :=
  match backend with
  | .real => .ok (jobs ++ [job])
  | .stub => .ok jobs
  | .failing => .error (.runtime "queue error")

/-- The database together with the email queue. -/
structure World where
  db : Db
  emailJobs : List EmailJob
deriving DecidableEq, Repr

/-! ## `src/services/OrderService.js` -/

/-- The object `productVersions`, keyed by product id: the latest assignment
to a key comes first. -/
abbrev ProductVersions := List (Nat × Product)

/-- The assignment `productVersions[key] = product`. -/
def ProductVersions.set (pv : ProductVersions) (key : Nat) (product : Product) : ProductVersions :=
  (key, product) :: pv

/-- The read `productVersions[key]`; `none` is `undefined`. -/
def ProductVersions.get (pv : ProductVersions) (key : Nat) : Option Product :=
  (pv.find? (fun kv => kv.1 == key)).map (fun kv => kv.2)

/-- The call `prisma.$transaction(cb)`. -/
def transaction {α : Type} (cb : Db → Except Thrown (α × Db)) (db : Db) : Except Thrown α × Db :=
  match cb db with
  | .ok (a, db1) => (.ok a, db1)
  | .error e => (.error e, db)

namespace OrderService

/-- The loop of `createOrder` that fills `productVersions` (lines 41-48). -/
def fetchProductVersions (db : Db) :
    List CartItemWithProduct → ProductVersions → Except Thrown ProductVersions
  | [], pv => .ok pv
  | item :: rest, pv =>
    match ProductRepository.findByIdWithVersion db item.productId with
    | none => .error (.app (NotFoundError ("Product " ++ toString item.productId ++ " not found")))
    | some product => fetchProductVersions db rest (pv.set item.productId product)

/-- The state of the transaction callback while it loops over the cart. -/
structure TxState where
  db : Db
  totalPrice : Int
  orderItems : List OrderItemData
deriving DecidableEq, Repr

/-- The conditional update of one cart line (lines 61-75): the new product
table and the `count`. -/
def conditionalUpdate (rows : List Product) (productId : Nat) (version : Int) (quantity : Int) :
    List Product × Nat :=
  updateMany
    (fun p => p.id == productId && p.version == version && decide (p.stockQuantity ≥ quantity))
    (fun p => { p with stockQuantity := p.stockQuantity - quantity, version := p.version + 1 })
    rows

/-- The error thrown with "was modified" (lines 86-88). -/
def modifiedError (product : Product) : Thrown :=
  .app (VersionMismatchError ("Product " ++ product.name ++ " was modified. Please refresh and try again."))

/-- The error thrown when the re-read stock is below the quantity (lines 92-94):
the message is passed as the first constructor argument. -/
def stockError (product current : Product) : Thrown :=
  .app (InsufficientStockError
    (.str ("Insufficient stock for " ++ product.name ++ ". Available: " ++ toString current.stockQuantity))
    .undefined .undefined)

/-- The fallback generic error (lines 98-100). -/
def fallbackError (product : Product) : Thrown :=
  .app (VersionMismatchError ("Failed to update product " ++ product.name ++ ". Please retry."))

/-- The error thrown when the re-read finds no row (line 82). -/
def missingError (productId : Nat) : Thrown :=
  .app (NotFoundError ("Product " ++ toString productId ++ " not found during checkout"))

/-- The classification after a conditional update that matched no row
(lines 80-100); `rows` is the product table the re-read sees. -/
def classifyFailure (rows : List Product) (item : CartItemWithProduct) (product : Product) : Thrown :=
  match findUniqueProduct rows item.productId with
  | none => missingError item.productId
  | some current =>
    if current.version ≠ product.version then modifiedError product
    else if current.stockQuantity < item.quantity then stockError product current
    else fallbackError product

/-- The body of the loop over the cart items inside the transaction (lines 57-111). -/
def checkoutItem (pv : ProductVersions) (item : CartItemWithProduct) (st : TxState) :
    Except Thrown TxState :=
  match pv.get item.productId with
  | none => .error (.runtime "TypeError: Cannot read properties of undefined (reading version)")
  | some product =>
    let r := conditionalUpdate st.db.products item.productId product.version item.quantity
    if r.2 = 0 then .error (classifyFailure r.1 item product)
    else
      .ok { db := { st.db with products := r.1 },
            totalPrice := st.totalPrice + (product.price : Int) * item.quantity,
            orderItems := st.orderItems ++
              [{ productId := item.productId, quantity := item.quantity,
                 priceAtPurchase := product.price }] }

/-- The loop over the cart items inside the transaction (lines 56-112). -/
def checkoutLoop (pv : ProductVersions) : List CartItemWithProduct → TxState → Except Thrown TxState
  | [], st => .ok st
  | item :: rest, st =>
    match checkoutItem pv item st with
    | .error e => .error e
    | .ok st1 => checkoutLoop pv rest st1

/-- The order items created with the order: ids are handed out in sequence. -/
def numberItems (orderId : Nat) : Nat → List OrderItemData → List OrderItem
  | _, [] => []
  | n, d :: rest =>
    { id := n, orderId := orderId, productId := d.productId, quantity := d.quantity,
      priceAtPurchase := d.priceAtPurchase } :: numberItems orderId (n + 1) rest

/-- The call `tx.order.create` (lines 115-134). -/
def orderCreate (db : Db) (userId : Nat) (totalPrice : Int) (status : String)
    (orderItems : List OrderItemData) : Except Thrown (CreatedOrder × Db) :=
  match db.users.find? (fun u => u.id == userId) with
  | none => .error (.runtime "Foreign key constraint failed on the field: userId")
  | some u =>
    let order : Order :=
      { id := db.nextOrderId, userId := userId, totalPrice := totalPrice, status := status,
        items := numberItems db.nextOrderId db.nextOrderItemId orderItems }
    .ok ({ order := order, user := { id := u.id, name := u.name, email := u.email } },
         { db with orders := db.orders ++ [order],
                   nextOrderId := db.nextOrderId + 1,
                   nextOrderItemId := db.nextOrderItemId + orderItems.length })

/-- The callback passed to `prisma.$transaction` (lines 51-142). -/
def checkoutTx (userId : Nat) (cartId : Nat) (cartItems : List CartItemWithProduct)
    (pv : ProductVersions) (db : Db) : Except Thrown (CreatedOrder × Db) :=
  match checkoutLoop pv cartItems { db := db, totalPrice := 0, orderItems := [] } with
  | .error e => .error e
  | .ok st =>
    match orderCreate st.db userId st.totalPrice "COMPLETED" st.orderItems with
    | .error e => .error e
    | .ok (order, db1) => .ok (order, CartRepository.clearCart db1 cartId)

/-- The job built from the committed order (lines 148-155). -/
def confirmationJob (o : CreatedOrder) : EmailJob :=
  { name := "sendOrderConfirmation", orderId := o.order.id, userId := o.order.userId,
    userEmail := o.user.email, userName := o.user.name, totalPrice := o.order.totalPrice,
    itemCount := o.order.items.length }

/-- The `try`/`catch` around `emailQueue.add` (lines 147-159): an error is swallowed. -/
def queueConfirmation (backend : QueueBackend) (jobs : List EmailJob) (o : CreatedOrder) :
    List EmailJob :=
  match emailQueueAdd backend jobs (confirmationJob o) with
  | .ok jobs1 => jobs1
  | .error _ => jobs

/-- The method `createOrder`. -/
def createOrder (backend : QueueBackend) (w : World) (userId : Nat) :
    Except Thrown CreatedOrder × World :=
  match CartRepository.findByUserId w.db userId with
  | .error e => (.error e, w)
  | .ok none => (.error (.app (NotFoundError "Cart not found")), w)
  | .ok (some cart) =>
    match CartService.validateCartForCheckout w.db cart.id with
    | .error e => (.error e, w)
    | .ok cartItems =>
      if cartItems.length = 0 then
        (.error (.app (ValidationError "Cannot checkout with empty cart")), w)
      else
        match fetchProductVersions w.db cartItems [] with
        | .error e => (.error e, w)
        | .ok pv =>
          match transaction (checkoutTx userId cart.id cartItems pv) w.db with
          | (.error e, db1) => (.error e, { w with db := db1 })
          | (.ok order, db1) =>
            (.ok order, { db := db1, emailJobs := queueConfirmation backend w.emailJobs order })

end OrderService

/-! ## A call of `createOrder` among concurrent calls

Between two `await`s of a call other calls may run.  `Call` is where a call
stands; `Call.step` runs it up to its next `await`.  The transaction is one
step: the conditional updates lock the rows they touch until it ends. -/

/-- Where a call of `createOrder` stands. -/
inductive Call where
  /-- Not started: `createOrder(userId)` is about to read the cart (line 27). -/
  | start (userId : Nat)
  /-- The cart is read; the validation is next (line 33). -/
  | cartFound (userId : Nat) (cart : CartWithItems)
  /-- Inside the loop of lines 42-48 with `todo` left to read; with `todo = []`
  the transaction is next (line 51). -/
  | snapshot (userId : Nat) (cart : CartWithItems) (cartItems : List CartItemWithProduct)
      (todo : List CartItemWithProduct) (pv : ProductVersions)
  /-- The transaction is committed; `emailQueue.add` is next (line 148). -/
  | committed (order : CreatedOrder)
  /-- The promise is settled. -/
  | done (result : Except Thrown CreatedOrder)
deriving DecidableEq, Repr

/-- One step of a call: from one `await` of `createOrder` to the next. -/
def Call.step (backend : QueueBackend) (c : Call) (w : World) : Call × World :=
  match c with
  | .start userId =>
    match CartRepository.findByUserId w.db userId with
    | .error e => (.done (.error e), w)
    | .ok none => (.done (.error (.app (NotFoundError "Cart not found"))), w)
    | .ok (some cart) => (.cartFound userId cart, w)
  | .cartFound userId cart =>
    match CartService.validateCartForCheckout w.db cart.id with
    | .error e => (.done (.error e), w)
    | .ok cartItems =>
      if cartItems.length = 0 then
        (.done (.error (.app (ValidationError "Cannot checkout with empty cart"))), w)
      else (.snapshot userId cart cartItems cartItems [], w)
  | .snapshot userId cart cartItems (item :: rest) pv =>
    match ProductRepository.findByIdWithVersion w.db item.productId with
    | none =>
      (.done (.error (.app (NotFoundError ("Product " ++ toString item.productId ++ " not found")))), w)
    | some product => (.snapshot userId cart cartItems rest (pv.set item.productId product), w)
  | .snapshot userId cart cartItems [] pv =>
    match transaction (OrderService.checkoutTx userId cart.id cartItems pv) w.db with
    | (.error e, db1) => (.done (.error e), { w with db := db1 })
    | (.ok order, db1) => (.committed order, { w with db := db1 })
  | .committed order =>
    (.done (.ok order), { w with emailJobs := OrderService.queueConfirmation backend w.emailJobs order })
  | .done result => (.done result, w)

/-- Runs one call alone for `fuel` steps. -/
def Call.run (backend : QueueBackend) : Nat → Call → World → Call × World
  | 0, c, w => (c, w)
  | fuel + 1, c, w =>
    let r := Call.step backend c w
    Call.run backend fuel r.1 r.2

/-- Concurrent calls over one database. -/
structure System where
  world : World
  calls : List Call
deriving DecidableEq, Repr

/-- The call at position `i` takes one step; no call is there, nothing happens. -/
def System.step (backend : QueueBackend) (sys : System) (i : Nat) : System :=
  match sys.calls.get? i with
  | none => sys
  | some c =>
    let r := Call.step backend c sys.world
    { world := r.2, calls := sys.calls.set i r.1 }

/-- Runs a schedule: the list of the positions of the calls that step, in order. -/
def System.run (backend : QueueBackend) (sys : System) (schedule : List Nat) : System :=
  schedule.foldl (System.step backend) sys

/-- The call has returned an order. -/
def Call.succeeded : Call → Bool
  | .done (.ok _) => true
  | _ => false

/-- The call is settled. -/
def Call.isDone : Call → Bool
  | .done _ => true
  | _ => false

/-- The code of the error the call failed with. -/
def Call.errorCode : Call → Option String
  | .done (.error e) => e.code
  | _ => none

/-- A sequence of calls of `createOrder`, one after the other. -/
def checkouts (backend : QueueBackend) (w : World) (userIds : List Nat) : World :=
  userIds.foldl (fun w1 userId => (OrderService.createOrder backend w1 userId).2) w

/-! ## Scenarios of the tests and scripts -/

/-- Two products with stock 5 and a cart holding 2 of each (test 1 of `tests/api.test.js`). -/
def happyDb : Db :=
  { users := [{ id := 1, name := "Test Customer", email := "c@example.com" }],
    products := [{ id := 1, name := "Test Laptop", price := 99999, stockQuantity := 5, version := 0 },
                 { id := 2, name := "Test Mouse", price := 2999, stockQuantity := 5, version := 0 }],
    carts := [{ id := 1, userId := 1 }],
    cartItems := [{ id := 1, cartId := 1, productId := 1, quantity := 2 },
                  { id := 2, cartId := 1, productId := 2, quantity := 2 }],
    orders := [],
    nextOrderId := 1,
    nextOrderItemId := 1 }

/-- The database seeded by `scripts/test-race-local.js`, for `n` users and any
product: user `i + 1` owns cart `i + 1`, which holds one unit of the product. -/
def raceDb (product : Product) (n : Nat) : Db :=
  { users := (List.range n).map (fun i =>
      { id := i + 1, name := "User " ++ toString (i + 1),
        email := "user" ++ toString (i + 1) ++ "@example.com" }),
    products := [product],
    carts := (List.range n).map (fun i => { id := i + 1, userId := i + 1 }),
    cartItems := (List.range n).map
      (fun i => { id := i + 1, cartId := i + 1, productId := product.id, quantity := 1 }),
    orders := [],
    nextOrderId := 1,
    nextOrderItemId := 1 }

/-- The concurrent calls `createOrder(1)`, ..., `createOrder(n)` on `raceDb`. -/
def raceSystem (product : Product) (n : Nat) : System :=
  { world := { db := raceDb product n, emailJobs := [] },
    calls := (List.range n).map (fun i => Call.start (i + 1)) }

/-- The product seeded by `scripts/test-race-local.js`, with stock `stock`. -/
def raceProduct (stock : Int) : Product :=
  { id := 1, name := "Race Test Product", price := 999, stockQuantity := stock, version := 1,
    category := "test", description := "Product for race test" }

/-- Every product row has a stock that is not negative. -/
def StockNonneg (db : Db) : Prop :=
  ∀ p ∈ db.products, 0 ≤ p.stockQuantity

instance (db : Db) : Decidable (StockNonneg db) := by
  unfold StockNonneg
  infer_instance

/-- The first cart line of test 1, as read while product 1 had stock 5. -/
def staleLine1 : CartItemWithProduct :=
  { id := 1, cartId := 1, productId := 1, quantity := 2,
    product := { id := 1, name := "Test Laptop", price := 99999, stockQuantity := 5, version := 0 } }

/-- The second cart line of test 1, as read while product 2 had stock 5. -/
def staleLine2 : CartItemWithProduct :=
  { id := 2, cartId := 1, productId := 2, quantity := 2,
    product := { id := 2, name := "Test Mouse", price := 2999, stockQuantity := 5, version := 0 } }

/-- The cart of test 1 as `findByUserId` returned it while both products had stock 5. -/
def staleCart : CartWithItems :=
  { id := 1, userId := 1, items := [staleLine1, staleLine2] }

/-- The snapshots of a call that read them after another buyer has left
product 2 with stock 1 at version 1. -/
def staleVersions : ProductVersions :=
  [(2, { id := 2, name := "Test Mouse", price := 2999, stockQuantity := 1, version := 1 }),
   (1, { id := 1, name := "Test Laptop", price := 99999, stockQuantity := 5, version := 0 })]

/-- A call that read and validated its cart while both products had stock 5
and took its snapshots after product 2 went down to stock 1: the state of
the call before its transaction. -/
def staleCall : Call :=
  .snapshot 1 staleCart [staleLine1, staleLine2] [] staleVersions

/-- The database `staleCall` meets: product 2 is down to stock 1 at version 1. -/
def staleDb : Db :=
  { happyDb with
    products := [{ id := 1, name := "Test Laptop", price := 99999, stockQuantity := 5, version := 0 },
                 { id := 2, name := "Test Mouse", price := 2999, stockQuantity := 1, version := 1 }] }

/-- The row a cart line leaves of a product row when its conditional update
matches it: the stock less the quantity, the version one more. -/
def purchaseLine (productId : Nat) (quantity : Int) (p : Product) : Product :=
  if p.id = productId then
    { p with stockQuantity := p.stockQuantity - quantity, version := p.version + 1 }
  else p

/-- The row the cart lines leave of a product row, line after line. -/
def purchase (cartItems : List CartItemWithProduct) (p : Product) : Product :=
  cartItems.foldl (fun r item => purchaseLine item.productId item.quantity r) p

/-- The primary key of the product table: no two rows share an id. -/
def ProductKey (db : Db) : Prop :=
  (db.products.map (fun p => p.id)).Nodup

instance (db : Db) : Decidable (ProductKey db) := by
  unfold ProductKey
  infer_instance

/-- The cart item row a joined cart item was read from. -/
def CartItemWithProduct.toCartItem (item : CartItemWithProduct) : CartItem :=
  { id := item.id, cartId := item.cartId, productId := item.productId, quantity := item.quantity }

/-- The cart item rows of a cart. -/
def cartLines (db : Db) (cartId : Nat) : List CartItem :=
  db.cartItems.filter (fun ci => ci.cartId == cartId)

/-! ## The race: what holds in every state the concurrent calls reach -/

/-- The cart item row of user `i + 1` in `raceDb`. -/
def raceLine (product : Product) (i : Nat) : CartItem :=
  { id := i + 1, cartId := i + 1, productId := product.id, quantity := 1 }

/-- The transaction of the call is committed. -/
def Call.won : Call → Bool
  | .committed _ => true
  | .done (.ok _) => true
  | _ => false

/-- The number of calls whose transaction is committed. -/
def wins (calls : List Call) : Nat :=
  calls.countP Call.won

/-- The number of calls that returned an order. -/
def successes (sys : System) : Nat :=
  sys.calls.countP Call.succeeded

/-- Every call is settled. -/
def System.allDone (sys : System) : Bool :=
  sys.calls.all Call.isDone

/-- The product row of the race after `k` committed transactions. -/
def raceRow (product : Product) (k : Nat) : Product :=
  { product with stockQuantity := product.stockQuantity - (k : Int),
                 version := product.version + (k : Int) }

/-- What holds of the call at position `i` of the race when `k` transactions
are committed and the order table is `orders`. -/
def RaceCall (product : Product) (k : Nat) (orders : List Order) (i : Nat) : Call → Prop
  | .start userId => userId = i + 1
  | .cartFound userId cart => userId = i + 1 ∧ cart.id = i + 1
  | .snapshot userId cart cartItems todo pv =>
    userId = i + 1 ∧ cart.id = i + 1 ∧
    ∃ q : Product,
      cartItems = [{ id := i + 1, cartId := i + 1, productId := product.id, quantity := 1,
                     product := q }] ∧
      ((todo = cartItems ∧ pv = []) ∨
       (todo = [] ∧ ∃ snap : Product, pv = [(product.id, snap)] ∧
         (k = 0 → snap.version = product.version)))
  | .committed o => o.order ∈ orders
  | .done (.ok o) => o.order ∈ orders
  | .done (.error e) =>
    (e.code = some "VERSION_MISMATCH" ∨ e.code = some "INSUFFICIENT_STOCK") ∧
    (1 ≤ product.stockQuantity → 1 ≤ k)

/-- What holds in every state of the race over `product` with `n` calls. -/
structure RaceInv (product : Product) (n : Nat) (sys : System) : Prop where
  length : sys.calls.length = n
  users : sys.world.db.users = (raceDb product n).users
  carts : sys.world.db.carts = (raceDb product n).carts
  products : sys.world.db.products = [raceRow product (wins sys.calls)]
  bound : (wins sys.calls : Int) ≤ product.stockQuantity
  orders : sys.world.db.orders.length = wins sys.calls
  lines : ∀ i c, sys.calls.get? i = some c → c.won = false →
    sys.world.db.cartItems.filter (fun ci => ci.cartId == i + 1) = [raceLine product i]
  calls : ∀ i c, sys.calls.get? i = some c →
    RaceCall product (wins sys.calls) sys.world.db.orders i c

/-! ## `src/middlewares/errorHandler.js` and `src/controllers/OrderController.js` -/

/-- The status and the `error` object `errorHandler` answers with; its `details`
and, outside production, the `stack` are left out. -/
structure ErrorResponse where
  status : Nat
  code : String
  message : String
deriving DecidableEq, Repr

/-- The middleware `errorHandler`. An operational error (every `AppError`
is) is answered with its own status, code and message; then come the branches
for the client error codes `P2002` and `P2025`, and the last branch answers
with `INTERNAL_ERROR` and the message of the exception unless `NODE_ENV` is
`production`. A runtime exception of the embedding has no `code` and no
`statusCode` and ends in the last branch with status 500. -/
def errorHandler (production : Bool) : Thrown → ErrorResponse
  | .app e =>
    if e.isOperational then
      { status := if e.statusCode = 0 then 500 else e.statusCode, code := e.code,
        message := e.message }
    else if e.code = "P2002" then
      { status := 409, code := "DUPLICATE_ENTRY",
        message := "A field with this value already exists" }
    else if e.code = "P2025" then
      { status := 404, code := "NOT_FOUND", message := "Resource not found" }
    else
      { status := if e.statusCode = 0 then 500 else e.statusCode, code := "INTERNAL_ERROR",
        message := if production then "An unexpected error occurred" else e.message }
  | .runtime what =>
    { status := 500, code := "INTERNAL_ERROR",
      message := if production then "An unexpected error occurred" else what }

/-- What `POST /orders` answers: status 201 with the order, or what `errorHandler` answers. -/
inductive OrderResponse where
  | created (order : CreatedOrder)
  | failed (response : ErrorResponse)
deriving DecidableEq, Repr

/-- The status of the answer. -/
def OrderResponse.status : OrderResponse → Nat
  | .created _ => 201
  | .failed r => r.status

/-- The error code of the answer, when it is an error. -/
def OrderResponse.errorCode : OrderResponse → Option String
  | .created _ => none
  | .failed r => some r.code

namespace OrderController

/-- The handler `createOrder` of `POST /orders`, for the authenticated user
`userId`, followed by `errorHandler` when the service throws. -/
def createOrder (backend : QueueBackend) (production : Bool) (w : World) (userId : Nat) :
    OrderResponse × World :=
  match OrderService.createOrder backend w userId with
  | (.ok order, w1) => (.created order, w1)
  | (.error e, w1) => (.failed (errorHandler production e), w1)

end OrderController

/-- The test `expect(message).toMatch(/needle/i)` for a pattern of plain
characters: the message holds the pattern, case ignored. -/
def containsIgnoreCase (needle message : String) : Bool :=
  let n := needle.toList.map Char.toLower
  let rec go : List Char → Bool
    | [] => n.isEmpty
    | c :: rest => n.isPrefixOf (c :: rest) || go rest
  go (message.toList.map Char.toLower)

/-- The race database after user 1 ran `createOrder` to its end: the state in
which user 2 starts the second checkout (tests 2.8 and 2.9). -/
def afterFirstCheckout (product : Product) : World :=
  (OrderService.createOrder .stub { db := raceDb product 2, emailJobs := [] } 1).2

/-- A user with a cart row and no cart item. -/
def emptyCartDb : Db :=
  { happyDb with cartItems := [] }

/-- The database of test 3: one product with stock 1 and a cart holding 2 of it. -/
def lowStockDb : Db :=
  { users := [{ id := 1, name := "Rollback Test User", email := "r@example.com" }],
    products := [{ id := 1, name := "Limited Stock Item", price := 19999, stockQuantity := 1,
                   version := 0, category := "test", description := "Only 1 unit" }],
    carts := [{ id := 1, userId := 1 }],
    cartItems := [{ id := 1, cartId := 1, productId := 1, quantity := 2 }],
    orders := [],
    nextOrderId := 1,
    nextOrderItemId := 1 }

/-- The database `staleCall` meets when product 2 has been deleted meanwhile. -/
def goneDb : Db :=
  { happyDb with
    products := [{ id := 1, name := "Test Laptop", price := 99999, stockQuantity := 5, version := 0 }] }

/-! ## `src/config/redis.js` -/

/-- What `ProductRepository.findAll` returns: a page of products with its pagination. -/
structure ProductPage where
  data : List Product
  total : Nat
  page : Nat
  limit : Nat
  pages : Nat
deriving DecidableEq, Repr

/-- The cache, Redis or the in-memory fallback of `config/redis.js`: the keys
in insertion order with the value under each. A value is held as the result
it was serialised from (`JSON.stringify` on write, `JSON.parse` on read); the
expiry of an entry after its time to live is not part of the embedding. -/
abbrev Cache := List (String × ProductPage)

namespace redis

/-- The method `get`: `none` is `null`. -/
def get (cache : Cache) (key : String) : Option ProductPage :=
  (cache.find? (fun kv => kv.1 == key)).map (fun kv => kv.2)

/-- The method `setEx`: the value under an existing key is replaced, a new key is added. -/
def setEx (cache : Cache) (key : String) (value : ProductPage) : Cache :=
  if cache.any (fun kv => kv.1 == key) then
    cache.map (fun kv => if kv.1 == key then (key, value) else kv)
  else cache ++ [(key, value)]

/-- The method `keys`: every key for no pattern, the keys that start with the
text before a trailing `*`, the keys equal to the pattern otherwise. -/
def keys (cache : Cache) (pattern : String) : List String :=
  if pattern.toList = [] then cache.map (fun kv => kv.1)
  else if pattern.toList.getLast? = some '*' then
    (cache.map (fun kv => kv.1)).filter (fun k => pattern.toList.dropLast.isPrefixOf k.toList)
  else (cache.map (fun kv => kv.1)).filter (fun k => k == pattern)

/-- The method `del` for an array of keys: the cache without them and the number deleted. -/
def del (cache : Cache) (ks : List String) : Cache × Nat :=
  (cache.filter (fun kv => !(ks.contains kv.1)), (cache.filter (fun kv => ks.contains kv.1)).length)

end redis

/-! ## `src/repositories/ProductRepository.js`, the catalogue part -/

/-- The object `filters` that `ProductController.getProducts` builds from the query. -/
structure Filters where
  category : Option String
  sortBy : String
  sortOrder : String
  page : Nat
  limit : Nat
deriving DecidableEq, Repr

/-- The output of `JSON.stringify` for a string. -/
def jsonString (s : String) : String :=
  "\"" ++ String.join (s.toList.map (fun c =>
    if c = '"' then "\\\""
    else if c = '\\' then "\\\\"
    else if c = '\n' then "\\n"
    else if c = '\r' then "\\r"
    else if c = '\t' then "\\t"
    else if c.toNat = 8 then "\\b"
    else if c.toNat = 12 then "\\f"
    else if c.toNat < 32 then
      "\\u00" ++ String.singleton (Nat.digitChar (c.toNat / 16))
        ++ String.singleton (Nat.digitChar (c.toNat % 16))
    else String.singleton c)) ++ "\""

/-- The output of `JSON.stringify(filters)`. -/
def Filters.stringify (f : Filters) : String :=
  "\x7b\"category\":" ++ (match f.category with
    | none => "null"
    | some c => jsonString c)
  ++ ",\"sortBy\":" ++ jsonString f.sortBy
  ++ ",\"sortOrder\":" ++ jsonString f.sortOrder
  ++ ",\"page\":" ++ toString f.page
  ++ ",\"limit\":" ++ toString f.limit ++ "\x7d"

/-- The value of a column, for `orderBy`. -/
inductive SortKey where
  | num (n : Int)
  | str (s : String)
deriving DecidableEq, Repr

/-- The order of two texts by code point: the first is a prefix of the second
or is the smaller one at the first place where they differ. -/
def codePointsLe : List Char → List Char → Bool
  | [], _ => true
  | _ :: _, [] => false
  | a :: s, b :: t =>
    if a.toNat < b.toNat then true
    else if b.toNat < a.toNat then false
    else codePointsLe s t

/-- The order of two values of one column; strings are compared by code
point (the collation of the database is not among the sources). -/
def SortKey.le : SortKey → SortKey → Bool
  | .num a, .num b => decide (a ≤ b)
  | .str a, .str b => codePointsLe a.toList b.toList
  | _, _ => true

/-- The column of a product row that `orderBy[sortBy]` names; `none` for a
name that is no column of the embedding. -/
def Product.column (p : Product) (sortBy : String) : Option SortKey :=
  if sortBy = "id" then some (.num p.id)
  else if sortBy = "name" then some (.str p.name)
  else if sortBy = "price" then some (.num p.price)
  else if sortBy = "stockQuantity" then some (.num p.stockQuantity)
  else if sortBy = "version" then some (.num p.version)
  else if sortBy = "category" then some (.str p.category)
  else if sortBy = "description" then some (.str p.description)
  else none

/-- The comparison `orderBy: { [sortBy]: sortOrder }` sorts with. -/
def orderedBefore (sortBy sortOrder : String) (p q : Product) : Bool :=
  match p.column sortBy, q.column sortBy with
  | some a, some b => if sortOrder = "desc" then b.le a else a.le b
  | _, _ => true

/-- Insertion into a list sorted by `before`, behind the rows that are not after the new one. -/
def insertSorted (before : Product → Product → Bool) (p : Product) : List Product → List Product
  | [] => [p]
  | q :: rest => if before p q then p :: q :: rest else q :: insertSorted before p rest

/-- The rows sorted by `before`; rows that compare equal keep their order. -/
def sortRows (before : Product → Product → Bool) : List Product → List Product
  | [] => []
  | p :: rest => insertSorted before p (sortRows before rest)

/-- A known request error of the Prisma client: it has a `code`, and it is no
`AppError` (no `isOperational`, no `statusCode`, held as 0). -/
def PrismaClientKnownRequestError (code message : String) : Thrown :=
  .app { message := message, statusCode := 0, code := code, isOperational := false }

namespace ProductRepository

/-- The method `findAll`: the rows of the category if one is given, sorted,
from row `(page - 1) * limit` on, at most `limit` of them; `pages` is
`Math.ceil(total / limit)`, for `limit ≥ 1`. -/
def findAll (db : Db) (f : Filters) : Except Thrown ProductPage :=
  let rows := match f.category with
    | none => db.products
    | some c => if c = "" then db.products else db.products.filter (fun p => p.category == c)
  if (({ id := 0, name := "", price := 0, stockQuantity := 0, version := 0 } : Product).column
      f.sortBy).isNone then
    .error (.runtime "PrismaClientValidationError: Unknown argument in orderBy")
  else
    .ok { data := ((sortRows (orderedBefore f.sortBy f.sortOrder) rows).drop
                    ((f.page - 1) * f.limit)).take f.limit,
          total := rows.length,
          page := f.page,
          limit := f.limit,
          pages := (rows.length + f.limit - 1) / f.limit }

/-- The method `create`, with the id the sequence of the table hands out. -/
def create (db : Db) (id : Nat) (name : String) (price : Nat) (category : String)
    (stockQuantity : Int) (version : Int) : Product × Db :=
  let p : Product :=
    { id := id, name := name, price := price, stockQuantity := stockQuantity, version := version,
      category := category }
  (p, { db with products := db.products ++ [p] })

/-- The method `update`: the row with the id is replaced by `data` of it; the
client throws when there is none. -/
def update (db : Db) (id : Nat) (data : Product → Product) : Except Thrown (Product × Db) :=
  match findUniqueProduct db.products id with
  | none => .error (PrismaClientKnownRequestError "P2025" "Record to update not found")
  | some p =>
    .ok (data p, { db with products := db.products.map (fun r => if r.id == id then data r else r) })

end ProductRepository

/-- What the database does with the rows that reference a deleted row. -/
inductive ReferentialAction where
  | restrict
  | cascade
deriving DecidableEq, Repr

/-- The referential actions of the two relations to the product table. They
are declared in `prisma/schema.prisma`, which is not among the sources, and
are parameters of the embedding. -/
structure Schema where
  cartItemProduct : ReferentialAction
  orderItemProduct : ReferentialAction
deriving DecidableEq, Repr

/-- The method `ProductRepository.delete`. The client throws when there is no
row with the id, and when a relation that restricts holds a row that
references it; otherwise the row is deleted with the rows that reference it. -/
def ProductRepository.delete (schema : Schema) (db : Db) (id : Nat) : Except Thrown Db :=
  match findUniqueProduct db.products id with
  | none => .error (PrismaClientKnownRequestError "P2025" "Record to delete does not exist")
  | some _ =>
    if schema.orderItemProduct = .restrict ∧
        db.orders.any (fun o => o.items.any (fun x => x.productId == id)) then
      .error (PrismaClientKnownRequestError "P2003"
        "Foreign key constraint failed on the field: productId")
    else if schema.cartItemProduct = .restrict ∧ db.cartItems.any (fun ci => ci.productId == id) then
      .error (PrismaClientKnownRequestError "P2003"
        "Foreign key constraint failed on the field: productId")
    else
      .ok { db with
            products := db.products.filter (fun p => !(p.id == id)),
            cartItems := db.cartItems.filter (fun ci => !(ci.productId == id)),
            orders := db.orders.map (fun o =>
              { o with items := o.items.filter (fun x => !(x.productId == id)) }) }

/-! ## `src/services/ProductService.js` -/

/-- The server: the database and the queue, the cache, and the sequences of
the product, cart and cart item tables (the id of the next row of each). -/
structure App where
  world : World
  cache : Cache
  productSeq : Nat
  cartSeq : Nat
  cartItemSeq : Nat
deriving DecidableEq, Repr

/-- The body of a request to create or to update a product; a field that is
not sent is `none`, a price is in hundredths. -/
structure ProductData where
  name : Option String := none
  description : Option String := none
  price : Option Int := none
  category : Option String := none
  stockQuantity : Option Int := none
deriving DecidableEq, Repr

namespace ProductService

/-- The constant `CACHE_PREFIX`. -/
def CACHE_PREFIX : String := "products:"

/-- The method `invalidateCache`, on the cache. -/
def invalidateCache (cache : Cache) : Cache :=
  let ks := redis.keys cache (CACHE_PREFIX ++ "*")
  if ks.length > 0 then (redis.del cache ks).1 else cache

/-- The cache key of `getProducts`. -/
def cacheKey (filters : Filters) : String :=
  CACHE_PREFIX ++ "list:" ++ filters.stringify

/-- The method `getProducts`. -/
def getProducts (app : App) (filters : Filters) : Except Thrown ProductPage × App :=
  match redis.get app.cache (cacheKey filters) with
  | some cached => (.ok cached, app)
  | none =>
    match ProductRepository.findAll app.world.db filters with
    | .error e => (.error e, app)
    | .ok result => (.ok result, { app with cache := redis.setEx app.cache (cacheKey filters) result })

/-- The method `createProduct`. -/
def createProduct (app : App) (data : ProductData) : Except Thrown Product × App :=
  match data.name, data.price, data.category with
  | some name, some price, some category =>
    if name = "" ∨ price = 0 ∨ category = "" then
      (.error (.app (ValidationError "Name, price, and category are required")), app)
    else if price ≤ 0 then
      (.error (.app (ValidationError "Price must be greater than 0")), app)
    else if (match data.stockQuantity with
        | some q => decide (q < 0)
        | none => false) then
      (.error (.app (ValidationError "Stock quantity cannot be negative")), app)
    else
      let r := ProductRepository.create app.world.db app.productSeq name price.toNat category
        (data.stockQuantity.getD 0) 0
      (.ok r.1, { app with world := { app.world with db := r.2 },
                           cache := invalidateCache app.cache,
                           productSeq := app.productSeq + 1 })
  | _, _, _ => (.error (.app (ValidationError "Name, price, and category are required")), app)

/-- The object `updateData` of `updateProduct`, as the change of a row. -/
def updateData (data : ProductData) (p : Product) : Product :=
  { p with
    name := match data.name with
      | some n => if n = "" then p.name else n
      | none => p.name,
    description := match data.description with
      | some d => if d = "" then p.description else d
      | none => p.description,
    price := match data.price with
      | some x => if x = 0 then p.price else x.toNat
      | none => p.price,
    category := match data.category with
      | some c => if c = "" then p.category else c
      | none => p.category,
    stockQuantity := match data.stockQuantity with
      | some q => q
      | none => p.stockQuantity }

/-- The method `updateProduct`. -/
def updateProduct (app : App) (id : Nat) (data : ProductData) : Except Thrown Product × App :=
  match ProductRepository.findById app.world.db id with
  | none => (.error (.app (NotFoundError "Product not found")), app)
  | some _ =>
    if (match data.price with
        | some x => decide (x ≠ 0 ∧ x ≤ 0)
        | none => false) then
      (.error (.app (ValidationError "Price must be greater than 0")), app)
    else if (match data.stockQuantity with
        | some q => decide (q < 0)
        | none => false) then
      (.error (.app (ValidationError "Stock quantity cannot be negative")), app)
    else
      match ProductRepository.update app.world.db id (updateData data) with
      | .error e => (.error e, app)
      | .ok (updated, db1) =>
        (.ok updated, { app with world := { app.world with db := db1 },
                                 cache := invalidateCache app.cache })

/-- The method `deleteProduct`. -/
def deleteProduct (schema : Schema) (app : App) (id : Nat) : Except Thrown Unit × App :=
  match ProductRepository.findById app.world.db id with
  | none => (.error (.app (NotFoundError "Product not found")), app)
  | some _ =>
    match ProductRepository.delete schema app.world.db id with
    | .error e => (.error e, app)
    | .ok db1 =>
      (.ok (), { app with world := { app.world with db := db1 },
                          cache := invalidateCache app.cache })

end ProductService

/-- The method `OrderService.createOrder` in the server: `OrderService.js`
requires neither `ProductService` nor `config/redis`, so the cache and the
product sequence are left as they are. -/
def App.createOrder (backend : QueueBackend) (app : App) (userId : Nat) :
    Except Thrown CreatedOrder × App :=
  let r := OrderService.createOrder backend app.world userId
  (r.1, { app with world := r.2 })

/-- The filters of `GET /products?page=1&limit=20` (test 4.2). -/
def listFilters : Filters :=
  { category := none, sortBy := "name", sortOrder := "asc", page := 1, limit := 20 }

/-- The server of test 1 with an empty cache. -/
def happyApp : App :=
  { world := { db := happyDb, emailJobs := [] }, cache := [], productSeq := 3, cartSeq := 2,
    cartItemSeq := 3 }

/-- One write to the catalogue by an administrator. -/
inductive CatalogueWrite where
  | createProduct (data : ProductData)
  | updateProduct (id : Nat) (data : ProductData)
  | deleteProduct (id : Nat)
deriving DecidableEq, Repr

/-- The server after the write, whether it returns or throws. -/
def CatalogueWrite.run (schema : Schema) (app : App) : CatalogueWrite → App
  | .createProduct data => (ProductService.createProduct app data).2
  | .updateProduct id data => (ProductService.updateProduct app id data).2
  | .deleteProduct id => (ProductService.deleteProduct schema app id).2

/-- The server of test 1 after the checkout of user 1. -/
def boughtApp : App := (App.createOrder .real happyApp 1).2

/-- The order that the checkout of test 1 returns. -/
def happyOrder : CreatedOrder :=
  { order := { id := 1, userId := 1, totalPrice := 205996, status := "COMPLETED",
               items := [{ id := 1, orderId := 1, productId := 1, quantity := 2,
                           priceAtPurchase := 99999 },
                         { id := 2, orderId := 1, productId := 2, quantity := 2,
                           priceAtPurchase := 2999 }] },
    user := { id := 1, name := "Test Customer", email := "c@example.com" } }

/-- Four catalogue writes after the checkout of test 1: the price of the
laptop is set to one hundredth, the mouse is renamed, a product is created,
and the deletion of the laptop is asked for. -/
def laterWrites : List CatalogueWrite :=
  [.updateProduct 1 { price := some 1 },
   .updateProduct 2 { name := some "Mouse" },
   .createProduct { name := some "Desk", price := some 10000, category := some "Furniture" },
   .deleteProduct 1]

/-- The server of test 1 after `GET /products?page=1&limit=20` has filled the cache. -/
def listedApp : App := (ProductService.getProducts happyApp listFilters).2

/-- The server after the checkout of user 1 that follows the listing. -/
def staleApp : App := (App.createOrder .real listedApp 1).2

/-- Whether a cache key starts with `CACHE_PREFIX`. -/
def hasCachePrefix (key : String) : Bool :=
  ProductService.CACHE_PREFIX.toList.isPrefixOf key.toList

/-- The body of `POST /products` in test 4.4, as far as the service reads it. -/
def newProductData : ProductData :=
  { name := some "Cache Test Product", price := some 4999, category := some "test",
    stockQuantity := some 20 }

/-- The server of test 1 with the product list and a session in the cache. -/
def sessionApp : App :=
  { listedApp with cache := listedApp.cache ++ [("session:1",
      { data := [], total := 0, page := 1, limit := 1, pages := 0 })] }

/-- What `invalidateCache` has done between two states of the server: no
entry of the cache has a key with the prefix, the cache is the earlier one
without those entries, an entry under another key is read as before, and
`getProducts` returns for every filter what `findAll` reads in the database. -/
def NamespaceCleared (before after : App) : Prop :=
  (∀ kv ∈ after.cache, hasCachePrefix kv.1 = false) ∧
  redis.keys after.cache "products:*" = [] ∧
  after.cache = before.cache.filter (fun kv => !(hasCachePrefix kv.1)) ∧
  (∀ key, hasCachePrefix key = false → redis.get after.cache key = redis.get before.cache key) ∧
  ∀ filters, (ProductService.getProducts after filters).1 =
    ProductRepository.findAll after.world.db filters

/-- The call of user 1 on the database of test 1 that has read its cart and
the version 0 of both products: the state before its transaction. -/
def heldCall : Call := (Call.run .stub 4 (.start 1) happyApp.world).1

/-- The server of test 1 after an administrator has set the stock of product 2 to 3. -/
def restockedApp : App :=
  (ProductService.updateProduct happyApp 2 { stockQuantity := some 3 }).2

/-! ## `src/middlewares/auth.js`, `src/utils/jwt.js` and the routes -/

/-- The class `UnauthorizedError`. -/
def UnauthorizedError (message : String) : AppError :=
  { message := message, statusCode := 401, code := "UNAUTHORIZED" }

/-- The class `ForbiddenError`. -/
def ForbiddenError (message : String) : AppError :=
  { message := message, statusCode := 403, code := "FORBIDDEN" }

/-- The payload of a token, which `authenticate` stores as `req.user`; a
payload without `role` has `none`. -/
structure TokenPayload where
  id : Nat
  email : String
  role : Option String
deriving DecidableEq, Repr

/-- The request as far as the two middlewares read and write it. -/
structure HttpRequest where
  authorization : Option String
  user : Option TokenPayload := none
deriving DecidableEq, Repr

/-- The outcome of `jwt.verify` of the library `jsonwebtoken`. -/
inductive JwtOutcome where
  | decoded (payload : TokenPayload)
  | expired
  | invalid
deriving DecidableEq, Repr

/-- The function `verifyToken`; `jwtVerify` is `jwt.verify` with the secret. -/
def verifyToken (jwtVerify : String → JwtOutcome) (token : String) : Except Thrown TokenPayload :=
  match jwtVerify token with
  | .decoded payload => .ok payload
  | .expired => .error (.app (UnauthorizedError "Token has expired"))
  | .invalid => .error (.app (UnauthorizedError "Invalid token"))

/-- The call `split(' ')` on the characters of a string. -/
def splitSpaces : List Char → List (List Char)
  | [] => [[]]
  | c :: rest =>
    if c = ' ' then [] :: splitSpaces rest
    else
      match splitSpaces rest with
      | [] => [[c]]
      | word :: words => (c :: word) :: words

/-- The expression `req.headers.authorization?.split(' ')[1]`; `none` is `undefined`. -/
def bearerToken (req : HttpRequest) : Option String :=
  match req.authorization with
  | none => none
  | some header => ((splitSpaces header.toList).get? 1).map String.mk

/-- The middleware `authenticate`: the request handed on by `next()`, or the
error handed to `next`. -/
def authenticate (jwtVerify : String → JwtOutcome) (req : HttpRequest) :
    Except Thrown HttpRequest :=
  match bearerToken req with
  | none => .error (.app (UnauthorizedError "No token provided"))
  | some token =>
    if token = "" then .error (.app (UnauthorizedError "No token provided"))
    else
      match verifyToken jwtVerify token with
      | .error e => .error e
      | .ok decoded => .ok { req with user := some decoded }

/-- The middleware returned by `authorize(...allowedRoles)`. -/
def authorize (allowedRoles : List String) (req : HttpRequest) : Except Thrown HttpRequest :=
  match req.user with
  | none => .error (.app (UnauthorizedError "User not authenticated"))
  | some user =>
    if (match user.role with
        | some role => allowedRoles.contains role
        | none => false) then .ok req
    else .error (.app (ForbiddenError "Insufficient permissions for this action"))

/-- The endpoints of `productRoutes.js`, `cartRoutes.js`, `orderRoutes.js` and
`adminRoutes.js`. -/
inductive Endpoint where
  | getProducts
  | getProductById
  | postProducts
  | putProduct
  | deleteProduct
  | getCart
  | postCartItems
  | putCartItem
  | deleteCartItem
  | deleteCart
  | postOrders
  | getOrders
  | getOrderById
  | getAdminOrders
  | patchAdminOrderStatus
deriving DecidableEq, Repr

/-- The roles handed to `authorize` on the way to an endpoint; `none` for an
endpoint that neither `authenticate` nor `authorize` guards. -/
def Endpoint.allowedRoles : Endpoint → Option (List String)
  | .getProducts => none
  | .getProductById => none
  | .postProducts => some ["ADMIN"]
  | .putProduct => some ["ADMIN"]
  | .deleteProduct => some ["ADMIN"]
  | .getCart => some ["CUSTOMER", "ADMIN"]
  | .postCartItems => some ["CUSTOMER", "ADMIN"]
  | .putCartItem => some ["CUSTOMER", "ADMIN"]
  | .deleteCartItem => some ["CUSTOMER", "ADMIN"]
  | .deleteCart => some ["CUSTOMER", "ADMIN"]
  | .postOrders => some ["CUSTOMER", "ADMIN"]
  | .getOrders => some ["CUSTOMER", "ADMIN"]
  | .getOrderById => some ["CUSTOMER", "ADMIN"]
  | .getAdminOrders => some ["ADMIN"]
  | .patchAdminOrderStatus => some ["ADMIN"]

/-- The middlewares in front of the handler of an endpoint: `authenticate`,
then `authorize`. The request that reaches the handler, or the error that
reaches `errorHandler`. -/
def Endpoint.guard (jwtVerify : String → JwtOutcome) (endpoint : Endpoint) (req : HttpRequest) :
    Except Thrown HttpRequest :=
  match endpoint.allowedRoles with
  | none => .ok req
  | some allowedRoles =>
    match authenticate jwtVerify req with
    | .error e => .error e
    | .ok req1 => authorize allowedRoles req1

/-- A verifier for the tokens of the tests: the token of the customer and the
token of the administrator. -/
def testVerify (token : String) : JwtOutcome :=
  if token = "customer-token" then
    .decoded { id := 1, email := "c@example.com", role := some "CUSTOMER" }
  else if token = "admin-token" then
    .decoded { id := 2, email := "a@example.com", role := some "ADMIN" }
  else .invalid

/-- The stock of the product with the id; 0 when the table has no such row. -/
def stockOf (db : Db) (productId : Nat) : Int :=
  match findUniqueProduct db.products productId with
  | some p => p.stockQuantity
  | none => 0

/-- The units of a product on a list of order lines. -/
def unitsOn (items : List OrderItem) (productId : Nat) : Int :=
  ((items.filter (fun x => x.productId == productId)).map (fun x => x.quantity)).sum

/-- The units of a product on the lines of all orders. -/
def unitsSold (db : Db) (productId : Nat) : Int :=
  (db.orders.map (fun o => unitsOn o.items productId)).sum

/-! ## The writes to the cart: `CartRepository.js` and `CartService.js` -/

namespace CartRepository

/-- The method `getOrCreateCart`: the `upsert` on the unique `userId` with an
empty update. A new cart row gets the next id of the sequence. -/
def getOrCreateCart (app : App) (userId : Nat) : Except Thrown CartWithItems × App :=
  match app.world.db.carts.find? (fun c => c.userId == userId) with
  | some c =>
    match includeProduct app.world.db.products
        (app.world.db.cartItems.filter (fun ci => ci.cartId == c.id)) with
    | .error e => (.error e, app)
    | .ok items => (.ok { id := c.id, userId := c.userId, items := items }, app)
  | none =>
    match app.world.db.users.find? (fun u => u.id == userId) with
    | none =>
      (.error (PrismaClientKnownRequestError "P2003"
        "Foreign key constraint failed on the field: userId"), app)
    | some _ =>
      let app1 : App :=
        { app with
          world := { app.world with
            db := { app.world.db with
              carts := app.world.db.carts ++ [{ id := app.cartSeq, userId := userId }] } },
          cartSeq := app.cartSeq + 1 }
      match includeProduct app.world.db.products
          (app.world.db.cartItems.filter (fun ci => ci.cartId == app.cartSeq)) with
      | .error e => (.error e, app1)
      | .ok items => (.ok { id := app.cartSeq, userId := userId, items := items }, app1)

/-- Whether a number fits the column `quantity` of the cart item table, a
signed integer of 32 bits. -/
def fitsInt4 (n : Int) : Bool :=
  decide (-2147483648 ≤ n) && decide (n ≤ 2147483647)

/-- The error of the client for a value the column cannot hold. -/
def valueOutOfRange : Thrown :=
  PrismaClientKnownRequestError "P2020" "Value out of range for the type"

/-- The method `addItem`: `getOrCreateCart`, then the `upsert` on the unique
pair of cart and product. The row of the pair gets the quantity added; when
there is none, a row is created with the next id of the sequence, for which
the product row must exist (foreign key). A quantity the column cannot hold
is refused and no cart item is written. -/
def addItem (app : App) (userId productId : Nat) (quantity : Int) :
    Except Thrown CartItemWithProduct × App :=
  match getOrCreateCart app userId with
  | (.error e, app1) => (.error e, app1)
  | (.ok cart, app1) =>
    match findUniqueProduct app1.world.db.products productId with
    | none =>
      (.error (PrismaClientKnownRequestError "P2003"
        "Foreign key constraint failed on the field: productId"), app1)
    | some product =>
      match app1.world.db.cartItems.find?
          (fun ci => ci.cartId == cart.id && ci.productId == productId) with
      | some row =>
        if fitsInt4 quantity && fitsInt4 (row.quantity + quantity) then
          (.ok { id := row.id, cartId := row.cartId, productId := row.productId,
                 quantity := row.quantity + quantity, product := product },
           { app1 with
             world := { app1.world with
               db := { app1.world.db with
                 cartItems := app1.world.db.cartItems.map (fun ci =>
                   if ci.cartId == cart.id && ci.productId == productId then
                     { ci with quantity := ci.quantity + quantity }
                   else ci) } } })
        else (.error valueOutOfRange, app1)
      | none =>
        if fitsInt4 quantity then
          (.ok { id := app1.cartItemSeq, cartId := cart.id, productId := productId,
                 quantity := quantity, product := product },
           { app1 with
             world := { app1.world with
               db := { app1.world.db with
                 cartItems := app1.world.db.cartItems ++
                   [{ id := app1.cartItemSeq, cartId := cart.id, productId := productId,
                      quantity := quantity }] } },
             cartItemSeq := app1.cartItemSeq + 1 })
        else (.error valueOutOfRange, app1)

/-- The method `updateItem`: the `update` on the id of the cart item; the
argument `cartId` is not used. A quantity the column cannot hold is refused. -/
def updateItem (db : Db) (_cartId cartItemId : Nat) (quantity : Int) :
    Except Thrown (CartItemWithProduct × Db) :=
  if fitsInt4 quantity then
    match db.cartItems.find? (fun ci => ci.id == cartItemId) with
    | none => .error (PrismaClientKnownRequestError "P2025" "Record to update not found")
    | some row =>
      match findUniqueProduct db.products row.productId with
      | none => .error inconsistentResult
      | some product =>
        .ok ({ id := row.id, cartId := row.cartId, productId := row.productId,
               quantity := quantity, product := product },
             { db with cartItems := db.cartItems.map (fun ci =>
                 if ci.id == cartItemId then { ci with quantity := quantity } else ci) })
  else .error valueOutOfRange

/-- The method `removeItem`: the `delete` on the id of the cart item; the
argument `cartId` is not used. -/
def removeItem (db : Db) (_cartId cartItemId : Nat) : Except Thrown Db :=
  match db.cartItems.find? (fun ci => ci.id == cartItemId) with
  | none => .error (PrismaClientKnownRequestError "P2025" "Record to delete does not exist")
  | some _ => .ok { db with cartItems := db.cartItems.filter (fun ci => !(ci.id == cartItemId)) }

end CartRepository

namespace CartService

/-- The method `getCart`. -/
def getCart (app : App) (userId : Nat) : Except Thrown CartWithItems × App :=
  CartRepository.getOrCreateCart app userId

/-- The test `!quantity || quantity < 1` on what `parseInt` returned: `none` is `NaN`. -/
def quantityRejected : Option Int → Bool
  | none => true
  | some q => q == 0 || decide (q < 1)

/-- The method `addToCart`. -/
def addToCart (app : App) (userId productId : Nat) (quantity : Option Int) :
    Except Thrown CartItemWithProduct × App :=
  if quantityRejected quantity then
    (.error (.app (ValidationError "Quantity must be at least 1")), app)
  else
    match ProductRepository.findById app.world.db productId with
    | none => (.error (.app (NotFoundError "Product not found")), app)
    | some _ => CartRepository.addItem app userId productId (quantity.getD 0)

/-- The method `updateCartItem`. -/
def updateCartItem (app : App) (userId cartItemId : Nat) (quantity : Option Int) :
    Except Thrown CartItemWithProduct × App :=
  if quantityRejected quantity then
    (.error (.app (ValidationError "Quantity must be at least 1")), app)
  else
    match CartRepository.findByUserId app.world.db userId with
    | .error e => (.error e, app)
    | .ok none => (.error (.app (NotFoundError "Cart not found")), app)
    | .ok (some cart) =>
      match cart.items.find? (fun item => item.id == cartItemId) with
      | none => (.error (.app (NotFoundError "Cart item not found")), app)
      | some cartItem =>
        match ProductRepository.findById app.world.db cartItem.productId with
        | none => (.error (.app (NotFoundError "Product not found")), app)
        | some product =>
          if quantity.getD 0 > product.stockQuantity then
            (.error (.app (InsufficientStockError (.num product.id) (.num product.stockQuantity)
              (.num (quantity.getD 0)))), app)
          else
            match CartRepository.updateItem app.world.db cart.id cartItemId (quantity.getD 0) with
            | .error e => (.error e, app)
            | .ok (updatedItem, db1) =>
              (.ok updatedItem, { app with world := { app.world with db := db1 } })

/-- The method `removeFromCart`. -/
def removeFromCart (app : App) (userId cartItemId : Nat) : Except Thrown Unit × App :=
  match CartRepository.findByUserId app.world.db userId with
  | .error e => (.error e, app)
  | .ok none => (.error (.app (NotFoundError "Cart not found")), app)
  | .ok (some cart) =>
    match cart.items.find? (fun item => item.id == cartItemId) with
    | none => (.error (.app (NotFoundError "Cart item not found")), app)
    | some _ =>
      match CartRepository.removeItem app.world.db cart.id cartItemId with
      | .error e => (.error e, app)
      | .ok db1 => (.ok (), { app with world := { app.world with db := db1 } })

/-- The method `clearCart`. -/
def clearCart (app : App) (userId : Nat) : Except Thrown Unit × App :=
  match CartRepository.findByUserId app.world.db userId with
  | .error e => (.error e, app)
  | .ok none => (.error (.app (NotFoundError "Cart not found")), app)
  | .ok (some cart) =>
    (.ok (), { app with world := { app.world with db := CartRepository.clearCart app.world.db cart.id } })

end CartService

/-- A request to the server. -/
inductive Operation where
  | getCart (userId : Nat)
  | addToCart (userId productId : Nat) (quantity : Option Int)
  | updateCartItem (userId cartItemId : Nat) (quantity : Option Int)
  | removeFromCart (userId cartItemId : Nat)
  | clearCart (userId : Nat)
  | createOrder (userId : Nat)
  | getProducts (filters : Filters)
  | catalogue (write : CatalogueWrite)
deriving DecidableEq, Repr

/-- The server after the request, whether it is answered with a result or an error. -/
def Operation.run (backend : QueueBackend) (schema : Schema) (app : App) : Operation → App
  | .getCart userId => (CartService.getCart app userId).2
  | .addToCart userId productId quantity => (CartService.addToCart app userId productId quantity).2
  | .updateCartItem userId cartItemId quantity =>
    (CartService.updateCartItem app userId cartItemId quantity).2
  | .removeFromCart userId cartItemId => (CartService.removeFromCart app userId cartItemId).2
  | .clearCart userId => (CartService.clearCart app userId).2
  | .createOrder userId => (App.createOrder backend app userId).2
  | .getProducts filters => (ProductService.getProducts app filters).2
  | .catalogue write => write.run schema app

/-- The server after a sequence of requests. -/
def Operation.runAll (backend : QueueBackend) (schema : Schema) (app : App)
    (ops : List Operation) : App :=
  ops.foldl (Operation.run backend schema) app

/-- The cart item rows of the cart of a user; none when the user has no cart. -/
def userLines (db : Db) (userId : Nat) : List CartItem :=
  match db.carts.find? (fun c => c.userId == userId) with
  | none => []
  | some c => cartLines db c.id

/-- The keys of the cart tables and their sequences: no two carts share an id
or a user, no two cart items share an id or the pair of cart and product,
and the ids in use are below the next id of their sequence. -/
def CartKeys (app : App) : Prop :=
  (app.world.db.carts.map (fun c => c.id)).Nodup ∧
  (app.world.db.carts.map (fun c => c.userId)).Nodup ∧
  (app.world.db.cartItems.map (fun ci => ci.id)).Nodup ∧
  (app.world.db.cartItems.map (fun ci => (ci.cartId, ci.productId))).Nodup ∧
  (∀ c ∈ app.world.db.carts, c.id < app.cartSeq) ∧
  (∀ ci ∈ app.world.db.cartItems, ci.id < app.cartItemSeq) ∧
  (∀ ci ∈ app.world.db.cartItems, ci.cartId < app.cartSeq)

instance (app : App) : Decidable (CartKeys app) := by
  unfold CartKeys
  infer_instance

/-- Every cart line has a quantity of at least 1. -/
def QuantitiesPositive (db : Db) : Prop :=
  ∀ ci ∈ db.cartItems, 1 ≤ ci.quantity

instance (db : Db) : Decidable (QuantitiesPositive db) := by
  unfold QuantitiesPositive
  infer_instance

/-- A server with the users and products of test 1 and no cart yet. -/
def freshApp : App :=
  { world := { db := { happyDb with carts := [], cartItems := [] }, emailJobs := [] },
    cache := [], productSeq := 3, cartSeq := 1, cartItemSeq := 1 }

/-- The user in whose name a request runs; `none` for a request to the catalogue. -/
def Operation.actor : Operation → Option Nat
  | .getCart userId => some userId
  | .addToCart userId _ _ => some userId
  | .updateCartItem userId _ _ => some userId
  | .removeFromCart userId _ => some userId
  | .clearCart userId => some userId
  | .createOrder userId => some userId
  | .getProducts _ => none
  | .catalogue _ => none

/-- The user for whom a request calls `getOrCreateCart`, if it does. -/
def Operation.opener : Operation → Option Nat
  | .getCart userId => some userId
  | .addToCart userId _ _ => some userId
  | _ => none

/-- The cart item is a row of the cart of the user. -/
def ownedBy (app : App) (userId : Nat) (ci : CartItem) : Prop :=
  ∃ c ∈ app.world.db.carts, c.id = ci.cartId ∧ c.userId = userId

/-- One change of the cart tables and their sequences from `a` to `b`, made
for `actor` (`none`: for an administrator) by a request that calls
`getOrCreateCart` for `opener`: nothing, a new cart row, new quantities on
rows of the actor, a new row in a cart of the actor, or the removal of rows
of the actor (of any rows for an administrator). -/
inductive CartStep (actor opener : Option Nat) (a b : App) : Prop where
  | same
      (hc : b.world.db.carts = a.world.db.carts)
      (hi : b.world.db.cartItems = a.world.db.cartItems)
      (hs : b.cartSeq = a.cartSeq) (ht : b.cartItemSeq = a.cartItemSeq)
  | newCart (userId : Nat) (ho : opener = some userId)
      (hnone : a.world.db.carts.find? (fun c => c.userId == userId) = none)
      (hc : b.world.db.carts = a.world.db.carts ++ [{ id := a.cartSeq, userId := userId }])
      (hi : b.world.db.cartItems = a.world.db.cartItems)
      (hs : b.cartSeq = a.cartSeq + 1) (ht : b.cartItemSeq = a.cartItemSeq)
  | setQuantity (touched : CartItem → Bool) (quantity : CartItem → Int)
      (hown : ∀ ci ∈ a.world.db.cartItems, touched ci = true →
        ∃ userId, actor = some userId ∧ ownedBy a userId ci)
      (hq : ∀ ci ∈ a.world.db.cartItems, touched ci = true → 1 ≤ ci.quantity → 1 ≤ quantity ci)
      (hc : b.world.db.carts = a.world.db.carts)
      (hi : b.world.db.cartItems = a.world.db.cartItems.map (fun ci =>
        if touched ci then { ci with quantity := quantity ci } else ci))
      (hs : b.cartSeq = a.cartSeq) (ht : b.cartItemSeq = a.cartItemSeq)
  | newLine (userId cartId productId : Nat) (quantity : Int) (ha : actor = some userId)
      (hcart : ∃ c ∈ a.world.db.carts, c.id = cartId ∧ c.userId = userId)
      (hfree : ∀ ci ∈ a.world.db.cartItems, ¬ (ci.cartId = cartId ∧ ci.productId = productId))
      (hq : 1 ≤ quantity)
      (hc : b.world.db.carts = a.world.db.carts)
      (hi : b.world.db.cartItems = a.world.db.cartItems ++
        [{ id := a.cartItemSeq, cartId := cartId, productId := productId, quantity := quantity }])
      (hs : b.cartSeq = a.cartSeq) (ht : b.cartItemSeq = a.cartItemSeq + 1)
  | remove (keep : CartItem → Bool)
      (hown : ∀ ci ∈ a.world.db.cartItems, keep ci = false →
        actor = none ∨ ∃ userId, actor = some userId ∧ ownedBy a userId ci)
      (hc : b.world.db.carts = a.world.db.carts)
      (hi : b.world.db.cartItems = a.world.db.cartItems.filter keep)
      (hs : b.cartSeq = a.cartSeq) (ht : b.cartItemSeq = a.cartItemSeq)

/-- A server with the two users of `scripts/test-race-local.js`: user 1 has
cart 1 with the cart item 1, user 2 has cart 2 with the cart item 2, both
for one unit of the product, of which 5 are in stock. -/
def twoCartsApp : App :=
  { world := { db := raceDb (raceProduct 5) 2, emailJobs := [] }, cache := [], productSeq := 2,
    cartSeq := 3, cartItemSeq := 3 }

/-! # Theorems -/

/-! ## The shape of a call -/

open OrderService

theorem transaction_error {α : Type} (cb : Db → Except Thrown (α × Db)) (db : Db) (e : Thrown)
    (h : cb db = .error e) : transaction cb db = (.error e, db) := by
  simp [transaction, h]

theorem transaction_ok {α : Type} (cb : Db → Except Thrown (α × Db)) (db db1 : Db) (a : α)
    (h : cb db = .ok (a, db1)) : transaction cb db = (.ok a, db1) := by
  simp [transaction, h]

/-- A call of `createOrder` either fails and leaves the world as it was, or
went through the cart read, the validation, the snapshot and a transaction
that returned. -/
theorem createOrder_cases (backend : QueueBackend) (w : World) (userId : Nat) :
    (∃ e, createOrder backend w userId = (.error e, w)) ∨
    (∃ cart cartItems pv o db1,
      CartRepository.findByUserId w.db userId = .ok (some cart) ∧
      CartService.validateCartForCheckout w.db cart.id = .ok cartItems ∧
      fetchProductVersions w.db cartItems [] = .ok pv ∧
      checkoutTx userId cart.id cartItems pv w.db = .ok (o, db1) ∧
      createOrder backend w userId =
        (.ok o, { db := db1, emailJobs := queueConfirmation backend w.emailJobs o })) := by
  cases hc : CartRepository.findByUserId w.db userId with
  | error e => exact Or.inl ⟨e, by simp [createOrder, hc]⟩
  | ok oc =>
    cases oc with
    | none => exact Or.inl ⟨.app (NotFoundError "Cart not found"), by simp [createOrder, hc]⟩
    | some cart =>
      cases hv : CartService.validateCartForCheckout w.db cart.id with
      | error e => exact Or.inl ⟨e, by simp [createOrder, hc, hv]⟩
      | ok cartItems =>
        by_cases hl : cartItems.length = 0
        · exact Or.inl ⟨.app (ValidationError "Cannot checkout with empty cart"),
            by simp [createOrder, hc, hv, hl]⟩
        · cases hf : fetchProductVersions w.db cartItems [] with
          | error e => exact Or.inl ⟨e, by simp [createOrder, hc, hv, hl, hf]⟩
          | ok pv =>
            cases ht : checkoutTx userId cart.id cartItems pv w.db with
            | error e =>
              exact Or.inl ⟨e, by simp [createOrder, hc, hv, hl, hf, transaction_error _ _ _ ht]⟩
            | ok r =>
              obtain ⟨o, db1⟩ := r
              right
              refine ⟨cart, cartItems, pv, o, db1, rfl, hv, hf, ht, ?_⟩
              simp [createOrder, hc, hv, hl, hf, transaction_ok _ _ _ _ ht]

/-- A transaction callback that returned went through the loop, the order
creation and the cart deletion. -/
theorem checkoutTx_ok (userId cartId : Nat) (cartItems : List CartItemWithProduct)
    (pv : ProductVersions) (db db1 : Db) (o : CreatedOrder)
    (h : checkoutTx userId cartId cartItems pv db = .ok (o, db1)) :
    ∃ st dbo, checkoutLoop pv cartItems { db := db, totalPrice := 0, orderItems := [] } = .ok st ∧
      orderCreate st.db userId st.totalPrice "COMPLETED" st.orderItems = .ok (o, dbo) ∧
      db1 = CartRepository.clearCart dbo cartId := by
  unfold checkoutTx at h
  cases hl : checkoutLoop pv cartItems { db := db, totalPrice := 0, orderItems := [] } with
  | error e => simp [hl] at h
  | ok st =>
    cases ho : orderCreate st.db userId st.totalPrice "COMPLETED" st.orderItems with
    | error e => simp [hl, ho] at h
    | ok r =>
      obtain ⟨o1, dbo⟩ := r
      simp [hl, ho] at h
      exact ⟨st, dbo, rfl, by rw [ho, h.1], h.2.symm⟩

/-- The order creation, when it returns: the tables it leaves and the order it returns. -/
theorem orderCreate_ok (db dbo : Db) (userId : Nat) (total : Int) (status : String)
    (items : List OrderItemData) (o : CreatedOrder)
    (h : orderCreate db userId total status items = .ok (o, dbo)) :
    dbo = { db with orders := db.orders ++ [o.order],
                    nextOrderId := db.nextOrderId + 1,
                    nextOrderItemId := db.nextOrderItemId + items.length } ∧
    o.order = { id := db.nextOrderId, userId := userId, totalPrice := total, status := status,
                items := numberItems db.nextOrderId db.nextOrderItemId items } := by
  unfold orderCreate at h
  cases hu : db.users.find? (fun u => u.id == userId) with
  | none => simp [hu] at h
  | some u =>
    simp [hu] at h
    obtain ⟨h1, h2⟩ := h
    subst h1
    exact ⟨h2.symm, rfl⟩

/-! ## A call that runs alone is `createOrder` -/

theorem Call.run_done (backend : QueueBackend) (fuel : Nat) (result : Except Thrown CreatedOrder)
    (w : World) : Call.run backend fuel (.done result) w = (.done result, w) := by
  induction fuel with
  | zero => rfl
  | succ fuel ih => simpa [Call.run, Call.step] using ih

theorem Call.run_add (backend : QueueBackend) (a b : Nat) (c : Call) (w : World) :
    Call.run backend (a + b) c w =
      Call.run backend b (Call.run backend a c w).1 (Call.run backend a c w).2 := by
  induction a generalizing c w with
  | zero => simp [Call.run]
  | succ a ih =>
    rw [Nat.succ_add]
    simp only [Call.run]
    exact ih _ _

/-- The steps of the snapshot loop, run without another call in between, are
the loop of lines 41-48. -/
theorem Call.run_snapshot (backend : QueueBackend) (userId : Nat) (cart : CartWithItems)
    (cartItems todo : List CartItemWithProduct) (pv : ProductVersions) (w : World) :
    Call.run backend todo.length (.snapshot userId cart cartItems todo pv) w =
      match fetchProductVersions w.db todo pv with
      | .error e => (.done (.error e), w)
      | .ok pv1 => (.snapshot userId cart cartItems [] pv1, w) := by
  induction todo generalizing pv with
  | nil => rfl
  | cons item rest ih =>
    simp only [List.length_cons, Call.run, Call.step, fetchProductVersions]
    cases ProductRepository.findByIdWithVersion w.db item.productId with
    | none => exact Call.run_done backend _ _ w
    | some p => exact ih _

/-- A call that takes all its steps with no other call in between ends with
the result and in the world of `createOrder`. -/
theorem createOrder_eq_run (backend : QueueBackend) (w : World) (userId : Nat) :
    ∃ fuel, Call.run backend fuel (.start userId) w =
      (.done (createOrder backend w userId).1, (createOrder backend w userId).2) := by
  cases hc : CartRepository.findByUserId w.db userId with
  | error e => exact ⟨1, by simp [Call.run, Call.step, createOrder, hc]⟩
  | ok oc =>
    cases oc with
    | none => exact ⟨1, by simp [Call.run, Call.step, createOrder, hc]⟩
    | some cart =>
      cases hv : CartService.validateCartForCheckout w.db cart.id with
      | error e => exact ⟨2, by simp [Call.run, Call.step, createOrder, hc, hv]⟩
      | ok cartItems =>
        by_cases hl : cartItems.length = 0
        · exact ⟨2, by simp [Call.run, Call.step, createOrder, hc, hv, hl]⟩
        · have h2 : Call.run backend 2 (.start userId) w =
              (.snapshot userId cart cartItems cartItems [], w) := by
            simp [Call.run, Call.step, hc, hv, hl]
          refine ⟨2 + (cartItems.length + 2), ?_⟩
          rw [Call.run_add, h2, Call.run_add, Call.run_snapshot]
          cases hf : fetchProductVersions w.db cartItems [] with
          | error e =>
            simp only [Call.run_done]
            simp [createOrder, hc, hv, hl, hf]
          | ok pv =>
            cases ht : checkoutTx userId cart.id cartItems pv w.db with
            | error e =>
              simp [Call.run, Call.step, createOrder, hc, hv, hl, hf,
                transaction_error _ _ _ ht]
            | ok r =>
              obtain ⟨o, db1⟩ := r
              simp [Call.run, Call.step, createOrder, hc, hv, hl, hf,
                transaction_ok _ _ _ _ ht]

/-! ## The loop of the transaction, step by step -/

/-- A loop body that returned: the snapshot it used, the update that matched
and the state it left. -/
theorem checkoutItem_ok (pv : ProductVersions) (item : CartItemWithProduct) (st st1 : TxState)
    (h : checkoutItem pv item st = .ok st1) :
    ∃ product, pv.get item.productId = some product ∧
      (conditionalUpdate st.db.products item.productId product.version item.quantity).2 ≠ 0 ∧
      st1 = { db := { st.db with products :=
                (conditionalUpdate st.db.products item.productId product.version item.quantity).1 },
              totalPrice := st.totalPrice + (product.price : Int) * item.quantity,
              orderItems := st.orderItems ++
                [{ productId := item.productId, quantity := item.quantity,
                   priceAtPurchase := product.price }] } := by
  unfold checkoutItem at h
  cases hg : pv.get item.productId with
  | none => simp [hg] at h
  | some product =>
    simp only [hg] at h
    by_cases hz : (conditionalUpdate st.db.products item.productId product.version item.quantity).2 = 0
    · simp [hz] at h
    · simp only [hz, if_false] at h
      exact ⟨product, rfl, hz, (Except.ok.inj h).symm⟩

/-- A property of the product table that every conditional update keeps is
kept by the loop of the transaction. -/
theorem checkoutLoop_products (P : List Product → Prop)
    (hP : ∀ rows productId version quantity, P rows →
      P (conditionalUpdate rows productId version quantity).1)
    (pv : ProductVersions) (cartItems : List CartItemWithProduct) (st st1 : TxState)
    (h : checkoutLoop pv cartItems st = .ok st1) (h0 : P st.db.products) :
    P st1.db.products := by
  induction cartItems generalizing st with
  | nil =>
    simp only [checkoutLoop] at h
    cases h
    exact h0
  | cons item rest ih =>
    simp only [checkoutLoop] at h
    cases hi : checkoutItem pv item st with
    | error e => simp [hi] at h
    | ok st2 =>
      simp only [hi] at h
      obtain ⟨product, -, -, hst⟩ := checkoutItem_ok pv item st st2 hi
      apply ih st2 h
      rw [hst]
      exact hP _ _ _ _ h0

/-- The loop of the transaction writes the product table only. -/
theorem checkoutLoop_frame (pv : ProductVersions) (cartItems : List CartItemWithProduct)
    (st st1 : TxState) (h : checkoutLoop pv cartItems st = .ok st1) :
    st1.db = { st.db with products := st1.db.products } := by
  induction cartItems generalizing st with
  | nil =>
    simp only [checkoutLoop] at h
    cases h
    rfl
  | cons item rest ih =>
    simp only [checkoutLoop] at h
    cases hi : checkoutItem pv item st with
    | error e => simp [hi] at h
    | ok st2 =>
      simp only [hi] at h
      obtain ⟨product, -, -, hst⟩ := checkoutItem_ok pv item st st2 hi
      rw [ih st2 h, hst]

/-- A transaction callback that returned: what it left in every table. -/
theorem checkoutTx_frame (userId cartId : Nat) (cartItems : List CartItemWithProduct)
    (pv : ProductVersions) (db db1 : Db) (o : CreatedOrder)
    (h : checkoutTx userId cartId cartItems pv db = .ok (o, db1)) :
    ∃ st, checkoutLoop pv cartItems { db := db, totalPrice := 0, orderItems := [] } = .ok st ∧
      db1 = { users := db.users,
              products := st.db.products,
              carts := db.carts,
              cartItems := db.cartItems.filter (fun ci => !(ci.cartId == cartId)),
              orders := db.orders ++ [o.order],
              nextOrderId := db.nextOrderId + 1,
              nextOrderItemId := db.nextOrderItemId + st.orderItems.length } ∧
      o.order = { id := db.nextOrderId, userId := userId, totalPrice := st.totalPrice,
                  status := "COMPLETED",
                  items := numberItems db.nextOrderId db.nextOrderItemId st.orderItems } := by
  obtain ⟨st, dbo, hl, ho, hdb⟩ := checkoutTx_ok userId cartId cartItems pv db db1 o h
  obtain ⟨h1, h2⟩ := orderCreate_ok _ _ _ _ _ _ _ ho
  have hf := checkoutLoop_frame pv cartItems _ st hl
  refine ⟨st, hl, ?_, ?_⟩
  · rw [hdb, h1, hf]
    rfl
  · rw [h2, hf]

/-- A call of `createOrder` that fails leaves the world as it was. -/
theorem createOrder_error_world (backend : QueueBackend) (w : World) (userId : Nat) (e : Thrown)
    (h : (createOrder backend w userId).1 = .error e) : (createOrder backend w userId).2 = w := by
  rcases createOrder_cases backend w userId with ⟨e1, he⟩ | ⟨_, _, _, o, db1, -, -, -, -, hc⟩
  · rw [he]
  · rw [hc] at h
    cases h

/-- A step of a call that is not the commit of its transaction leaves the database as it was. -/
theorem Call.step_db (backend : QueueBackend) (c : Call) (w : World)
    (h : ∀ o, (Call.step backend c w).1 ≠ .committed o) : (Call.step backend c w).2.db = w.db := by
  cases c with
  | start userId =>
    simp only [Call.step]
    cases CartRepository.findByUserId w.db userId with
    | error e => rfl
    | ok oc => cases oc <;> rfl
  | cartFound userId cart =>
    simp only [Call.step]
    cases CartService.validateCartForCheckout w.db cart.id with
    | error e => rfl
    | ok cartItems => by_cases hl : cartItems.length = 0 <;> simp [hl]
  | snapshot userId cart cartItems todo pv =>
    cases todo with
    | cons item rest =>
      simp only [Call.step]
      cases ProductRepository.findByIdWithVersion w.db item.productId <;> rfl
    | nil =>
      cases ht : checkoutTx userId cart.id cartItems pv w.db with
      | error e => simp [Call.step, transaction_error _ _ _ ht]
      | ok r =>
        obtain ⟨o, db1⟩ := r
        exact absurd (by simp [Call.step, transaction_ok _ _ _ _ ht]) (h o)
  | committed order => rfl
  | done result => rfl

theorem conditionalUpdate_stockNonneg (rows : List Product) (productId : Nat) (version quantity : Int)
    (h : ∀ p ∈ rows, 0 ≤ p.stockQuantity) :
    ∀ p ∈ (conditionalUpdate rows productId version quantity).1, 0 ≤ p.stockQuantity := by
  intro p hp
  simp only [conditionalUpdate, updateMany, List.mem_map] at hp
  obtain ⟨a, ha, rfl⟩ := hp
  have h0 := h a ha
  split
  · rename_i hc
    simp only [Bool.and_eq_true, decide_eq_true_eq] at hc
    have := hc.2
    show 0 ≤ a.stockQuantity - quantity
    omega
  · exact h0

/-- A call of `createOrder` keeps every stock non-negative. -/
theorem createOrder_stockNonneg (backend : QueueBackend) (w : World) (userId : Nat)
    (h : StockNonneg w.db) : StockNonneg (createOrder backend w userId).2.db := by
  rcases createOrder_cases backend w userId with ⟨e, he⟩ | ⟨cart, cartItems, pv, o, db1, -, -, -, ht, hc⟩
  · rw [he]; exact h
  · rw [hc]
    obtain ⟨st, hl, hdb, -⟩ := checkoutTx_frame _ _ _ _ _ _ _ ht
    have := checkoutLoop_products (fun rows => ∀ p ∈ rows, 0 ≤ p.stockQuantity)
      (fun rows productId version quantity hr =>
        conditionalUpdate_stockNonneg rows productId version quantity hr)
      pv cartItems _ st hl h
    show StockNonneg db1
    rw [hdb]
    exact this

/-- A step of a call, whatever its state, keeps every stock non-negative. -/
theorem Call.step_stockNonneg (backend : QueueBackend) (c : Call) (w : World)
    (h : StockNonneg w.db) : StockNonneg (Call.step backend c w).2.db := by
  cases c with
  | snapshot userId cart cartItems todo pv =>
    cases todo with
    | cons item rest =>
      rw [Call.step_db backend _ w (by
        intro o
        simp only [Call.step]
        cases ProductRepository.findByIdWithVersion w.db item.productId <;> simp)]
      exact h
    | nil =>
      cases ht : checkoutTx userId cart.id cartItems pv w.db with
      | error e =>
        simp only [Call.step, transaction_error _ _ _ ht]
        exact h
      | ok r =>
        obtain ⟨o, db1⟩ := r
        simp only [Call.step, transaction_ok _ _ _ _ ht]
        obtain ⟨st, hl, hdb, -⟩ := checkoutTx_frame _ _ _ _ _ _ _ ht
        have := checkoutLoop_products (fun rows => ∀ p ∈ rows, 0 ≤ p.stockQuantity)
          (fun rows productId version quantity hr =>
            conditionalUpdate_stockNonneg rows productId version quantity hr)
          pv cartItems _ st hl h
        show StockNonneg db1
        rw [hdb]
        exact this
  | start userId =>
    rw [Call.step_db backend _ w (by
      intro o
      simp only [Call.step]
      cases CartRepository.findByUserId w.db userId with
      | error e => simp
      | ok oc => cases oc <;> simp)]
    exact h
  | cartFound userId cart =>
    rw [Call.step_db backend _ w (by
      intro o
      simp only [Call.step]
      cases CartService.validateCartForCheckout w.db cart.id with
      | error e => simp
      | ok cartItems => by_cases hl : cartItems.length = 0 <;> simp [hl])]
    exact h
  | committed order => exact h
  | done result => exact h

/-- C1. Stock never goes negative: when every product has a stock of at
least 0, every product still has after a call of `createOrder`, whether it
returned an order or failed; hence also after any sequence of calls, and
after any schedule of the steps of concurrent calls. -/
theorem stock_never_negative (backend : QueueBackend) (w : World) (h : StockNonneg w.db) :
    (∀ userId, StockNonneg (createOrder backend w userId).2.db) ∧
    (∀ userIds, StockNonneg (checkouts backend w userIds).db) ∧
    (∀ calls schedule,
      StockNonneg (System.run backend { world := w, calls := calls } schedule).world.db) := by
  refine ⟨fun userId => createOrder_stockNonneg backend w userId h, ?_, ?_⟩
  · intro userIds
    induction userIds generalizing w with
    | nil => exact h
    | cons u rest ih =>
      exact ih _ (createOrder_stockNonneg backend w u h)
  · intro calls schedule
    have : ∀ sys : System, StockNonneg sys.world.db →
        StockNonneg (System.run backend sys schedule).world.db := by
      induction schedule with
      | nil => exact fun sys hs => hs
      | cons i rest ih =>
        intro sys hs
        apply ih
        unfold System.step
        cases sys.calls.get? i with
        | none => exact hs
        | some c => exact Call.step_stockNonneg backend c sys.world hs
    exact this _ h

/-- C1 at the database of test 1, for the customer and for a user without a cart. -/
theorem stock_never_negative_witness :
    StockNonneg happyDb ∧
    StockNonneg (checkouts .real { db := happyDb, emailJobs := [] } [1, 7, 1]).db :=
  ⟨by decide,
   (stock_never_negative .real { db := happyDb, emailJobs := [] } (by decide)).2.1 [1, 7, 1]⟩

/-! ## Rollback -/

theorem checkoutLoop_append (pv : ProductVersions) (pre rest : List CartItemWithProduct)
    (st : TxState) :
    checkoutLoop pv (pre ++ rest) st =
      match checkoutLoop pv pre st with
      | .error e => .error e
      | .ok st1 => checkoutLoop pv rest st1 := by
  induction pre generalizing st with
  | nil => simp [checkoutLoop]
  | cons item pre ih =>
    simp only [List.cons_append, checkoutLoop]
    cases checkoutItem pv item st with
    | error e => rfl
    | ok st2 => exact ih st2

/-- A conditional update that matches no row makes the loop body throw the
classified error. -/
theorem checkoutItem_miss (pv : ProductVersions) (item : CartItemWithProduct) (st : TxState)
    (product : Product) (hpv : pv.get item.productId = some product)
    (hmiss : (conditionalUpdate st.db.products item.productId product.version item.quantity).2 = 0) :
    checkoutItem pv item st =
      .error (classifyFailure
        (conditionalUpdate st.db.products item.productId product.version item.quantity).1
        item product) := by
  simp [checkoutItem, hpv, hmiss]

/-- The transaction of a cart whose first lines are written and whose next
line matches no row throws, and the database is the one from before. -/
theorem transaction_rollback (userId cartId : Nat) (pre post : List CartItemWithProduct)
    (item : CartItemWithProduct) (product : Product) (pv : ProductVersions) (db : Db) (st : TxState)
    (hpre : checkoutLoop pv pre { db := db, totalPrice := 0, orderItems := [] } = .ok st)
    (hpv : pv.get item.productId = some product)
    (hmiss : (conditionalUpdate st.db.products item.productId product.version item.quantity).2 = 0) :
    transaction (checkoutTx userId cartId (pre ++ item :: post) pv) db =
      (.error (classifyFailure
        (conditionalUpdate st.db.products item.productId product.version item.quantity).1
        item product), db) := by
  apply transaction_error
  simp [checkoutTx, checkoutLoop_append, hpre, checkoutLoop, checkoutItem_miss pv item st product hpv hmiss]

/-- C2. Rollback of partial decrements: when the transaction of a call has
written the stock of the first `k ≥ 1` cart lines and the conditional update
of the next line matches no row, the call fails and the world (every product
row with its stock and version, the orders with their lines, every other
table) is exactly the one from before the transaction. -/
theorem rollback_of_partial_decrements (backend : QueueBackend) (w : World) (userId : Nat)
    (cart : CartWithItems) (pre post : List CartItemWithProduct) (item : CartItemWithProduct)
    (product : Product) (pv : ProductVersions) (st : TxState)
    (hk : 1 ≤ pre.length)
    (hpre : checkoutLoop pv pre { db := w.db, totalPrice := 0, orderItems := [] } = .ok st)
    (hpv : pv.get item.productId = some product)
    (hmiss : (conditionalUpdate st.db.products item.productId product.version item.quantity).2 = 0) :
    2 ≤ (pre ++ item :: post).length ∧
    Call.step backend (.snapshot userId cart (pre ++ item :: post) [] pv) w =
      (.done (.error (classifyFailure
        (conditionalUpdate st.db.products item.productId product.version item.quantity).1
        item product)), w) := by
  refine ⟨by simp; omega, ?_⟩
  simp only [Call.step]
  rw [transaction_rollback userId cart.id pre post item product pv w.db st hpre hpv hmiss]

/-- C2 at `staleCall`: the first line takes product 1 from stock 5 to 3 inside
the transaction, the second finds stock 1 below 2, and the call fails with
the database as before. -/
theorem rollback_of_partial_decrements_witness :
    Call.step .real staleCall { db := staleDb, emailJobs := [] } =
      (.done (.error (stockError
        { id := 2, name := "Test Mouse", price := 2999, stockQuantity := 1, version := 1 }
        { id := 2, name := "Test Mouse", price := 2999, stockQuantity := 1, version := 1 })),
       { db := staleDb, emailJobs := [] }) :=
  (rollback_of_partial_decrements .real { db := staleDb, emailJobs := [] } 1
    staleCart [staleLine1] [] staleLine2
    { id := 2, name := "Test Mouse", price := 2999, stockQuantity := 1, version := 1 }
    staleVersions
    { db := { staleDb with products :=
        [{ id := 1, name := "Test Laptop", price := 99999, stockQuantity := 3, version := 1 },
         { id := 2, name := "Test Mouse", price := 2999, stockQuantity := 1, version := 1 }] },
      totalPrice := 199998,
      orderItems := [{ productId := 1, quantity := 2, priceAtPurchase := 99999 }] }
    (by decide) (by decide) (by decide) (by decide)).2

/-! ## The product table -/

theorem findUniqueProduct_some (rows : List Product) (id : Nat) (p : Product)
    (h : findUniqueProduct rows id = some p) : p ∈ rows ∧ p.id = id := by
  unfold findUniqueProduct at h
  exact ⟨List.mem_of_find?_eq_some h, by simpa using List.find?_some h⟩

theorem findUniqueProduct_of_mem (rows : List Product) (p : Product)
    (hkey : (rows.map (fun p => p.id)).Nodup) (hp : p ∈ rows) :
    findUniqueProduct rows p.id = some p := by
  induction rows with
  | nil => simp at hp
  | cons r rows ih =>
    simp only [List.map_cons, List.nodup_cons, List.mem_map, not_exists, not_and] at hkey
    rcases List.mem_cons.mp hp with rfl | hmem
    · simp [findUniqueProduct]
    · have hne : r.id ≠ p.id := fun h => hkey.1 p hmem h.symm
      have := ih hkey.2 hmem
      simp only [findUniqueProduct] at this ⊢
      rw [List.find?_cons_of_neg _ (by simpa using hne)]
      exact this

theorem findUniqueProduct_none (rows : List Product) (id : Nat)
    (h : findUniqueProduct rows id = none) : ∀ p ∈ rows, p.id ≠ id := by
  intro p hp
  have := List.find?_eq_none.mp h p hp
  simpa using this

theorem findUniqueProduct_map (rows : List Product) (f : Product → Product)
    (hf : ∀ p, (f p).id = p.id) (id : Nat) :
    findUniqueProduct (rows.map f) id = (findUniqueProduct rows id).map f := by
  induction rows with
  | nil => rfl
  | cons r rows ih =>
    simp only [findUniqueProduct, List.map_cons] at ih ⊢
    by_cases h : r.id = id
    · rw [List.find?_cons_of_pos _ (by simpa [hf] using h),
        List.find?_cons_of_pos _ (by simpa using h)]
      rfl
    · rw [List.find?_cons_of_neg _ (by simpa [hf] using h),
        List.find?_cons_of_neg _ (by simpa using h)]
      exact ih

theorem purchaseLine_id (productId : Nat) (quantity : Int) (p : Product) :
    (purchaseLine productId quantity p).id = p.id := by
  unfold purchaseLine
  split <;> rfl

theorem purchase_id (cartItems : List CartItemWithProduct) (p : Product) :
    (purchase cartItems p).id = p.id := by
  induction cartItems generalizing p with
  | nil => rfl
  | cons item rest ih =>
    simp only [purchase, List.foldl_cons] at ih ⊢
    rw [ih, purchaseLine_id]

/-- A product no cart line names is left as it is. -/
theorem purchase_of_not_mem (cartItems : List CartItemWithProduct) (p : Product)
    (h : p.id ∉ cartItems.map (fun item => item.productId)) : purchase cartItems p = p := by
  induction cartItems generalizing p with
  | nil => rfl
  | cons item rest ih =>
    simp only [List.map_cons, List.mem_cons, not_or] at h
    simp only [purchase, List.foldl_cons]
    have : purchaseLine item.productId item.quantity p = p := by simp [purchaseLine, h.1]
    rw [this]
    exact ih p h.2

/-- A product named by one cart line, on a cart of distinct products, is
left with its stock less the quantity and its version one more. -/
theorem purchase_of_mem (cartItems : List CartItemWithProduct) (item : CartItemWithProduct)
    (p : Product) (hd : (cartItems.map (fun item => item.productId)).Nodup)
    (hi : item ∈ cartItems) (hp : p.id = item.productId) :
    purchase cartItems p =
      { p with stockQuantity := p.stockQuantity - item.quantity, version := p.version + 1 } := by
  induction cartItems generalizing p with
  | nil => simp at hi
  | cons head rest ih =>
    simp only [List.map_cons, List.nodup_cons, List.mem_map, not_exists, not_and] at hd
    simp only [purchase, List.foldl_cons]
    rcases List.mem_cons.mp hi with rfl | hmem
    · have h1 : purchaseLine item.productId item.quantity p =
          { p with stockQuantity := p.stockQuantity - item.quantity, version := p.version + 1 } := by
        simp [purchaseLine, hp]
      rw [h1]
      apply purchase_of_not_mem
      simp only [List.mem_map, not_exists, not_and]
      intro x hx hxe
      exact hd.1 x hx (by rw [hxe]; exact hp)
    · have hne : p.id ≠ head.productId := by
        intro h
        exact hd.1 item hmem (by rw [← hp, h])
      have h1 : purchaseLine head.productId head.quantity p = p := by simp [purchaseLine, hne]
      rw [h1]
      exact ih p hd.2 hmem hp

/-- The conditional update of a product whose one row has the expected version
and enough stock: that row is rewritten and the count is not 0. -/
theorem conditionalUpdate_hit (rows : List Product) (productId : Nat) (version quantity : Int)
    (p : Product) (hkey : (rows.map (fun p => p.id)).Nodup)
    (hfind : findUniqueProduct rows productId = some p)
    (hv : p.version = version) (hq : quantity ≤ p.stockQuantity) :
    conditionalUpdate rows productId version quantity =
      (rows.map (purchaseLine productId quantity), 1) := by
  obtain ⟨hmem, hid⟩ := findUniqueProduct_some rows productId p hfind
  have huniq : ∀ r ∈ rows, r.id = productId → r = p := by
    intro r hr hrid
    have h1 := findUniqueProduct_of_mem rows r hkey hr
    rw [hrid, hfind] at h1
    exact (Option.some.inj h1).symm
  have hcond : ∀ r ∈ rows,
      (r.id == productId && r.version == version && decide (r.stockQuantity ≥ quantity)) =
        decide (r.id = productId) := by
    intro r hr
    by_cases h : r.id = productId
    · have := huniq r hr h
      subst this
      simp [h, hv, hq]
    · simp [h]
  simp only [conditionalUpdate, updateMany, Prod.mk.injEq]
  constructor
  · apply List.map_congr_left
    intro r hr
    rw [hcond r hr]
    unfold purchaseLine
    by_cases h : r.id = productId <;> simp [h]
  · rw [List.filter_congr hcond]
    have hnd : rows.Nodup := List.Nodup.of_map _ hkey
    have : rows.filter (fun r => decide (r.id = productId)) = [p] := by
      have hsub : ∀ r, r ∈ rows.filter (fun r => decide (r.id = productId)) ↔ r ∈ [p] := by
        intro r
        simp only [List.mem_filter, decide_eq_true_eq, List.mem_singleton]
        constructor
        · rintro ⟨hr, hrid⟩
          exact huniq r hr hrid
        · rintro rfl
          exact ⟨hmem, hid⟩
      have hperm := (List.perm_ext_iff_of_nodup (hnd.filter _) (List.nodup_singleton p)).mpr hsub
      exact List.perm_singleton.mp hperm
    rw [this]
    rfl

/-! ## The reads before the transaction -/

/-- A join that returned: the items are the rows, each with the product row of its id. -/
theorem includeProduct_spec (products : List Product) (lines : List CartItem)
    (items : List CartItemWithProduct) (h : includeProduct products lines = .ok items) :
    items.map CartItemWithProduct.toCartItem = lines ∧
    ∀ item ∈ items, findUniqueProduct products item.productId = some item.product := by
  induction lines generalizing items with
  | nil =>
    simp only [includeProduct] at h
    cases h
    simp
  | cons l rest ih =>
    simp only [includeProduct] at h
    cases hf : findUniqueProduct products l.productId with
    | none => simp [hf] at h
    | some p =>
      cases hr : includeProduct products rest with
      | error e => simp [hf, hr] at h
      | ok tail =>
        simp only [hf, hr] at h
        cases h
        obtain ⟨h1, h2⟩ := ih tail hr
        refine ⟨by simp [CartItemWithProduct.toCartItem, h1], ?_⟩
        intro item hi
        rcases List.mem_cons.mp hi with rfl | hm
        · exact hf
        · exact h2 item hm

/-- The join returns when every row has its product. -/
theorem includeProduct_ok (products : List Product) (lines : List CartItem)
    (h : ∀ l ∈ lines, ∃ p, findUniqueProduct products l.productId = some p) :
    ∃ items, includeProduct products lines = .ok items := by
  induction lines with
  | nil => exact ⟨[], rfl⟩
  | cons l rest ih =>
    obtain ⟨p, hp⟩ := h l (List.mem_cons_self _ _)
    obtain ⟨tail, ht⟩ := ih (fun l1 hl1 => h l1 (List.mem_cons_of_mem _ hl1))
    exact ⟨{ id := l.id, cartId := l.cartId, productId := l.productId,
             quantity := l.quantity, product := p } :: tail,
      by simp only [includeProduct, hp, ht]⟩

theorem checkStock_ok (cartItems : List CartItemWithProduct)
    (h : ∀ item ∈ cartItems, item.quantity ≤ item.product.stockQuantity) :
    CartService.checkStock cartItems = .ok () := by
  induction cartItems with
  | nil => rfl
  | cons item rest ih =>
    have h1 := h item (List.mem_cons_self _ _)
    simp only [CartService.checkStock, gt_iff_lt, not_lt.mpr h1, if_false]
    exact ih (fun i hi => h i (List.mem_cons_of_mem _ hi))

/-- The stock check either passes, every line being within the stock read
with it, or throws an `InsufficientStockError` built from a line that is not. -/
theorem checkStock_cases (cartItems : List CartItemWithProduct) :
    (CartService.checkStock cartItems = .ok () ∧
      ∀ item ∈ cartItems, item.quantity ≤ item.product.stockQuantity) ∨
    (∃ item ∈ cartItems, item.product.stockQuantity < item.quantity ∧
      CartService.checkStock cartItems =
        .error (.app (InsufficientStockError (.num item.product.id)
          (.num item.product.stockQuantity) (.num item.quantity)))) := by
  induction cartItems with
  | nil => left; simp [CartService.checkStock]
  | cons item rest ih =>
    by_cases hq : item.quantity > item.product.stockQuantity
    · right
      exact ⟨item, List.mem_cons_self _ _, hq, by simp [CartService.checkStock, hq]⟩
    · rcases ih with ⟨hok, hall⟩ | ⟨b, hb, hlt, herr⟩
      · left
        refine ⟨by simp only [CartService.checkStock, hq, if_false]; exact hok, ?_⟩
        intro i hi
        rcases List.mem_cons.mp hi with rfl | hm
        · exact not_lt.mp hq
        · exact hall i hm
      · right
        exact ⟨b, List.mem_cons_of_mem _ hb, hlt,
          by simp only [CartService.checkStock, hq, if_false]; exact herr⟩

theorem ProductVersions.get_set (pv : ProductVersions) (key : Nat) (product : Product) (k : Nat) :
    (pv.set key product).get k = if key = k then some product else pv.get k := by
  unfold ProductVersions.set ProductVersions.get
  by_cases h : key = k
  · simp [h]
  · rw [List.find?_cons_of_neg _ (by simpa using h)]
    simp [h]

/-- A snapshot loop that returned read every product of the cart, and the
object it filled holds under each of their ids the row read. -/
theorem fetchProductVersions_spec (db : Db) (cartItems : List CartItemWithProduct)
    (pv0 pv : ProductVersions) (h : fetchProductVersions db cartItems pv0 = .ok pv) :
    ∀ k, pv.get k =
      if k ∈ cartItems.map (fun item => item.productId) then findUniqueProduct db.products k
      else pv0.get k := by
  induction cartItems generalizing pv0 with
  | nil =>
    simp only [fetchProductVersions] at h
    cases h
    simp
  | cons item rest ih =>
    simp only [fetchProductVersions, ProductRepository.findByIdWithVersion] at h
    cases hf : findUniqueProduct db.products item.productId with
    | none => simp [hf] at h
    | some p =>
      simp only [hf] at h
      intro k
      rw [ih _ h k, ProductVersions.get_set]
      by_cases hk : k ∈ rest.map (fun item => item.productId)
      · simp [hk]
      · by_cases hik : item.productId = k
        · subst hik
          simp [hf]
        · have : ¬ k = item.productId := fun h => hik h.symm
          simp [hk, hik, this]

/-- The snapshot loop returns when every product of the cart has a row. -/
theorem fetchProductVersions_ok (db : Db) (cartItems : List CartItemWithProduct)
    (pv0 : ProductVersions)
    (h : ∀ item ∈ cartItems, ∃ p, findUniqueProduct db.products item.productId = some p) :
    ∃ pv, fetchProductVersions db cartItems pv0 = .ok pv := by
  induction cartItems generalizing pv0 with
  | nil => exact ⟨pv0, rfl⟩
  | cons item rest ih =>
    obtain ⟨p, hp⟩ := h item (List.mem_cons_self _ _)
    obtain ⟨pv, hpv⟩ := ih (pv0.set item.productId p) (fun i hi => h i (List.mem_cons_of_mem _ hi))
    exact ⟨pv, by simp only [fetchProductVersions, ProductRepository.findByIdWithVersion, hp, hpv]⟩

/-! ## The loop of the transaction -/

/-- A loop that returned appended one order item for each cart line, in cart
order, with the price of the snapshot. -/
theorem checkoutLoop_orderItems (pv : ProductVersions) (cartItems : List CartItemWithProduct)
    (st st1 : TxState) (h : checkoutLoop pv cartItems st = .ok st1) :
    ∃ added, st1.orderItems = st.orderItems ++ added ∧
      added.map (fun d => (d.productId, d.quantity, some d.priceAtPurchase)) =
        cartItems.map (fun item =>
          (item.productId, item.quantity, (pv.get item.productId).map (fun p => p.price))) := by
  induction cartItems generalizing st with
  | nil =>
    simp only [checkoutLoop] at h
    cases h
    exact ⟨[], by simp, rfl⟩
  | cons item rest ih =>
    simp only [checkoutLoop] at h
    cases hi : checkoutItem pv item st with
    | error e => simp [hi] at h
    | ok st2 =>
      simp only [hi] at h
      obtain ⟨product, hpv, -, hst⟩ := checkoutItem_ok pv item st st2 hi
      obtain ⟨added, ha, hm⟩ := ih st2 h
      refine ⟨{ productId := item.productId, quantity := item.quantity,
                priceAtPurchase := product.price } :: added, ?_, ?_⟩
      · rw [ha, hst]
        simp
      · simp [hm, hpv]

/-- The loop over a cart of distinct products, each with a row at the version
of its snapshot and with enough stock, returns and leaves every row as
`purchase` describes. -/
theorem checkoutLoop_success (pv : ProductVersions) (cartItems : List CartItemWithProduct)
    (st : TxState) (hkey : (st.db.products.map (fun p => p.id)).Nodup)
    (hd : (cartItems.map (fun item => item.productId)).Nodup)
    (h : ∀ item ∈ cartItems, ∃ p snap, findUniqueProduct st.db.products item.productId = some p ∧
      pv.get item.productId = some snap ∧ snap.version = p.version ∧
      item.quantity ≤ p.stockQuantity) :
    ∃ st1, checkoutLoop pv cartItems st = .ok st1 ∧
      st1.db.products = st.db.products.map (purchase cartItems) := by
  induction cartItems generalizing st with
  | nil =>
    refine ⟨st, rfl, ?_⟩
    show st.db.products = st.db.products.map (fun p => p)
    simp
  | cons item rest ih =>
    simp only [List.map_cons, List.nodup_cons, List.mem_map, not_exists, not_and] at hd
    obtain ⟨p, snap, hfind, hpv, hv, hq⟩ := h item (List.mem_cons_self _ _)
    have hhit := conditionalUpdate_hit st.db.products item.productId snap.version item.quantity p
      hkey hfind hv.symm hq
    have hstep : checkoutItem pv item st =
        .ok { db := { st.db with products := st.db.products.map (purchaseLine item.productId item.quantity) },
              totalPrice := st.totalPrice + (snap.price : Int) * item.quantity,
              orderItems := st.orderItems ++
                [{ productId := item.productId, quantity := item.quantity,
                   priceAtPurchase := snap.price }] } := by
      simp [checkoutItem, hpv, hhit]
    have hkey1 : ((st.db.products.map (purchaseLine item.productId item.quantity)).map
        (fun p => p.id)).Nodup := by
      rw [List.map_map]
      have : ((fun p : Product => p.id) ∘ purchaseLine item.productId item.quantity) =
          (fun p => p.id) := by
        funext r
        exact purchaseLine_id _ _ r
      rw [this]
      exact hkey
    obtain ⟨st1, hl, hp1⟩ := ih
      { db := { st.db with products := st.db.products.map (purchaseLine item.productId item.quantity) },
        totalPrice := st.totalPrice + (snap.price : Int) * item.quantity,
        orderItems := st.orderItems ++
          [{ productId := item.productId, quantity := item.quantity,
             priceAtPurchase := snap.price }] } hkey1 hd.2 (by
      intro i hi
      obtain ⟨q, s, hfq, hpq, hvq, hqq⟩ := h i (List.mem_cons_of_mem _ hi)
      refine ⟨q, s, ?_, hpq, hvq, hqq⟩
      show findUniqueProduct (st.db.products.map (purchaseLine item.productId item.quantity))
        i.productId = some q
      rw [findUniqueProduct_map _ _ (purchaseLine_id _ _), hfq]
      have hne : q.id ≠ item.productId := by
        rw [(findUniqueProduct_some _ _ _ hfq).2]
        exact fun he => hd.1 i hi he
      simp [purchaseLine, hne])
    refine ⟨st1, by simp only [checkoutLoop, hstep]; exact hl, ?_⟩
    rw [hp1]
    simp [purchase, List.map_map, Function.comp_def]

/-! ## The successful checkout -/

theorem numberItems_map (orderId n : Nat) (items : List OrderItemData) :
    (numberItems orderId n items).map (fun x => (x.productId, x.quantity, some x.priceAtPurchase)) =
      items.map (fun d => (d.productId, d.quantity, some d.priceAtPurchase)) := by
  induction items generalizing n with
  | nil => rfl
  | cons d rest ih => simp [numberItems, ih]

/-- The snapshot loop and the transaction on one database state, for cart
lines on distinct products, each in stock: both return, and the database the
transaction leaves is described table by table. -/
theorem snapshot_and_transaction (userId cartId : Nat) (cartItems : List CartItemWithProduct)
    (db : Db) (hkey : ProductKey db)
    (huser : ∃ u, db.users.find? (fun u => u.id == userId) = some u)
    (hd : (cartItems.map (fun item => item.productId)).Nodup)
    (hstock : ∀ item ∈ cartItems, ∃ p,
      findUniqueProduct db.products item.productId = some p ∧ item.quantity ≤ p.stockQuantity) :
    ∃ (pv : ProductVersions) (o : CreatedOrder) (st : TxState),
      fetchProductVersions db cartItems [] = .ok pv ∧
      checkoutTx userId cartId cartItems pv db =
        .ok (o, { users := db.users,
                  products := db.products.map (purchase cartItems),
                  carts := db.carts,
                  cartItems := db.cartItems.filter (fun ci => !(ci.cartId == cartId)),
                  orders := db.orders ++ [o.order],
                  nextOrderId := db.nextOrderId + 1,
                  nextOrderItemId := db.nextOrderItemId + st.orderItems.length }) ∧
      o.order = { id := db.nextOrderId, userId := userId, totalPrice := st.totalPrice,
                  status := "COMPLETED",
                  items := numberItems db.nextOrderId db.nextOrderItemId st.orderItems } ∧
      st.orderItems.map (fun d => (d.productId, d.quantity, some d.priceAtPurchase)) =
        cartItems.map (fun item => (item.productId, item.quantity,
          (findUniqueProduct db.products item.productId).map (fun p => p.price))) := by
  obtain ⟨pv, hf⟩ := fetchProductVersions_ok db cartItems []
    (fun item hi => (hstock item hi).imp (fun _ h => h.1))
  have hget := fetchProductVersions_spec db cartItems [] pv hf
  have hpvget : ∀ item ∈ cartItems,
      pv.get item.productId = findUniqueProduct db.products item.productId := by
    intro item hi
    rw [hget, if_pos (List.mem_map_of_mem (fun item => item.productId) hi)]
  obtain ⟨st, hloop, hproducts⟩ := checkoutLoop_success pv cartItems
    { db := db, totalPrice := 0, orderItems := [] } hkey hd
    (fun item hi => by
      obtain ⟨p, hp, hq⟩ := hstock item hi
      exact ⟨p, p, hp, by rw [hpvget item hi, hp], rfl, hq⟩)
  obtain ⟨u, hu⟩ := huser
  have husers : st.db.users = db.users := by
    rw [checkoutLoop_frame pv cartItems _ st hloop]
  have htx : ∃ o db1, checkoutTx userId cartId cartItems pv db = .ok (o, db1) := by
    simp only [checkoutTx, hloop, orderCreate, husers, hu]
    exact ⟨_, _, rfl⟩
  obtain ⟨o, db1, htx⟩ := htx
  obtain ⟨st2, hloop2, hdb1, horder⟩ := checkoutTx_frame _ _ _ _ _ _ _ htx
  rw [hloop] at hloop2
  cases hloop2
  obtain ⟨added, hadd, haddmap⟩ := checkoutLoop_orderItems pv cartItems _ st hloop
  refine ⟨pv, o, st, hf, ?_, horder, ?_⟩
  · rw [htx, hdb1, hproducts]
  · simp only [List.nil_append] at hadd
    rw [hadd, haddmap]
    apply List.map_congr_left
    intro item hi
    rw [hpvget item hi]

/-- The checkout of a cart of distinct products, each in stock, on a
database with its keys in place: the call returns an order and the world it
leaves is described table by table. -/
theorem createOrder_success (backend : QueueBackend) (w : World) (userId : Nat) (c : Cart)
    (hkey : ProductKey w.db)
    (hcart : w.db.carts.find? (fun c => c.userId == userId) = some c)
    (huser : ∃ u, w.db.users.find? (fun u => u.id == userId) = some u)
    (hn : 1 ≤ (cartLines w.db c.id).length)
    (hd : ((cartLines w.db c.id).map (fun l => l.productId)).Nodup)
    (hstock : ∀ l ∈ cartLines w.db c.id, ∃ p,
      findUniqueProduct w.db.products l.productId = some p ∧ l.quantity ≤ p.stockQuantity) :
    ∃ (o : CreatedOrder) (items : List CartItemWithProduct) (st : TxState),
      createOrder backend w userId =
        (.ok o, { db := { users := w.db.users,
                          products := w.db.products.map (purchase items),
                          carts := w.db.carts,
                          cartItems := w.db.cartItems.filter (fun ci => !(ci.cartId == c.id)),
                          orders := w.db.orders ++ [o.order],
                          nextOrderId := w.db.nextOrderId + 1,
                          nextOrderItemId := w.db.nextOrderItemId + st.orderItems.length },
                  emailJobs := queueConfirmation backend w.emailJobs o }) ∧
      items.map CartItemWithProduct.toCartItem = cartLines w.db c.id ∧
      o.order = { id := w.db.nextOrderId, userId := userId, totalPrice := st.totalPrice,
                  status := "COMPLETED",
                  items := numberItems w.db.nextOrderId w.db.nextOrderItemId st.orderItems } ∧
      st.orderItems.map (fun d => (d.productId, d.quantity, some d.priceAtPurchase)) =
        (cartLines w.db c.id).map (fun l => (l.productId, l.quantity,
          (findUniqueProduct w.db.products l.productId).map (fun p => p.price))) := by
  obtain ⟨items, hinc⟩ := includeProduct_ok w.db.products (cartLines w.db c.id)
    (fun l hl => (hstock l hl).imp (fun _ h => h.1))
  obtain ⟨hmap, hprod⟩ := includeProduct_spec _ _ _ hinc
  have hids : items.map (fun item => item.productId) =
      (cartLines w.db c.id).map (fun l => l.productId) := by
    rw [← hmap, List.map_map]
    rfl
  have hlen : items.length ≠ 0 := by
    have : items.length = (cartLines w.db c.id).length := by rw [← hmap, List.length_map]
    omega
  have hstock1 : ∀ item ∈ items, ∃ p,
      findUniqueProduct w.db.products item.productId = some p ∧
      item.quantity ≤ p.stockQuantity := by
    intro item hi
    have hl : item.toCartItem ∈ cartLines w.db c.id := by
      rw [← hmap]
      exact List.mem_map_of_mem _ hi
    exact hstock _ hl
  have hq : ∀ item ∈ items, item.quantity ≤ item.product.stockQuantity := by
    intro item hi
    obtain ⟨p, hp, hle⟩ := hstock1 item hi
    rw [hprod item hi] at hp
    rw [Option.some.inj hp]
    exact hle
  have hc : CartRepository.findByUserId w.db userId =
      .ok (some { id := c.id, userId := c.userId, items := items }) := by
    have hinc1 : includeProduct w.db.products
        (w.db.cartItems.filter (fun ci => ci.cartId == c.id)) = .ok items := hinc
    simp only [CartRepository.findByUserId, hcart, hinc1]
  have hv : CartService.validateCartForCheckout w.db c.id = .ok items := by
    have hinc1 : CartRepository.getCartItems w.db c.id = .ok items := hinc
    simp only [CartService.validateCartForCheckout, hinc1, hlen, if_false, checkStock_ok items hq]
  obtain ⟨pv, o, st, hf, htx, horder, hitems⟩ :=
    snapshot_and_transaction userId c.id items w.db hkey huser (by rw [hids]; exact hd) hstock1
  refine ⟨o, items, st, ?_, hmap, horder, ?_⟩
  · simp only [createOrder, hc, hv, hlen, if_false, hf, transaction_ok _ _ _ _ htx]
  · rw [hitems, ← hmap, List.map_map]
    rfl

/-- The product table after the purchase of cart lines on distinct products,
read by id. -/
theorem findUniqueProduct_purchase (rows : List Product) (cartItems : List CartItemWithProduct)
    (hkey : (rows.map (fun p => p.id)).Nodup)
    (hd : (cartItems.map (fun item => item.productId)).Nodup) :
    (∀ item ∈ cartItems, ∀ p, findUniqueProduct rows item.productId = some p →
      findUniqueProduct (rows.map (purchase cartItems)) item.productId =
        some { p with stockQuantity := p.stockQuantity - item.quantity,
                      version := p.version + 1 }) ∧
    (∀ p ∈ rows, p.id ∉ cartItems.map (fun item => item.productId) →
      findUniqueProduct (rows.map (purchase cartItems)) p.id = some p) := by
  constructor
  · intro item hi p hp
    have hpid : p.id = item.productId := (findUniqueProduct_some _ _ _ hp).2
    rw [findUniqueProduct_map _ _ (purchase_id cartItems), hp, Option.map_some',
      purchase_of_mem cartItems item p hd hi hpid]
  · intro p hp hnot
    rw [findUniqueProduct_map _ _ (purchase_id cartItems), findUniqueProduct_of_mem _ p hkey hp,
      Option.map_some', purchase_of_not_mem cartItems p hnot]

/-- C3. Successful checkout postcondition, on a database whose product ids
are a key and that holds the user's row. First part: for a user whose cart has
`n ≥ 1` lines on distinct products, each line's quantity at most its product's
stock, `createOrder`, run with no other writer, returns an order `o` and
afterwards (a) each purchased product has its previous stock less the line
quantity (and its version one more), (b) every product not in the cart is
unchanged, (c) the cart has no line, and (d) the orders are the previous ones
and `o`, which has exactly `n` lines, the i-th with the i-th cart line's
product id and quantity and with the price of the product row read before the
transaction. Second part: the same holds for a call that has read its cart
lines earlier, whatever was written since, and now takes its version snapshot
and runs its transaction with no other writer in between. -/
theorem successful_checkout_postcondition (backend : QueueBackend) (w : World) (userId : Nat)
    (hkey : ProductKey w.db)
    (huser : ∃ u, w.db.users.find? (fun u => u.id == userId) = some u) :
    (∀ c : Cart, w.db.carts.find? (fun c => c.userId == userId) = some c →
      1 ≤ (cartLines w.db c.id).length →
      ((cartLines w.db c.id).map (fun l => l.productId)).Nodup →
      (∀ l ∈ cartLines w.db c.id, ∃ p,
        findUniqueProduct w.db.products l.productId = some p ∧ l.quantity ≤ p.stockQuantity) →
      ∃ o : CreatedOrder, (createOrder backend w userId).1 = .ok o ∧
        (∀ l ∈ cartLines w.db c.id, ∀ p, findUniqueProduct w.db.products l.productId = some p →
          findUniqueProduct (createOrder backend w userId).2.db.products l.productId =
            some { p with stockQuantity := p.stockQuantity - l.quantity,
                          version := p.version + 1 }) ∧
        (∀ p ∈ w.db.products, p.id ∉ (cartLines w.db c.id).map (fun l => l.productId) →
          findUniqueProduct (createOrder backend w userId).2.db.products p.id = some p) ∧
        cartLines (createOrder backend w userId).2.db c.id = [] ∧
        (createOrder backend w userId).2.db.orders = w.db.orders ++ [o.order] ∧
        o.order.items.length = (cartLines w.db c.id).length ∧
        o.order.items.map (fun x => (x.productId, x.quantity, some x.priceAtPurchase)) =
          (cartLines w.db c.id).map (fun l => (l.productId, l.quantity,
            (findUniqueProduct w.db.products l.productId).map (fun p => p.price)))) ∧
    (∀ (cart : CartWithItems) (cartItems : List CartItemWithProduct),
      1 ≤ cartItems.length →
      (cartItems.map (fun item => item.productId)).Nodup →
      (∀ item ∈ cartItems, ∃ p,
        findUniqueProduct w.db.products item.productId = some p ∧
        item.quantity ≤ p.stockQuantity) →
      ∃ (o : CreatedOrder) (w1 : World),
        Call.run backend (cartItems.length + 2)
          (.snapshot userId cart cartItems cartItems []) w = (.done (.ok o), w1) ∧
        (∀ item ∈ cartItems, ∀ p, findUniqueProduct w.db.products item.productId = some p →
          findUniqueProduct w1.db.products item.productId =
            some { p with stockQuantity := p.stockQuantity - item.quantity,
                          version := p.version + 1 }) ∧
        (∀ p ∈ w.db.products, p.id ∉ cartItems.map (fun item => item.productId) →
          findUniqueProduct w1.db.products p.id = some p) ∧
        cartLines w1.db cart.id = [] ∧
        w1.db.orders = w.db.orders ++ [o.order] ∧
        o.order.items.length = cartItems.length ∧
        o.order.items.map (fun x => (x.productId, x.quantity, some x.priceAtPurchase)) =
          cartItems.map (fun item => (item.productId, item.quantity,
            (findUniqueProduct w.db.products item.productId).map (fun p => p.price)))) := by
  constructor
  · intro c hcart hn hd hstock
    obtain ⟨o, items, st, hco, hmap, horder, hitems⟩ :=
      createOrder_success backend w userId c hkey hcart huser hn hd hstock
    have hids : items.map (fun item => item.productId) =
        (cartLines w.db c.id).map (fun l => l.productId) := by
      rw [← hmap, List.map_map]
      rfl
    have hlines : o.order.items.map (fun x => (x.productId, x.quantity, some x.priceAtPurchase)) =
        (cartLines w.db c.id).map (fun l => (l.productId, l.quantity,
          (findUniqueProduct w.db.products l.productId).map (fun p => p.price))) := by
      rw [horder]
      simp only [numberItems_map, hitems]
    obtain ⟨hA, hB⟩ := findUniqueProduct_purchase w.db.products items hkey (by rw [hids]; exact hd)
    rw [hco]
    refine ⟨o, rfl, ?_, ?_, ?_, rfl, ?_, hlines⟩
    · intro l hl p hp
      rw [← hmap] at hl
      obtain ⟨item, hi, rfl⟩ := List.mem_map.mp hl
      exact hA item hi p hp
    · intro p hp hnot
      exact hB p hp (by rw [hids]; exact hnot)
    · simp [cartLines, List.filter_filter]
    · have := congrArg List.length hlines
      simpa using this
  · intro cart cartItems hn hd hstock
    obtain ⟨pv, o, st, hf, htx, horder, hitems⟩ :=
      snapshot_and_transaction userId cart.id cartItems w.db hkey huser hd hstock
    have hlines : o.order.items.map (fun x => (x.productId, x.quantity, some x.priceAtPurchase)) =
        cartItems.map (fun item => (item.productId, item.quantity,
          (findUniqueProduct w.db.products item.productId).map (fun p => p.price))) := by
      rw [horder]
      simp only [numberItems_map, hitems]
    obtain ⟨hA, hB⟩ := findUniqueProduct_purchase w.db.products cartItems hkey hd
    refine ⟨o,
      { db := { users := w.db.users,
                products := w.db.products.map (purchase cartItems),
                carts := w.db.carts,
                cartItems := w.db.cartItems.filter (fun ci => !(ci.cartId == cart.id)),
                orders := w.db.orders ++ [o.order],
                nextOrderId := w.db.nextOrderId + 1,
                nextOrderItemId := w.db.nextOrderItemId + st.orderItems.length },
        emailJobs := queueConfirmation backend w.emailJobs o },
      ?_, hA, hB, ?_, rfl, ?_, hlines⟩
    · rw [Call.run_add, Call.run_snapshot, hf]
      simp only [Call.run, Call.step, transaction_ok _ _ _ _ htx]
    · simp [cartLines, List.filter_filter]
    · have := congrArg List.length hlines
      simpa using this

/-- C3 at test 1: two lines of quantity 2 against two products of stock 5. The
call returns one order of two lines, both products end at stock 3 and the cart
is empty. -/
theorem successful_checkout_postcondition_witness :
    (∃ o : CreatedOrder,
      (createOrder .real { db := happyDb, emailJobs := [] } 1).1 = .ok o ∧
      (createOrder .real { db := happyDb, emailJobs := [] } 1).2.db.orders = [o.order] ∧
      o.order.items.length = 2) ∧
    (createOrder .real { db := happyDb, emailJobs := [] } 1).2.db.products =
      [{ id := 1, name := "Test Laptop", price := 99999, stockQuantity := 3, version := 1 },
       { id := 2, name := "Test Mouse", price := 2999, stockQuantity := 3, version := 1 }] ∧
    cartLines (createOrder .real { db := happyDb, emailJobs := [] } 1).2.db 1 = [] := by
  refine ⟨?_, by decide, by decide⟩
  obtain ⟨o, h1, -, -, -, h5, h6, -⟩ :=
    (successful_checkout_postcondition .real { db := happyDb, emailJobs := [] } 1 (by decide)
      ⟨{ id := 1, name := "Test Customer", email := "c@example.com" }, by decide⟩).1
      { id := 1, userId := 1 } (by decide) (by decide) (by decide) (by decide)
  exact ⟨o, h1, h5, h6⟩

/-! ## Failed calls -/

/-- C4. Cart clears only on success: a call of `createOrder` that fails, with
whatever error, leaves every cart item row as it was, so the user's cart
holds the same lines with the same quantities; and among concurrent calls,
a step of a call that changes a cart item row is the commit of a transaction,
after which the call returns the order. -/
theorem cart_clears_only_on_success (backend : QueueBackend) (w : World) :
    (∀ userId e, (createOrder backend w userId).1 = .error e →
      (createOrder backend w userId).2.db.cartItems = w.db.cartItems) ∧
    (∀ c : Call, (Call.step backend c w).2.db.cartItems ≠ w.db.cartItems →
      ∃ o, (Call.step backend c w).1 = .committed o ∧
        (Call.step backend (.committed o) (Call.step backend c w).2).1 = .done (.ok o)) := by
  constructor
  · intro userId e h
    rw [createOrder_error_world backend w userId e h]
  · intro c hne
    by_contra hno
    apply hne
    rw [Call.step_db backend c w]
    intro o ho
    exact hno ⟨o, ho, rfl⟩

/-- C4 at test 3: the checkout of 2 units of a product with stock 1 fails and
the cart item rows are the ones from before. -/
theorem cart_clears_only_on_success_witness :
    (createOrder .real { db := staleDb, emailJobs := [] } 1).1 =
      .error (.app (InsufficientStockError (.num 2) (.num 1) (.num 2))) ∧
    (createOrder .real { db := staleDb, emailJobs := [] } 1).2.db.cartItems =
      [{ id := 1, cartId := 1, productId := 1, quantity := 2 },
       { id := 2, cartId := 1, productId := 2, quantity := 2 }] :=
  ⟨by decide,
   (cart_clears_only_on_success .real { db := staleDb, emailJobs := [] }).1 1
     (.app (InsufficientStockError (.num 2) (.num 1) (.num 2))) (by decide)⟩

/-! ## Insufficient stock found by the validation -/

/-- C5. Atomic rollback scenario: for a cart (every line of which has its
product row) that holds a line `a` within the stock of its product and a line
`b` above the stock of its product, wherever they stand in the cart,
`createOrder` fails with an `InsufficientStockError`, code `INSUFFICIENT_STOCK`,
and the product of `a` (as every row of the world) is as it was before the call. -/
theorem atomic_rollback_insufficient_stock (backend : QueueBackend) (w : World) (userId : Nat)
    (c : Cart) (a b : CartItem) (pa pb : Product)
    (hcart : w.db.carts.find? (fun c => c.userId == userId) = some c)
    (hrows : ∀ l ∈ cartLines w.db c.id, findUniqueProduct w.db.products l.productId ≠ none)
    (_ha : a ∈ cartLines w.db c.id) (hpa : findUniqueProduct w.db.products a.productId = some pa)
    (_haq : a.quantity ≤ pa.stockQuantity)
    (hb : b ∈ cartLines w.db c.id) (hpb : findUniqueProduct w.db.products b.productId = some pb)
    (hbq : pb.stockQuantity < b.quantity) :
    ∃ e : AppError, (createOrder backend w userId).1 = .error (.app e) ∧
      e.code = "INSUFFICIENT_STOCK" ∧
      findUniqueProduct (createOrder backend w userId).2.db.products a.productId = some pa ∧
      (createOrder backend w userId).2 = w := by
  obtain ⟨items, hinc⟩ := includeProduct_ok w.db.products (cartLines w.db c.id)
    (fun l hl => Option.ne_none_iff_exists'.mp (hrows l hl))
  obtain ⟨hmap, hprod⟩ := includeProduct_spec _ _ _ hinc
  have hc : CartRepository.findByUserId w.db userId =
      .ok (some { id := c.id, userId := c.userId, items := items }) := by
    have hinc1 : includeProduct w.db.products
        (w.db.cartItems.filter (fun ci => ci.cartId == c.id)) = .ok items := hinc
    simp only [CartRepository.findByUserId, hcart, hinc1]
  have hget : CartRepository.getCartItems w.db c.id = .ok items := hinc
  have hlen : items.length ≠ 0 := by
    have h1 : items.length = (cartLines w.db c.id).length := by rw [← hmap, List.length_map]
    have h2 := List.length_pos_of_mem hb
    omega
  rcases checkStock_cases items with ⟨-, hall⟩ | ⟨item, -, -, herr⟩
  · exfalso
    rw [← hmap] at hb
    obtain ⟨item, hi, rfl⟩ := List.mem_map.mp hb
    have h1 := hprod item hi
    have h2 : findUniqueProduct w.db.products item.productId = some pb := hpb
    rw [h1] at h2
    have h3 := hall item hi
    rw [Option.some.inj h2] at h3
    have h4 : pb.stockQuantity < item.quantity := hbq
    omega
  · have hco : createOrder backend w userId =
        (.error (.app (InsufficientStockError (.num item.product.id)
          (.num item.product.stockQuantity) (.num item.quantity))), w) := by
      simp only [createOrder, hc, CartService.validateCartForCheckout, hget, hlen, if_false, herr]
    rw [hco]
    exact ⟨_, rfl, rfl, hpa, rfl⟩

/-- C5 at test 3 extended by a line within stock: a cart with 2 units of
product 1 (stock 5) and 2 units of product 2 (stock 1). -/
theorem atomic_rollback_insufficient_stock_witness :
    ∃ e : AppError,
      (createOrder .real { db := staleDb, emailJobs := [] } 1).1
        = .error (.app e) ∧
      e.code = "INSUFFICIENT_STOCK" ∧
      findUniqueProduct
        (createOrder .real { db := staleDb, emailJobs := [] } 1).2.db.products
        1 = some { id := 1, name := "Test Laptop", price := 99999, stockQuantity := 5, version := 0 } ∧
      (createOrder .real { db := staleDb, emailJobs := [] } 1).2
        = { db := staleDb, emailJobs := [] } :=
  atomic_rollback_insufficient_stock .real
    { db := staleDb, emailJobs := [] } 1
    { id := 1, userId := 1 }
    { id := 1, cartId := 1, productId := 1, quantity := 2 }
    { id := 2, cartId := 1, productId := 2, quantity := 2 }
    { id := 1, name := "Test Laptop", price := 99999, stockQuantity := 5, version := 0 }
    { id := 2, name := "Test Mouse", price := 2999, stockQuantity := 1, version := 1 }
    (by decide) (by decide) (by decide) (by decide) (by decide) (by decide) (by decide) (by decide)

/-! ## Versions -/

/-- A conditional update whose count is not 0 matched a row: one with the id,
the expected version and enough stock. -/
theorem conditionalUpdate_matched (rows : List Product) (productId : Nat) (version quantity : Int)
    (h : (conditionalUpdate rows productId version quantity).2 ≠ 0) :
    ∃ r ∈ rows, r.id = productId ∧ r.version = version ∧ quantity ≤ r.stockQuantity := by
  simp only [conditionalUpdate, updateMany, ne_eq, List.length_eq_zero] at h
  obtain ⟨r, hr⟩ := List.exists_mem_of_ne_nil _ h
  simp only [List.mem_filter, Bool.and_eq_true, beq_iff_eq, decide_eq_true_eq] at hr
  exact ⟨r, hr.1, hr.2.1.1, hr.2.1.2, hr.2.2⟩

/-- A loop that returned, on a product table with its key: the cart lines
were on distinct products, each with a row at the version of its snapshot
and with enough stock. -/
theorem checkoutLoop_converse (pv : ProductVersions) (cartItems : List CartItemWithProduct)
    (st st1 : TxState) (hkey : (st.db.products.map (fun p => p.id)).Nodup)
    (h : checkoutLoop pv cartItems st = .ok st1) :
    (cartItems.map (fun item => item.productId)).Nodup ∧
    ∀ item ∈ cartItems, ∃ p snap, findUniqueProduct st.db.products item.productId = some p ∧
      pv.get item.productId = some snap ∧ snap.version = p.version ∧
      item.quantity ≤ p.stockQuantity := by
  induction cartItems generalizing st with
  | nil => exact ⟨List.nodup_nil, fun _ hi => absurd hi (List.not_mem_nil _)⟩
  | cons item rest ih =>
    simp only [checkoutLoop] at h
    cases hi : checkoutItem pv item st with
    | error e => simp [hi] at h
    | ok st2 =>
      simp only [hi] at h
      obtain ⟨snap, hpv, hcount, hst⟩ := checkoutItem_ok pv item st st2 hi
      obtain ⟨r, hr, hrid, hrv, hrq⟩ := conditionalUpdate_matched _ _ _ _ hcount
      have hfind : findUniqueProduct st.db.products item.productId = some r := by
        rw [← hrid]
        exact findUniqueProduct_of_mem _ r hkey hr
      have hhit := conditionalUpdate_hit st.db.products item.productId snap.version item.quantity r
        hkey hfind hrv hrq
      have hrows : st2.db.products =
          st.db.products.map (purchaseLine item.productId item.quantity) := by
        rw [hst, hhit]
      have hkey2 : (st2.db.products.map (fun p => p.id)).Nodup := by
        rw [hrows, List.map_map]
        have : ((fun p : Product => p.id) ∘ purchaseLine item.productId item.quantity) =
            (fun p => p.id) := by
          funext q
          exact purchaseLine_id _ _ q
        rw [this]
        exact hkey
      obtain ⟨hnd, hall⟩ := ih st2 hkey2 h
      have hfind2 : ∀ k, findUniqueProduct st2.db.products k =
          (findUniqueProduct st.db.products k).map (purchaseLine item.productId item.quantity) := by
        intro k
        rw [hrows, findUniqueProduct_map _ _ (purchaseLine_id _ _)]
      have hnot : item.productId ∉ rest.map (fun item => item.productId) := by
        intro hmem
        obtain ⟨i, hi1, hi2⟩ := List.mem_map.mp hmem
        obtain ⟨q, s, hfq, hpq, hvq, -⟩ := hall i hi1
        have hi3 : i.productId = item.productId := hi2
        rw [hi3] at hfq hpq
        rw [hpv] at hpq
        cases hpq
        rw [hfind2, hfind] at hfq
        simp only [Option.map_some', Option.some.injEq] at hfq
        rw [← hfq] at hvq
        simp only [purchaseLine, hrid, if_true] at hvq
        omega
      refine ⟨List.nodup_cons.mpr ⟨hnot, hnd⟩, ?_⟩
      intro i hi1
      rcases List.mem_cons.mp hi1 with rfl | hm
      · exact ⟨r, snap, hfind, hpv, hrv.symm, hrq⟩
      · obtain ⟨q, s, hfq, hpq, hvq, hqq⟩ := hall i hm
        rw [hfind2] at hfq
        cases hf0 : findUniqueProduct st.db.products i.productId with
        | none => simp [hf0] at hfq
        | some q0 =>
          rw [hf0] at hfq
          simp only [Option.map_some', Option.some.injEq] at hfq
          have hne : q0.id ≠ item.productId := by
            rw [(findUniqueProduct_some _ _ _ hf0).2]
            intro he
            exact hnot (List.mem_map.mpr ⟨i, hm, he⟩)
          simp only [purchaseLine, hne, if_false] at hfq
          subst hfq
          exact ⟨q0, s, rfl, hpq, hvq, hqq⟩

/-- A call of `createOrder` that returned an order, on a product table with
its key: the product table it leaves and the products of the order lines. -/
theorem createOrder_ok_products (backend : QueueBackend) (w : World) (userId : Nat)
    (o : CreatedOrder) (hkey : ProductKey w.db) (h : (createOrder backend w userId).1 = .ok o) :
    ∃ cartItems : List CartItemWithProduct,
      (createOrder backend w userId).2.db.products = w.db.products.map (purchase cartItems) ∧
      (cartItems.map (fun item => item.productId)).Nodup ∧
      o.order.items.map (fun x => x.productId) = cartItems.map (fun item => item.productId) ∧
      o.order.items.map (fun x => x.quantity) = cartItems.map (fun item => item.quantity) := by
  rcases createOrder_cases backend w userId with ⟨e, he⟩ | ⟨cart, cartItems, pv, o1, db1, -, -, -, ht, hc⟩
  · rw [he] at h
    cases h
  · rw [hc] at h ⊢
    cases h
    obtain ⟨st, hl, hdb, horder⟩ := checkoutTx_frame _ _ _ _ _ _ _ ht
    obtain ⟨hnd, hall⟩ := checkoutLoop_converse pv cartItems
      { db := w.db, totalPrice := 0, orderItems := [] } st hkey hl
    obtain ⟨st1, hl1, hp1⟩ := checkoutLoop_success pv cartItems
      { db := w.db, totalPrice := 0, orderItems := [] } hkey hnd hall
    rw [hl] at hl1
    cases hl1
    obtain ⟨added, hadd, hmap⟩ := checkoutLoop_orderItems pv cartItems _ st hl
    simp only [List.nil_append] at hadd
    have hitems : o.order.items =
        numberItems w.db.nextOrderId w.db.nextOrderItemId st.orderItems := by rw [horder]
    have hm := numberItems_map w.db.nextOrderId w.db.nextOrderItemId st.orderItems
    rw [← hitems, hadd, hmap] at hm
    refine ⟨cartItems, ?_, hnd, ?_, ?_⟩
    · show db1.products = _
      rw [hdb]
      exact hp1
    · have := congrArg (List.map (fun t : Nat × Int × Option Nat => t.1)) hm
      simpa [List.map_map, Function.comp_def] using this
    · have := congrArg (List.map (fun t : Nat × Int × Option Nat => t.2.1)) hm
      simpa [List.map_map, Function.comp_def] using this

/-- Every row a call leaves is the row from before, under the same id and
with a version that is not lower. -/
theorem createOrder_rows (backend : QueueBackend) (w : World) (userId : Nat) :
    ∃ f : Product → Product, (∀ p, (f p).id = p.id ∧ p.version ≤ (f p).version) ∧
      (createOrder backend w userId).2.db.products = w.db.products.map f := by
  rcases createOrder_cases backend w userId with ⟨e, he⟩ | ⟨cart, cartItems, pv, o1, db1, -, -, -, ht, hc⟩
  · rw [he]
    exact ⟨fun p => p, fun p => ⟨rfl, le_refl _⟩, by simp⟩
  · rw [hc]
    obtain ⟨st, hl, hdb, -⟩ := checkoutTx_frame _ _ _ _ _ _ _ ht
    have := checkoutLoop_products
      (fun rows => ∃ f : Product → Product, (∀ p, (f p).id = p.id ∧ p.version ≤ (f p).version) ∧
        rows = w.db.products.map f)
      (by
        rintro rows productId version quantity ⟨f, hf, rfl⟩
        refine ⟨fun p => (fun r : Product =>
          if (r.id == productId && r.version == version && decide (r.stockQuantity ≥ quantity)) then
            { r with stockQuantity := r.stockQuantity - quantity, version := r.version + 1 }
          else r) (f p), ?_, ?_⟩
        · intro p
          obtain ⟨h1, h2⟩ := hf p
          dsimp only
          split
          · exact ⟨h1, by show p.version ≤ (f p).version + 1; omega⟩
          · exact ⟨h1, h2⟩
        · simp [conditionalUpdate, updateMany, List.map_map, Function.comp_def])
      pv cartItems _ st hl ⟨fun p => p, fun p => ⟨rfl, le_refl _⟩, by simp⟩
    obtain ⟨f, hf, hrows⟩ := this
    exact ⟨f, hf, by show db1.products = _; rw [hdb]; exact hrows⟩

/-- C6. Version monotonicity in checkout: after a successful `createOrder`
(on a product table whose ids are a key) each product of an order line has
its version from before the call plus exactly 1 and every other product row
is unchanged; and after every call of `createOrder`, successful or failed,
every product is still there with a version that is not lower than before. -/
theorem version_monotonicity (backend : QueueBackend) (w : World) (userId : Nat) :
    (ProductKey w.db → ∀ o, (createOrder backend w userId).1 = .ok o →
      ∀ p ∈ w.db.products, ∃ p1,
        findUniqueProduct (createOrder backend w userId).2.db.products p.id = some p1 ∧
        (p.id ∈ o.order.items.map (fun x => x.productId) → p1.version = p.version + 1) ∧
        (p.id ∉ o.order.items.map (fun x => x.productId) → p1 = p)) ∧
    (∀ id p, findUniqueProduct w.db.products id = some p → ∃ p1,
      findUniqueProduct (createOrder backend w userId).2.db.products id = some p1 ∧
      p.version ≤ p1.version) := by
  constructor
  · intro hkey o ho p hp
    obtain ⟨cartItems, hrows, hnd, hids, -⟩ := createOrder_ok_products backend w userId o hkey ho
    refine ⟨purchase cartItems p, ?_, ?_, ?_⟩
    · rw [hrows, findUniqueProduct_map _ _ (purchase_id cartItems),
        findUniqueProduct_of_mem _ p hkey hp]
      rfl
    · intro hmem
      rw [hids] at hmem
      obtain ⟨item, hi, hie⟩ := List.mem_map.mp hmem
      rw [purchase_of_mem cartItems item p hnd hi hie.symm]
    · intro hnot
      rw [hids] at hnot
      exact purchase_of_not_mem cartItems p hnot
  · intro id p hp
    obtain ⟨f, hf, hrows⟩ := createOrder_rows backend w userId
    exact ⟨f p, by rw [hrows, findUniqueProduct_map _ _ (fun q => (hf q).1), hp]; rfl, (hf p).2⟩

/-- C6 at test 1: both products of the order go from version 0 to version 1. -/
theorem version_monotonicity_witness :
    ∀ p ∈ happyDb.products, ∃ p1,
      findUniqueProduct (createOrder .real { db := happyDb, emailJobs := [] } 1).2.db.products p.id
        = some p1 ∧
      (p.id ∈ [1, 2] → p1.version = p.version + 1) ∧ (p.id ∉ [1, 2] → p1 = p) :=
  (version_monotonicity .real { db := happyDb, emailJobs := [] } 1).1 (by decide)
    { order := { id := 1, userId := 1, totalPrice := 205996, status := "COMPLETED",
                 items := [{ id := 1, orderId := 1, productId := 1, quantity := 2,
                             priceAtPurchase := 99999 },
                           { id := 2, orderId := 1, productId := 2, quantity := 2,
                             priceAtPurchase := 2999 }] },
      user := { id := 1, name := "Test Customer", email := "c@example.com" } }
    (by decide)

/-! ## The two conditional writes -/

/-- The conditional update of the transaction leaves the table as it is and
counts 0 when no row has the id, the expected version and enough stock. -/
theorem conditionalUpdate_miss (rows : List Product) (productId : Nat) (version quantity : Int)
    (h : ∀ r ∈ rows, ¬ (r.id = productId ∧ r.version = version ∧ quantity ≤ r.stockQuantity)) :
    conditionalUpdate rows productId version quantity = (rows, 0) := by
  have hcond : ∀ r ∈ rows,
      (r.id == productId && r.version == version && decide (r.stockQuantity ≥ quantity)) = false := by
    intro r hr
    have := h r hr
    by_cases h1 : r.id = productId <;> by_cases h2 : r.version = version <;>
      by_cases h3 : quantity ≤ r.stockQuantity <;> simp_all
  simp only [conditionalUpdate, updateMany, Prod.mk.injEq]
  constructor
  · conv_rhs => rw [← List.map_id rows]
    apply List.map_congr_left
    intro r hr
    simp [hcond r hr]
  · rw [List.length_eq_zero, List.filter_eq_nil_iff]
    intro r hr
    simp [hcond r hr]

/-- A conditional update that counts 0 found no matching row and left the table as it is. -/
theorem conditionalUpdate_zero (rows : List Product) (productId : Nat) (version quantity : Int)
    (h : (conditionalUpdate rows productId version quantity).2 = 0) :
    (∀ r ∈ rows, ¬ (r.id = productId ∧ r.version = version ∧ quantity ≤ r.stockQuantity)) ∧
    (conditionalUpdate rows productId version quantity).1 = rows := by
  have hall : ∀ r ∈ rows,
      ¬ (r.id = productId ∧ r.version = version ∧ quantity ≤ r.stockQuantity) := by
    intro r hr hc
    simp only [conditionalUpdate, updateMany, List.length_eq_zero, List.filter_eq_nil_iff] at h
    apply h r hr
    simp [hc.1, hc.2.1, hc.2.2]
  exact ⟨hall, by rw [conditionalUpdate_miss rows productId version quantity hall]⟩

/-- The conditional update of the transaction is the locking primitive, with
`delta = -quantity`: on a table with its key it writes the product exactly
when its row has the expected version and `stock - quantity ≥ 0`; then the
stock is `stock - quantity`, the version one more and the count 1; otherwise
the table is unchanged and the count 0. -/
theorem conditionalUpdate_primitive (rows : List Product) (productId : Nat)
    (version quantity : Int) (p : Product) (hkey : (rows.map (fun p => p.id)).Nodup)
    (hfind : findUniqueProduct rows productId = some p) :
    conditionalUpdate rows productId version quantity =
      if p.version = version ∧ 0 ≤ p.stockQuantity - quantity then
        (rows.map (fun r => if r.id = productId then
          { r with stockQuantity := r.stockQuantity - quantity, version := r.version + 1 } else r), 1)
      else (rows, 0) := by
  by_cases hc : p.version = version ∧ 0 ≤ p.stockQuantity - quantity
  · rw [if_pos hc, conditionalUpdate_hit rows productId version quantity p hkey hfind hc.1
      (by omega)]
    rfl
  · rw [if_neg hc]
    apply conditionalUpdate_miss
    rintro r hr ⟨h1, h2, h3⟩
    have hr1 := findUniqueProduct_of_mem rows r hkey hr
    rw [h1, hfind] at hr1
    cases hr1
    exact hc ⟨h2, by omega⟩

/-- C7. `ProductRepository.updateStockWithVersionCheck` writes a row whose
version matches although the stock plus the delta is negative: on the product
with stock 5 at version 0, the delta -7 gives count 1 and leaves stock -2 at
version 1. -/
theorem updateStockWithVersionCheck_negative_stock :
    ProductRepository.updateStockWithVersionCheck happyDb 1 (-7) 0 =
      ({ happyDb with products :=
          [{ id := 1, name := "Test Laptop", price := 99999, stockQuantity := -2, version := 1 },
           { id := 2, name := "Test Mouse", price := 2999, stockQuantity := 5, version := 0 }] },
       1) := by
  decide

/-- The method `updateStockWithVersionCheck` on a table with its key: the row
is written exactly when its version is the expected one, whatever the stock. -/
theorem updateStockWithVersionCheck_spec (db : Db) (id : Nat) (quantityChange currentVersion : Int)
    (p : Product) (hkey : ProductKey db) (hfind : findUniqueProduct db.products id = some p) :
    ProductRepository.updateStockWithVersionCheck db id quantityChange currentVersion =
      if p.version = currentVersion then
        ({ db with products := db.products.map (fun r => if r.id = id then
            { r with stockQuantity := r.stockQuantity + quantityChange, version := r.version + 1 }
            else r) }, 1)
      else (db, 0) := by
  obtain ⟨hmem, hid⟩ := findUniqueProduct_some _ _ _ hfind
  have huniq : ∀ r ∈ db.products, r.id = id → r = p := by
    intro r hr hrid
    have h1 := findUniqueProduct_of_mem db.products r hkey hr
    rw [hrid, hfind] at h1
    exact (Option.some.inj h1).symm
  by_cases hv : p.version = currentVersion
  · have hcond : ∀ r ∈ db.products,
        (r.id == id && r.version == currentVersion) = decide (r.id = id) := by
      intro r hr
      by_cases h : r.id = id
      · have := huniq r hr h
        subst this
        simp [h, hv]
      · simp [h]
    rw [if_pos hv]
    simp only [ProductRepository.updateStockWithVersionCheck, updateMany, Prod.mk.injEq]
    constructor
    · congr 1
      apply List.map_congr_left
      intro r hr
      rw [hcond r hr]
      by_cases h : r.id = id <;> simp [h]
    · rw [List.filter_congr hcond]
      have hnd : db.products.Nodup := List.Nodup.of_map _ hkey
      have hsub : ∀ r, r ∈ db.products.filter (fun r => decide (r.id = id)) ↔ r ∈ [p] := by
        intro r
        simp only [List.mem_filter, decide_eq_true_eq, List.mem_singleton]
        exact ⟨fun h => huniq r h.1 h.2, fun h => by rw [h]; exact ⟨hmem, hid⟩⟩
      have hperm := (List.perm_ext_iff_of_nodup (hnd.filter _) (List.nodup_singleton p)).mpr hsub
      rw [List.perm_singleton.mp hperm]
      rfl
  · have hcond : ∀ r ∈ db.products, (r.id == id && r.version == currentVersion) = false := by
      intro r hr
      by_cases h : r.id = id
      · have := huniq r hr h
        subst this
        simp [hv]
      · simp [h]
    rw [if_neg hv]
    simp only [ProductRepository.updateStockWithVersionCheck, updateMany, Prod.mk.injEq]
    constructor
    · have : db.products.map (fun r => if (r.id == id && r.version == currentVersion) = true then
          { r with stockQuantity := r.stockQuantity + quantityChange, version := r.version + 1 }
          else r) = db.products := by
        conv_rhs => rw [← List.map_id db.products]
        apply List.map_congr_left
        intro r hr
        simp [hcond r hr]
      rw [this]
    · rw [List.length_eq_zero, List.filter_eq_nil_iff]
      intro r hr
      simp [hcond r hr]

/-! ## The classification of a failed write -/

theorem modifiedError_ne_fallbackError (product : Product) :
    modifiedError product ≠ fallbackError product := by
  intro h
  simp only [modifiedError, fallbackError, VersionMismatchError, ConflictError, Thrown.app.injEq,
    AppError.mk.injEq, and_true] at h
  have := congrArg String.data h
  simp only [String.data_append] at this
  have h2 := congrArg List.head? this
  simp at h2

/-- C8. Failure classification: when the conditional update of a cart line
matches no row and the re-read inside the transaction finds the product, the
call fails, with the world as before the transaction; the error is a
`VersionMismatchError` (code `VERSION_MISMATCH`) if and only if the version
re-read differs from the snapshot version, and otherwise an
`InsufficientStockError` (code `INSUFFICIENT_STOCK`), in which case the stock
re-read is below the quantity of the line; the fallback error "Failed to update
product" is never the outcome. -/
theorem failure_classification (backend : QueueBackend) (w : World) (userId : Nat)
    (cart : CartWithItems) (pre post : List CartItemWithProduct) (item : CartItemWithProduct)
    (product current : Product) (pv : ProductVersions) (st : TxState)
    (hpre : checkoutLoop pv pre { db := w.db, totalPrice := 0, orderItems := [] } = .ok st)
    (hpv : pv.get item.productId = some product)
    (hmiss : (conditionalUpdate st.db.products item.productId product.version item.quantity).2 = 0)
    (hcur : findUniqueProduct
      (conditionalUpdate st.db.products item.productId product.version item.quantity).1
      item.productId = some current) :
    ∃ e : Thrown,
      Call.step backend (.snapshot userId cart (pre ++ item :: post) [] pv) w
        = (.done (.error e), w) ∧
      (e.code = some "VERSION_MISMATCH" ↔ current.version ≠ product.version) ∧
      (current.version ≠ product.version → e = modifiedError product) ∧
      (current.version = product.version →
        e = stockError product current ∧ e.code = some "INSUFFICIENT_STOCK" ∧
        current.stockQuantity < item.quantity) ∧
      e ≠ fallbackError product := by
  have hstep : Call.step backend (.snapshot userId cart (pre ++ item :: post) [] pv) w =
      (.done (.error (classifyFailure
        (conditionalUpdate st.db.products item.productId product.version item.quantity).1
        item product)), w) := by
    simp only [Call.step]
    rw [transaction_rollback userId cart.id pre post item product pv w.db st hpre hpv hmiss]
  obtain ⟨hall, hrows⟩ := conditionalUpdate_zero _ _ _ _ hmiss
  obtain ⟨hmem, hid⟩ := findUniqueProduct_some _ _ _ hcur
  rw [hrows] at hmem
  have hno := hall current hmem
  refine ⟨_, hstep, ?_⟩
  by_cases hv : current.version = product.version
  · have hlt : current.stockQuantity < item.quantity := by
      by_contra hge
      exact hno ⟨hid, hv, not_lt.mp hge⟩
    have hcls : classifyFailure
        (conditionalUpdate st.db.products item.productId product.version item.quantity).1
        item product = stockError product current := by
      simp [classifyFailure, hcur, hv, hlt]
    rw [hcls]
    refine ⟨?_, fun h => absurd hv h, fun _ => ⟨rfl, rfl, hlt⟩, ?_⟩
    · constructor
      · intro h
        simp [stockError, Thrown.code, InsufficientStockError] at h
      · intro h
        exact absurd hv h
    · intro h
      have := congrArg Thrown.code h
      simp [stockError, fallbackError, Thrown.code, InsufficientStockError, VersionMismatchError] at this
  · have hcls : classifyFailure
        (conditionalUpdate st.db.products item.productId product.version item.quantity).1
        item product = modifiedError product := by
      simp [classifyFailure, hcur, hv]
    rw [hcls]
    exact ⟨⟨fun _ => hv, fun _ => rfl⟩, fun _ => rfl, fun h => absurd h hv,
      modifiedError_ne_fallbackError product⟩

/-- C8 at `staleCall`: the second line finds product 2 at the snapshot version
with stock 1 below 2. -/
theorem failure_classification_witness :
    ∃ e : Thrown,
      Call.step .real staleCall { db := staleDb, emailJobs := [] }
        = (.done (.error e), { db := staleDb, emailJobs := [] }) ∧
      e.code = some "INSUFFICIENT_STOCK" := by
  obtain ⟨e, h1, -, -, h4, -⟩ :=
    failure_classification .real { db := staleDb, emailJobs := [] } 1
      staleCart [staleLine1] [] staleLine2
      { id := 2, name := "Test Mouse", price := 2999, stockQuantity := 1, version := 1 }
      { id := 2, name := "Test Mouse", price := 2999, stockQuantity := 1, version := 1 }
      staleVersions
      { db := { staleDb with products :=
          [{ id := 1, name := "Test Laptop", price := 99999, stockQuantity := 3, version := 1 },
           { id := 2, name := "Test Mouse", price := 2999, stockQuantity := 1, version := 1 }] },
        totalPrice := 199998,
        orderItems := [{ productId := 1, quantity := 2, priceAtPurchase := 99999 }] }
      (by decide) (by decide) (by decide) (by decide)
  exact ⟨e, h1, (h4 rfl).2.1⟩

/-! ## The race -/

theorem find?_range_map {α : Type} (f : Nat → α) (g : α → Nat) (hg : ∀ j, g (f j) = j + 1)
    (n i : Nat) :
    ((List.range n).map f).find? (fun x => g x == i + 1) = if i < n then some (f i) else none := by
  induction n with
  | zero => simp
  | succ n ih =>
    rw [List.range_succ, List.map_append, List.find?_append, ih]
    by_cases h1 : i < n
    · have : i < n + 1 := by omega
      simp [h1, this]
    · by_cases h2 : i = n
      · subst h2
        simp [hg]
      · have : ¬ i < n + 1 := by omega
        have h3 : ¬ n = i := fun h => h2 h.symm
        simp [h1, this, hg, h3]

theorem filter_range_map {α : Type} (f : Nat → α) (g : α → Nat) (hg : ∀ j, g (f j) = j + 1)
    (n i : Nat) :
    ((List.range n).map f).filter (fun x => g x == i + 1) = if i < n then [f i] else [] := by
  induction n with
  | zero => simp
  | succ n ih =>
    rw [List.range_succ, List.map_append, List.filter_append, ih]
    by_cases h1 : i < n
    · have : i < n + 1 := by omega
      have h3 : ¬ n = i := by omega
      simp [h1, this, hg, h3]
    · by_cases h2 : i = n
      · subst h2
        simp [hg]
      · have : ¬ i < n + 1 := by omega
        have h3 : ¬ n = i := fun h => h2 h.symm
        simp [h1, this, hg, h3]

theorem raceDb_cart (product : Product) (n i : Nat) (hi : i < n) :
    (raceDb product n).carts.find? (fun c => c.userId == i + 1) = some { id := i + 1, userId := i + 1 } := by
  have := find?_range_map (fun j => ({ id := j + 1, userId := j + 1 } : Cart)) (fun c => c.userId)
    (fun _ => rfl) n i
  simpa [raceDb, hi] using this

theorem raceDb_user (product : Product) (n i : Nat) (hi : i < n) :
    (raceDb product n).users.find? (fun u => u.id == i + 1) =
      some { id := i + 1, name := "User " ++ toString (i + 1),
             email := "user" ++ toString (i + 1) ++ "@example.com" } := by
  have := find?_range_map
    (fun j => ({ id := j + 1, name := "User " ++ toString (j + 1),
                 email := "user" ++ toString (j + 1) ++ "@example.com" } : User))
    (fun u => u.id) (fun _ => rfl) n i
  simpa [raceDb, hi] using this

theorem raceDb_lines (product : Product) (n i : Nat) (hi : i < n) :
    (raceDb product n).cartItems.filter (fun ci => ci.cartId == i + 1) = [raceLine product i] := by
  have := filter_range_map (fun j => raceLine product j) (fun ci => ci.cartId) (fun _ => rfl) n i
  simpa [raceDb, raceLine, hi] using this

theorem countP_set_get? {α : Type} (p : α → Bool) (l : List α) (i : Nat) (a b : α)
    (h : l.get? i = some a) :
    (l.set i b).countP p + (if p a then 1 else 0) = l.countP p + (if p b then 1 else 0) := by
  induction l generalizing i with
  | nil => simp at h
  | cons x l ih =>
    cases i with
    | zero =>
      simp only [List.get?_cons_zero, Option.some.injEq] at h
      subst h
      simp only [List.set_cons_zero, List.countP_cons]
      omega
    | succ i =>
      simp only [List.get?_cons_succ] at h
      have := ih i h
      simp only [List.set_cons_succ, List.countP_cons]
      omega

/-- One step of a call of the race: either the database is as before and the
call has not committed, or the step is the commit of its transaction, which
took one unit of a stock of at least 1, emptied the cart of the call and
added its order. -/
theorem Call.step_race (backend : QueueBackend) (product : Product) (n i k : Nat) (w : World)
    (c : Call) (hi : i < n)
    (husers : w.db.users = (raceDb product n).users)
    (hcarts : w.db.carts = (raceDb product n).carts)
    (hproducts : w.db.products = [raceRow product k])
    (hlines : c.won = false →
      w.db.cartItems.filter (fun ci => ci.cartId == i + 1) = [raceLine product i])
    (hc : RaceCall product k w.db.orders i c) :
    ((Call.step backend c w).2.db = w.db ∧ (Call.step backend c w).1.won = c.won ∧
      RaceCall product k w.db.orders i (Call.step backend c w).1) ∨
    (c.won = false ∧ (k : Int) + 1 ≤ product.stockQuantity ∧
      ∃ o : CreatedOrder, (Call.step backend c w).1 = .committed o ∧
        (Call.step backend c w).2.db.users = w.db.users ∧
        (Call.step backend c w).2.db.carts = w.db.carts ∧
        (Call.step backend c w).2.db.products = [raceRow product (k + 1)] ∧
        (Call.step backend c w).2.db.cartItems =
          w.db.cartItems.filter (fun ci => !(ci.cartId == i + 1)) ∧
        (Call.step backend c w).2.db.orders = w.db.orders ++ [o.order]) := by
  have hrow : findUniqueProduct w.db.products product.id = some (raceRow product k) := by
    simp [hproducts, findUniqueProduct, raceRow]
  have hjoin : c.won = false →
      includeProduct w.db.products (w.db.cartItems.filter (fun ci => ci.cartId == i + 1)) =
        .ok [{ id := i + 1, cartId := i + 1, productId := product.id, quantity := 1,
               product := raceRow product k }] := by
    intro hw
    rw [hlines hw]
    simp only [includeProduct, raceLine, hrow]
  cases c with
  | start userId =>
    left
    have hu : userId = i + 1 := hc
    subst hu
    have hfind : CartRepository.findByUserId w.db (i + 1) =
        .ok (some { id := i + 1, userId := i + 1,
                    items := [{ id := i + 1, cartId := i + 1, productId := product.id,
                                quantity := 1, product := raceRow product k }] }) := by
      simp only [CartRepository.findByUserId, hcarts, raceDb_cart product n i hi, hjoin rfl]
    have hstep : Call.step backend (.start (i + 1)) w =
        (.cartFound (i + 1)
          { id := i + 1, userId := i + 1,
            items := [{ id := i + 1, cartId := i + 1, productId := product.id,
                        quantity := 1, product := raceRow product k }] }, w) := by
      simp only [Call.step, hfind]
    rw [hstep]
    exact ⟨rfl, rfl, rfl, rfl⟩
  | cartFound userId cart =>
    left
    obtain ⟨hu, hcid⟩ := hc
    subst hu
    have hget : CartRepository.getCartItems w.db cart.id =
        .ok [{ id := i + 1, cartId := i + 1, productId := product.id, quantity := 1,
               product := raceRow product k }] := by
      rw [hcid]
      exact hjoin rfl
    by_cases hs : (1 : Int) > product.stockQuantity - (k : Int)
    · have hv : CartService.validateCartForCheckout w.db cart.id =
          .error (.app (InsufficientStockError (.num product.id)
            (.num (product.stockQuantity - (k : Int))) (.num 1))) := by
        simp [CartService.validateCartForCheckout, hget, CartService.checkStock, raceRow, hs]
      have hstep : Call.step backend (.cartFound (i + 1) cart) w =
          (.done (.error (.app (InsufficientStockError (.num product.id)
            (.num (product.stockQuantity - (k : Int))) (.num 1)))), w) := by
        simp only [Call.step, hv]
      rw [hstep]
      refine ⟨rfl, rfl, Or.inr rfl, ?_⟩
      intro h1
      omega
    · have hv : CartService.validateCartForCheckout w.db cart.id =
          .ok [{ id := i + 1, cartId := i + 1, productId := product.id, quantity := 1,
                 product := raceRow product k }] := by
        simp [CartService.validateCartForCheckout, hget, CartService.checkStock, raceRow, hs]
      have hstep : Call.step backend (.cartFound (i + 1) cart) w =
          (.snapshot (i + 1) cart
            [{ id := i + 1, cartId := i + 1, productId := product.id, quantity := 1,
               product := raceRow product k }]
            [{ id := i + 1, cartId := i + 1, productId := product.id, quantity := 1,
               product := raceRow product k }] [], w) := by
        simp [Call.step, hv]
      rw [hstep]
      exact ⟨rfl, rfl, rfl, hcid, raceRow product k, rfl, Or.inl ⟨rfl, rfl⟩⟩
  | snapshot userId cart cartItems todo pv =>
    obtain ⟨hu, hcid, q, hitems, hphase⟩ := hc
    subst hu
    rcases hphase with ⟨htodo, hpv⟩ | ⟨htodo, snap, hpv, hsnap⟩
    · left
      subst htodo hpv hitems
      have hstep : Call.step backend (.snapshot (i + 1) cart
            [{ id := i + 1, cartId := i + 1, productId := product.id, quantity := 1, product := q }]
            [{ id := i + 1, cartId := i + 1, productId := product.id, quantity := 1, product := q }]
            []) w =
          (.snapshot (i + 1) cart
            [{ id := i + 1, cartId := i + 1, productId := product.id, quantity := 1, product := q }]
            [] [(product.id, raceRow product k)], w) := by
        simp only [Call.step, ProductRepository.findByIdWithVersion, hrow, ProductVersions.set]
      rw [hstep]
      refine ⟨rfl, rfl, rfl, hcid, q, rfl, Or.inr ⟨rfl, raceRow product k, rfl, ?_⟩⟩
      intro hk
      simp [raceRow, hk]
    · subst htodo hpv hitems
      have hpvget : ProductVersions.get [(product.id, snap)] product.id = some snap := by
        simp [ProductVersions.get]
      by_cases hcond : (raceRow product k).version = snap.version ∧
          (1 : Int) ≤ (raceRow product k).stockQuantity
      · right
        have hupd : conditionalUpdate w.db.products product.id snap.version 1 =
            ([raceRow product (k + 1)], 1) := by
          have h1 : (product.version + (k : Int) == snap.version) = true := by
            simpa [raceRow] using hcond.1
          have h2 : (1 : Int) ≤ product.stockQuantity - (k : Int) := by
            simpa [raceRow] using hcond.2
          simp only [hproducts, conditionalUpdate, updateMany, raceRow, List.map_cons,
            List.map_nil, List.filter_cons, List.filter_nil, beq_self_eq_true, h1,
            Bool.and_self, Bool.true_and, ge_iff_le, h2, decide_True, if_true,
            List.length_singleton, Prod.mk.injEq, List.cons.injEq, and_true]
          simp only [Product.mk.injEq, true_and, and_true]
          constructor <;> push_cast <;> ring
        have hitem : checkoutItem [(product.id, snap)]
            { id := i + 1, cartId := i + 1, productId := product.id, quantity := 1, product := q }
            { db := w.db, totalPrice := 0, orderItems := [] } =
            .ok { db := { w.db with products := [raceRow product (k + 1)] },
                  totalPrice := 0 + (snap.price : Int) * 1,
                  orderItems := [] ++ [{ productId := product.id, quantity := 1,
                                         priceAtPurchase := snap.price }] } := by
          simp only [checkoutItem, hpvget, hupd]
          rfl
        have hux : w.db.users.find? (fun u => u.id == i + 1) =
            some { id := i + 1, name := "User " ++ toString (i + 1),
                   email := "user" ++ toString (i + 1) ++ "@example.com" } := by
          rw [husers]
          exact raceDb_user product n i hi
        have htx : ∃ o db1, checkoutTx (i + 1) (i + 1)
            [{ id := i + 1, cartId := i + 1, productId := product.id, quantity := 1, product := q }]
            [(product.id, snap)] w.db = .ok (o, db1) := by
          simp only [checkoutTx, checkoutLoop, hitem, orderCreate, hux]
          exact ⟨_, _, rfl⟩
        obtain ⟨o, db1, htx⟩ := htx
        obtain ⟨st, hloop, hdb1, -⟩ := checkoutTx_frame _ _ _ _ _ _ _ htx
        simp only [checkoutLoop, hitem] at hloop
        cases hloop
        refine ⟨rfl, ?_, o, ?_⟩
        · have := hcond.2
          simp only [raceRow] at this
          omega
        · have hstep : Call.step backend (.snapshot (i + 1) cart
                [{ id := i + 1, cartId := i + 1, productId := product.id, quantity := 1,
                   product := q }] [] [(product.id, snap)]) w =
              (.committed o, { w with db := db1 }) := by
            simp only [Call.step, hcid, transaction_ok _ _ _ _ htx]
          rw [hstep, hdb1]
          exact ⟨rfl, rfl, rfl, rfl, rfl, rfl⟩
      · left
        have hupd : conditionalUpdate w.db.products product.id snap.version 1 =
            (w.db.products, 0) := by
          apply conditionalUpdate_miss
          intro r hr hm
          rw [hproducts] at hr
          simp only [List.mem_singleton] at hr
          subst hr
          exact hcond ⟨hm.2.1, hm.2.2⟩
        have hitem : checkoutItem [(product.id, snap)]
            { id := i + 1, cartId := i + 1, productId := product.id, quantity := 1, product := q }
            { db := w.db, totalPrice := 0, orderItems := [] } =
            .error (classifyFailure w.db.products
              { id := i + 1, cartId := i + 1, productId := product.id, quantity := 1, product := q }
              snap) := by
          simp only [checkoutItem, hpvget, hupd]
          rfl
        have htx : checkoutTx (i + 1) (i + 1)
            [{ id := i + 1, cartId := i + 1, productId := product.id, quantity := 1, product := q }]
            [(product.id, snap)] w.db = .error (classifyFailure w.db.products
              { id := i + 1, cartId := i + 1, productId := product.id, quantity := 1, product := q }
              snap) := by
          simp only [checkoutTx, checkoutLoop, hitem]
        have hstep : Call.step backend (.snapshot (i + 1) cart
              [{ id := i + 1, cartId := i + 1, productId := product.id, quantity := 1,
                 product := q }] [] [(product.id, snap)]) w =
            (.done (.error (classifyFailure w.db.products
              { id := i + 1, cartId := i + 1, productId := product.id, quantity := 1, product := q }
              snap)), w) := by
          simp only [Call.step, hcid, transaction_error _ _ _ htx]
        rw [hstep]
        refine ⟨rfl, rfl, ?_, ?_⟩
        · show (Thrown.code _ = _ ∨ Thrown.code _ = _)
          simp only [classifyFailure, hrow]
          split
          · exact Or.inl rfl
          · split
            · exact Or.inr rfl
            · exact Or.inl rfl
        · intro h1
          by_contra hk
          have hk0 : k = 0 := by omega
          apply hcond
          subst hk0
          simp only [raceRow, hsnap rfl]
          constructor
          · simp
          · simpa using h1
  | committed o =>
    left
    exact ⟨rfl, rfl, hc⟩
  | done result =>
    left
    exact ⟨rfl, rfl, hc⟩

theorem get?_set_cases {α : Type} (l : List α) (i j : Nat) (b d : α)
    (h : (l.set i b).get? j = some d) : (j = i ∧ d = b) ∨ (j ≠ i ∧ l.get? j = some d) := by
  rw [List.get?_eq_getElem?, List.getElem?_set] at h
  by_cases hij : i = j
  · left
    rw [if_pos hij] at h
    split at h
    · exact ⟨hij.symm, (Option.some.inj h).symm⟩
    · cases h
  · right
    rw [if_neg hij] at h
    exact ⟨fun e => hij e.symm, by rw [List.get?_eq_getElem?]; exact h⟩

theorem RaceCall.mono (product : Product) (k k1 : Nat) (orders orders1 : List Order) (i : Nat)
    (c : Call) (hk : k ≤ k1) (ho : ∀ x ∈ orders, x ∈ orders1)
    (h : RaceCall product k orders i c) : RaceCall product k1 orders1 i c := by
  cases c with
  | start userId => exact h
  | cartFound userId cart => exact h
  | snapshot userId cart cartItems todo pv =>
    obtain ⟨h1, h2, q, h3, h4⟩ := h
    refine ⟨h1, h2, q, h3, ?_⟩
    rcases h4 with h4 | ⟨h5, snap, h6, h7⟩
    · exact Or.inl h4
    · exact Or.inr ⟨h5, snap, h6, fun hz => h7 (by omega)⟩
  | committed o => exact ho _ h
  | done result =>
    cases result with
    | ok o => exact ho _ h
    | error e => exact ⟨h.1, fun h1 => le_trans (h.2 h1) hk⟩

/-- The invariant holds when no call has started. -/
theorem raceInv_init (product : Product) (n : Nat) (h0 : 0 ≤ product.stockQuantity) :
    RaceInv product n (raceSystem product n) := by
  have hw : wins (raceSystem product n).calls = 0 := by
    simp [wins, raceSystem, List.countP_eq_zero, Call.won]
  have hget : ∀ i c, (raceSystem product n).calls.get? i = some c → i < n ∧ c = .start (i + 1) := by
    intro i c h
    simp only [raceSystem, List.get?_eq_getElem?, List.getElem?_map] at h
    by_cases hi : i < n
    · rw [List.getElem?_range hi] at h
      exact ⟨hi, by simpa using h.symm⟩
    · rw [List.getElem?_eq_none (by simpa using hi)] at h
      cases h
  refine ⟨by simp [raceSystem], rfl, rfl, ?_, ?_, ?_, ?_, ?_⟩
  · rw [hw]
    simp [raceSystem, raceDb, raceRow]
  · rw [hw]
    exact_mod_cast h0
  · rw [hw]
    rfl
  · intro i c h _
    exact raceDb_lines product n i (hget i c h).1
  · intro i c h
    rw [(hget i c h).2]
    rfl

/-- The invariant is kept by every step of every call. -/
theorem raceInv_step (backend : QueueBackend) (product : Product) (n : Nat) (sys : System)
    (i : Nat) (hinv : RaceInv product n sys) : RaceInv product n (System.step backend sys i) := by
  unfold System.step
  cases hget : sys.calls.get? i with
  | none => exact hinv
  | some c =>
    have hi : i < n := by
      rw [← hinv.length]
      rw [List.get?_eq_getElem?] at hget
      exact (List.getElem?_eq_some.mp hget).1
    have hcount := countP_set_get? Call.won sys.calls i c (Call.step backend c sys.world).1 hget
    rcases Call.step_race backend product n i (wins sys.calls) sys.world c hi hinv.users hinv.carts
      hinv.products (hinv.lines i c hget) (hinv.calls i c hget) with
      ⟨hdb, hwon, hcall⟩ | ⟨hw, hbound, o, hc1, hu, hca, hp, hci, ho⟩
    · have hwins : wins (sys.calls.set i (Call.step backend c sys.world).1) = wins sys.calls := by
        unfold wins
        rw [hwon] at hcount
        omega
      refine ⟨by simp [hinv.length], ?_, ?_, ?_, ?_, ?_, ?_, ?_⟩
      · show (Call.step backend c sys.world).2.db.users = _
        rw [hdb]; exact hinv.users
      · show (Call.step backend c sys.world).2.db.carts = _
        rw [hdb]; exact hinv.carts
      · show (Call.step backend c sys.world).2.db.products = [raceRow product (wins _)]
        rw [hdb, hwins]; exact hinv.products
      · show ((wins (sys.calls.set i (Call.step backend c sys.world).1) : Nat) : Int) ≤ _
        rw [hwins]; exact hinv.bound
      · show (Call.step backend c sys.world).2.db.orders.length = wins _
        rw [hdb, hwins]; exact hinv.orders
      · intro j d hj hd
        show (Call.step backend c sys.world).2.db.cartItems.filter _ = _
        rw [hdb]
        rcases get?_set_cases _ _ _ _ _ hj with ⟨rfl, rfl⟩ | ⟨-, hj1⟩
        · exact hinv.lines j c hget (by rw [← hwon]; exact hd)
        · exact hinv.lines j d hj1 hd
      · intro j d hj
        show RaceCall product (wins _) (Call.step backend c sys.world).2.db.orders j d
        rw [hdb, hwins]
        rcases get?_set_cases _ _ _ _ _ hj with ⟨rfl, rfl⟩ | ⟨-, hj1⟩
        · exact hcall
        · exact hinv.calls j d hj1
    · have hwins : wins (sys.calls.set i (Call.step backend c sys.world).1) = wins sys.calls + 1 := by
        unfold wins
        rw [hc1, hw] at hcount
        simp only [Call.won] at hcount
        simp only [hc1]
        simpa using hcount
      refine ⟨by simp [hinv.length], ?_, ?_, ?_, ?_, ?_, ?_, ?_⟩
      · show (Call.step backend c sys.world).2.db.users = _
        rw [hu]; exact hinv.users
      · show (Call.step backend c sys.world).2.db.carts = _
        rw [hca]; exact hinv.carts
      · show (Call.step backend c sys.world).2.db.products = [raceRow product (wins _)]
        rw [hp, hwins]
      · show ((wins (sys.calls.set i (Call.step backend c sys.world).1) : Nat) : Int) ≤ _
        rw [hwins]
        push_cast
        exact hbound
      · show (Call.step backend c sys.world).2.db.orders.length = wins _
        rw [ho, hwins, List.length_append, hinv.orders]
        rfl
      · intro j d hj hd
        show (Call.step backend c sys.world).2.db.cartItems.filter _ = _
        rw [hci, List.filter_filter]
        rcases get?_set_cases _ _ _ _ _ hj with ⟨rfl, rfl⟩ | ⟨hne, hj1⟩
        · rw [hc1] at hd
          cases hd
        · rw [← hinv.lines j d hj1 hd]
          apply List.filter_congr
          intro x _
          by_cases hx : x.cartId = j + 1
          · have : ¬ x.cartId = i + 1 := by omega
            simp [hx, hne]
          · simp [hx]
      · intro j d hj
        show RaceCall product (wins _) (Call.step backend c sys.world).2.db.orders j d
        rw [ho, hwins]
        rcases get?_set_cases _ _ _ _ _ hj with ⟨rfl, rfl⟩ | ⟨-, hj1⟩
        · rw [hc1]
          show o.order ∈ sys.world.db.orders ++ [o.order]
          simp
        · exact RaceCall.mono product _ _ _ _ j d (Nat.le_succ _)
            (fun x hx => List.mem_append_left _ hx) (hinv.calls j d hj1)

/-- The invariant holds after every schedule. -/
theorem raceInv_run (backend : QueueBackend) (product : Product) (n : Nat)
    (h0 : 0 ≤ product.stockQuantity) (schedule : List Nat) :
    RaceInv product n (System.run backend (raceSystem product n) schedule) := by
  have : ∀ sys, RaceInv product n sys → RaceInv product n (System.run backend sys schedule) := by
    induction schedule with
    | nil => exact fun sys h => h
    | cons i rest ih => exact fun sys h => ih _ (raceInv_step backend product n sys i h)
  exact this _ (raceInv_init product n h0)

theorem wins_eq_successes (sys : System) (h : sys.allDone = true) :
    wins sys.calls = successes sys := by
  unfold wins successes
  apply List.countP_congr
  intro c hc
  have hd : c.isDone = true := by
    simp only [System.allDone, List.all_eq_true] at h
    exact h c hc
  cases c with
  | done result => cases result <;> simp [Call.won, Call.succeeded]
  | start _ => simp [Call.isDone] at hd
  | cartFound _ _ => simp [Call.isDone] at hd
  | snapshot _ _ _ _ _ => simp [Call.isDone] at hd
  | committed _ => simp [Call.isDone] at hd

/-- C9. No overselling, as the code has it: for every product with stock
`S ≥ 0` and every `N > S` concurrent calls of `createOrder` by distinct users
with one unit of the product in their cart, after every schedule that settles
all the calls, at most `S` calls have returned an order, at least one has
when `S ≥ 1`, every other call has failed with code `VERSION_MISMATCH` or
`INSUFFICIENT_STOCK`, there is one order per call that returned one, and the
stock is `S` less the number of these calls, so not negative. -/
theorem no_overselling (backend : QueueBackend) (product : Product) (n : Nat)
    (schedule : List Nat) (h0 : 0 ≤ product.stockQuantity)
    (hn : product.stockQuantity < (n : Int))
    (hdone : (System.run backend (raceSystem product n) schedule).allDone = true) :
    ((successes (System.run backend (raceSystem product n) schedule) : Nat) : Int)
      ≤ product.stockQuantity ∧
    (1 ≤ product.stockQuantity →
      1 ≤ successes (System.run backend (raceSystem product n) schedule)) ∧
    (∀ c ∈ (System.run backend (raceSystem product n) schedule).calls,
      c.succeeded = true ∨ c.errorCode = some "VERSION_MISMATCH" ∨
      c.errorCode = some "INSUFFICIENT_STOCK") ∧
    (System.run backend (raceSystem product n) schedule).world.db.orders.length =
      successes (System.run backend (raceSystem product n) schedule) ∧
    (System.run backend (raceSystem product n) schedule).world.db.products =
      [{ product with
          stockQuantity := product.stockQuantity -
            (successes (System.run backend (raceSystem product n) schedule) : Nat),
          version := product.version +
            (successes (System.run backend (raceSystem product n) schedule) : Nat) }] ∧
    0 ≤ product.stockQuantity -
      (successes (System.run backend (raceSystem product n) schedule) : Nat) := by
  have hinv := raceInv_run backend product n h0 schedule
  have hw := wins_eq_successes _ hdone
  have hcalls : ∀ c ∈ (System.run backend (raceSystem product n) schedule).calls,
      c.isDone = true := by
    simpa [System.allDone] using hdone
  have hbound := hinv.bound
  rw [hw] at hbound
  refine ⟨hbound, ?_, ?_, by rw [hinv.orders, hw], by rw [hinv.products, hw]; rfl, by omega⟩
  · intro h1
    have hlen : 0 < (System.run backend (raceSystem product n) schedule).calls.length := by
      rw [hinv.length]
      omega
    obtain ⟨c, hc⟩ : ∃ c, (System.run backend (raceSystem product n) schedule).calls.get? 0
        = some c := ⟨_, List.get?_eq_get hlen⟩
    have hmem : c ∈ (System.run backend (raceSystem product n) schedule).calls :=
      List.get?_mem hc
    have hrc := hinv.calls 0 c hc
    have hd := hcalls c hmem
    rw [← hw]
    cases c with
    | done result =>
      cases result with
      | error e => exact hrc.2 h1
      | ok o =>
        exact List.countP_pos_iff.mpr ⟨_, hmem, rfl⟩
    | start _ => simp [Call.isDone] at hd
    | cartFound _ _ => simp [Call.isDone] at hd
    | snapshot _ _ _ _ _ => simp [Call.isDone] at hd
    | committed _ => simp [Call.isDone] at hd
  · intro c hmem
    obtain ⟨i, hi⟩ := List.get?_of_mem hmem
    have hrc := hinv.calls i c hi
    have hd := hcalls c hmem
    cases c with
    | done result =>
      cases result with
      | error e => exact Or.inr hrc.1
      | ok o => exact Or.inl rfl
    | start _ => simp [Call.isDone] at hd
    | cartFound _ _ => simp [Call.isDone] at hd
    | snapshot _ _ _ _ _ => simp [Call.isDone] at hd
    | committed _ => simp [Call.isDone] at hd

/-- C9 on stock 2 with 3 calls that step in turn. -/
theorem no_overselling_witness :
    ((successes (System.run .stub (raceSystem (raceProduct 2) 3)
      [0, 1, 2, 0, 1, 2, 0, 1, 2, 0, 1, 2, 0, 1, 2]) : Nat) : Int) ≤ 2 ∧
    1 ≤ successes (System.run .stub (raceSystem (raceProduct 2) 3)
      [0, 1, 2, 0, 1, 2, 0, 1, 2, 0, 1, 2, 0, 1, 2]) := by
  have h := no_overselling .stub (raceProduct 2) 3 [0, 1, 2, 0, 1, 2, 0, 1, 2, 0, 1, 2, 0, 1, 2]
    (by decide) (by decide) (by decide)
  exact ⟨h.1, h.2.1 (by decide)⟩

/-- C9 fails as stated: stock 2 and 3 calls that step in turn, so that all
three read version 1 before the first transaction. One call returns an order,
two fail, and the stock ends at 1, not at 0. -/
theorem no_overselling_counterexample :
    (System.run .stub (raceSystem (raceProduct 2) 3)
      [0, 1, 2, 0, 1, 2, 0, 1, 2, 0, 1, 2, 0, 1, 2]).allDone = true ∧
    successes (System.run .stub (raceSystem (raceProduct 2) 3)
      [0, 1, 2, 0, 1, 2, 0, 1, 2, 0, 1, 2, 0, 1, 2]) = 1 ∧
    (System.run .stub (raceSystem (raceProduct 2) 3)
      [0, 1, 2, 0, 1, 2, 0, 1, 2, 0, 1, 2, 0, 1, 2]).calls.map Call.errorCode =
      [none, some "VERSION_MISMATCH", some "VERSION_MISMATCH"] ∧
    (System.run .stub (raceSystem (raceProduct 2) 3)
      [0, 1, 2, 0, 1, 2, 0, 1, 2, 0, 1, 2, 0, 1, 2]).world.db.products.map
        (fun p => p.stockQuantity) = [1] ∧
    ¬ (successes (System.run .stub (raceSystem (raceProduct 2) 3)
        [0, 1, 2, 0, 1, 2, 0, 1, 2, 0, 1, 2, 0, 1, 2]) = 2 ∧
      (System.run .stub (raceSystem (raceProduct 2) 3)
        [0, 1, 2, 0, 1, 2, 0, 1, 2, 0, 1, 2, 0, 1, 2]).world.db.products.map
          (fun p => p.stockQuantity) = [0]) := by
  decide

/-- Two calls for the last unit, under every schedule: for a product with
stock 1 and two users with one unit of it in their cart, after every
schedule that settles the two concurrent calls of `createOrder`, exactly one
call has returned an order, the other has failed with code `VERSION_MISMATCH`
or `INSUFFICIENT_STOCK`, the order table holds exactly that one order, and
the stock is exactly 0. -/
theorem two_way_race (backend : QueueBackend) (product : Product) (schedule : List Nat)
    (hs : product.stockQuantity = 1)
    (hdone : (System.run backend (raceSystem product 2) schedule).allDone = true) :
    ∃ (o : CreatedOrder) (e : Thrown),
      ((System.run backend (raceSystem product 2) schedule).calls
          = [.done (.ok o), .done (.error e)] ∨
        (System.run backend (raceSystem product 2) schedule).calls
          = [.done (.error e), .done (.ok o)]) ∧
      (e.code = some "VERSION_MISMATCH" ∨ e.code = some "INSUFFICIENT_STOCK") ∧
      (System.run backend (raceSystem product 2) schedule).world.db.orders = [o.order] ∧
      (System.run backend (raceSystem product 2) schedule).world.db.products =
        [{ product with stockQuantity := 0, version := product.version + 1 }] := by
  have hinv := raceInv_run backend product 2 (by omega) schedule
  generalize System.run backend (raceSystem product 2) schedule = sys at hinv hdone ⊢
  obtain ⟨a, b, hab⟩ := List.length_eq_two.mp hinv.length
  have ha := hinv.calls 0 a (by rw [hab]; rfl)
  have hb := hinv.calls 1 b (by rw [hab]; rfl)
  have hbound := hinv.bound
  have hp := hinv.products
  have ho := hinv.orders
  rw [hab] at ha hb hbound hp ho
  simp only [System.allDone, hab, List.all_cons, List.all_nil, Bool.and_true,
    Bool.and_eq_true] at hdone
  have hone : ∀ (o : CreatedOrder), o.order ∈ sys.world.db.orders →
      sys.world.db.orders.length = 1 → sys.world.db.orders = [o.order] := by
    intro o hmem hlen
    obtain ⟨x, hx⟩ := List.length_eq_one.mp hlen
    rw [hx] at hmem ⊢
    rw [List.mem_singleton.mp hmem]
  cases a with
  | done ra =>
    cases b with
    | done rb =>
      cases ra with
      | ok oa =>
        cases rb with
        | ok ob =>
          exfalso
          simp [wins, List.countP_cons, Call.won] at hbound
          omega
        | error eb =>
          have hw : wins [Call.done (.ok oa), Call.done (.error eb)] = 1 := by
            simp [wins, List.countP_cons, Call.won]
          rw [hw] at hp ho
          refine ⟨oa, eb, Or.inl hab, hb.1, hone oa ha ho, ?_⟩
          rw [hp]
          simp [raceRow, hs]
      | error ea =>
        cases rb with
        | ok ob =>
          have hw : wins [Call.done (.error ea), Call.done (.ok ob)] = 1 := by
            simp [wins, List.countP_cons, Call.won]
          rw [hw] at hp ho
          refine ⟨ob, ea, Or.inr hab, ha.1, hone ob hb ho, ?_⟩
          rw [hp]
          simp [raceRow, hs]
        | error eb =>
          exfalso
          have := ha.2 (by omega)
          simp [wins, List.countP_cons, Call.won] at this
    | start _ => simp [Call.isDone] at hdone
    | cartFound _ _ => simp [Call.isDone] at hdone
    | snapshot _ _ _ _ _ => simp [Call.isDone] at hdone
    | committed _ => simp [Call.isDone] at hdone
  | start _ => simp [Call.isDone] at hdone
  | cartFound _ _ => simp [Call.isDone] at hdone
  | snapshot _ _ _ _ _ => simp [Call.isDone] at hdone
  | committed _ => simp [Call.isDone] at hdone

/-- The two calls on the product of `scripts/test-race-local.js`, stepping in turn. -/
theorem two_way_race_witness :
    ∃ (o : CreatedOrder) (e : Thrown),
      ((System.run .stub (raceSystem (raceProduct 1) 2) [0, 1, 0, 1, 0, 1, 0, 1, 0, 1]).calls
          = [.done (.ok o), .done (.error e)] ∨
        (System.run .stub (raceSystem (raceProduct 1) 2) [0, 1, 0, 1, 0, 1, 0, 1, 0, 1]).calls
          = [.done (.error e), .done (.ok o)]) ∧
      (e.code = some "VERSION_MISMATCH" ∨ e.code = some "INSUFFICIENT_STOCK") ∧
      (System.run .stub (raceSystem (raceProduct 1) 2)
        [0, 1, 0, 1, 0, 1, 0, 1, 0, 1]).world.db.orders = [o.order] ∧
      (System.run .stub (raceSystem (raceProduct 1) 2)
        [0, 1, 0, 1, 0, 1, 0, 1, 0, 1]).world.db.products =
        [{ raceProduct 1 with stockQuantity := 0, version := (raceProduct 1).version + 1 }] :=
  two_way_race .stub (raceProduct 1) [0, 1, 0, 1, 0, 1, 0, 1, 0, 1] (by decide) (by decide)

/-- C10. The loser of the race for the last unit is not answered with
`VERSION_MISMATCH` when it starts after the winner has committed (tests 2.8
and 2.9): on the product of `scripts/test-race-local.js` with stock 1, the
call of user 1 runs to its end and returns the order, then the call of user
2 runs and fails in the validation with the `InsufficientStockError`, code
`INSUFFICIENT_STOCK`, answered with status 400; no call fails with code
`VERSION_MISMATCH`. Exactly one order exists and the stock is 0. -/
theorem two_way_race_loser_insufficient_stock :
    (System.run .stub (raceSystem (raceProduct 1) 2) [0, 0, 0, 0, 0, 1, 1]).allDone = true ∧
    (System.run .stub (raceSystem (raceProduct 1) 2) [0, 0, 0, 0, 0, 1, 1]).calls.map
      Call.succeeded = [true, false] ∧
    (System.run .stub (raceSystem (raceProduct 1) 2) [0, 0, 0, 0, 0, 1, 1]).calls.map
      Call.errorCode = [none, some "INSUFFICIENT_STOCK"] ∧
    (System.run .stub (raceSystem (raceProduct 1) 2) [0, 0, 0, 0, 0, 1, 1]).calls.get? 1 =
      some (.done (.error (.app
        (InsufficientStockError (.num 1) (.num 0) (.num 1))))) ∧
    errorHandler true (.app (InsufficientStockError (.num 1) (.num 0) (.num 1))) =
      { status := 400, code := "INSUFFICIENT_STOCK",
        message := "Insufficient stock for product 1. Available: 0, Requested: 1" } ∧
    (¬ ∃ c ∈ (System.run .stub (raceSystem (raceProduct 1) 2) [0, 0, 0, 0, 0, 1, 1]).calls,
      c.errorCode = some "VERSION_MISMATCH") ∧
    (System.run .stub (raceSystem (raceProduct 1) 2)
      [0, 0, 0, 0, 0, 1, 1]).world.db.orders.length = 1 ∧
    (System.run .stub (raceSystem (raceProduct 1) 2)
      [0, 0, 0, 0, 0, 1, 1]).world.db.products.map (fun p => p.stockQuantity) = [0] := by
  decide

/-! ## The answer to a rejected checkout -/

/-- An `InsufficientStockError` is answered with status 400 and code
`INSUFFICIENT_STOCK`, whatever its arguments. -/
theorem errorHandler_insufficientStock (production : Bool) (productId available requested : JsVal) :
    errorHandler production (.app (InsufficientStockError productId available requested)) =
      { status := 400, code := "INSUFFICIENT_STOCK",
        message := (InsufficientStockError productId available requested).message } := by
  simp [errorHandler, InsufficientStockError]

/-- A `VersionMismatchError` is answered with status 409 and code `VERSION_MISMATCH`. -/
theorem errorHandler_versionMismatch (production : Bool) (message : String) :
    errorHandler production (.app (VersionMismatchError message)) =
      { status := 409, code := "VERSION_MISMATCH", message := message } := by
  simp [errorHandler, VersionMismatchError, ConflictError]

/-- The second checkout of tests 2.8 and 2.9, for every product with stock 1:
the first call returns an order and leaves stock 0; the second call is
rejected by the validation with status 400 and code `INSUFFICIENT_STOCK`, and
the world stays as the first call left it. -/
theorem second_checkout (backend : QueueBackend) (production : Bool) (product : Product)
    (hs : product.stockQuantity = 1) :
    (∃ o, (createOrder .stub { db := raceDb product 2, emailJobs := [] } 1).1 = .ok o) ∧
    (afterFirstCheckout product).db.products =
      [{ product with stockQuantity := 0, version := product.version + 1 }] ∧
    OrderController.createOrder backend production (afterFirstCheckout product) 2 =
      (.failed { status := 400, code := "INSUFFICIENT_STOCK",
                 message := (InsufficientStockError (.num product.id) (.num 0) (.num 1)).message },
       afterFirstCheckout product) := by
  have h1 : createOrder .stub { db := raceDb product 2, emailJobs := [] } 1 =
      (.ok { order := { id := 1, userId := 1, totalPrice := (product.price : Int) * 1,
                        status := "COMPLETED",
                        items := [{ id := 1, orderId := 1, productId := product.id, quantity := 1,
                                    priceAtPurchase := product.price }] },
             user := { id := 1, name := "User 1", email := "user1@example.com" } },
       { db := { raceDb product 2 with
                 products := [{ product with stockQuantity := 0, version := product.version + 1 }],
                 cartItems := [{ id := 2, cartId := 2, productId := product.id, quantity := 1 }],
                 orders := [{ id := 1, userId := 1, totalPrice := (product.price : Int) * 1,
                              status := "COMPLETED",
                              items := [{ id := 1, orderId := 1, productId := product.id,
                                          quantity := 1, priceAtPurchase := product.price }] }],
                 nextOrderId := 2,
                 nextOrderItemId := 2 },
         emailJobs := [] }) := by
    simp [createOrder, raceDb, List.range, List.range.loop, CartRepository.findByUserId,
      CartService.validateCartForCheckout, CartRepository.getCartItems, includeProduct,
      findUniqueProduct, CartService.checkStock, fetchProductVersions,
      ProductRepository.findByIdWithVersion, ProductVersions.set, ProductVersions.get,
      transaction, checkoutTx, checkoutLoop, checkoutItem, conditionalUpdate, updateMany,
      orderCreate, numberItems, CartRepository.clearCart, queueConfirmation, emailQueueAdd, hs]
    decide
  have h2 : afterFirstCheckout product =
      { db := { raceDb product 2 with
                products := [{ product with stockQuantity := 0, version := product.version + 1 }],
                cartItems := [{ id := 2, cartId := 2, productId := product.id, quantity := 1 }],
                orders := [{ id := 1, userId := 1, totalPrice := (product.price : Int) * 1,
                             status := "COMPLETED",
                             items := [{ id := 1, orderId := 1, productId := product.id,
                                         quantity := 1, priceAtPurchase := product.price }] }],
                nextOrderId := 2,
                nextOrderItemId := 2 },
        emailJobs := [] } := by
    unfold afterFirstCheckout
    rw [h1]
  refine ⟨⟨_, congrArg Prod.fst h1⟩, by rw [h2], ?_⟩
  rw [h2]
  simp [OrderController.createOrder, createOrder, raceDb, List.range, List.range.loop,
    CartRepository.findByUserId, CartService.validateCartForCheckout,
    CartRepository.getCartItems, includeProduct, findUniqueProduct, CartService.checkStock,
    errorHandler, InsufficientStockError, JsVal.render]

/-- C11. The second checkout is not answered with 409 `VERSION_MISMATCH`: on
the product of `scripts/test-race-local.js` with stock 1, after user 1 has
checked out (an order is returned and the stock is 0), the checkout of user 2
is answered with status 400 and code `INSUFFICIENT_STOCK`; the stock stays 0. -/
theorem second_checkout_insufficient_stock :
    (afterFirstCheckout (raceProduct 1)).db.products.map (fun p => p.stockQuantity) = [0] ∧
    (OrderController.createOrder .stub true (afterFirstCheckout (raceProduct 1)) 2).1 =
      .failed { status := 400, code := "INSUFFICIENT_STOCK",
                message := "Insufficient stock for product 1. Available: 0, Requested: 1" } ∧
    (OrderController.createOrder .stub true (afterFirstCheckout (raceProduct 1)) 2).1.status ≠ 409 ∧
    (OrderController.createOrder .stub true (afterFirstCheckout (raceProduct 1)) 2).1.errorCode
      ≠ some "VERSION_MISMATCH" ∧
    (OrderController.createOrder .stub true (afterFirstCheckout (raceProduct 1)) 2).2.db.products.map
      (fun p => p.stockQuantity) = [0] := by
  decide

/-- C12. A checkout rejected for insufficient stock is answered with status
400, not 409: in test 3, where the cart holds 2 units of a product with stock
1, the validation rejects the checkout with status 400 and code
`INSUFFICIENT_STOCK`; the error thrown inside the transaction of `staleCall`
is answered with status 400 as well, while a version mismatch is answered
with 409. -/
theorem insufficient_stock_is_bad_request :
    (OrderController.createOrder .stub true { db := lowStockDb, emailJobs := [] } 1).1 =
      .failed { status := 400, code := "INSUFFICIENT_STOCK",
                message := "Insufficient stock for product 1. Available: 1, Requested: 2" } ∧
    (Call.step .stub staleCall { db := staleDb, emailJobs := [] }).1 =
      .done (.error (stockError
        { id := 2, name := "Test Mouse", price := 2999, stockQuantity := 1, version := 1 }
        { id := 2, name := "Test Mouse", price := 2999, stockQuantity := 1, version := 1 })) ∧
    (errorHandler true (stockError
        { id := 2, name := "Test Mouse", price := 2999, stockQuantity := 1, version := 1 }
        { id := 2, name := "Test Mouse", price := 2999, stockQuantity := 1, version := 1 })).status
      = 400 ∧
    (errorHandler true (stockError
        { id := 2, name := "Test Mouse", price := 2999, stockQuantity := 1, version := 1 }
        { id := 2, name := "Test Mouse", price := 2999, stockQuantity := 1, version := 1 })).code
      = "INSUFFICIENT_STOCK" ∧
    (errorHandler true (.app (VersionMismatchError "Version mismatch"))).status = 409 := by
  decide

/-! ## The order a checkout returns -/

/-- The order of a transaction callback that returned has the status written
in line 119 and is owned by the user. -/
theorem createOrder_status (backend : QueueBackend) (w : World) (userId : Nat) (o : CreatedOrder)
    (h : (createOrder backend w userId).1 = .ok o) :
    o.order.status = "COMPLETED" ∧ o.order.userId = userId := by
  rcases createOrder_cases backend w userId with ⟨e, he⟩ | ⟨_, _, _, o1, db1, -, -, -, ht, hc⟩
  · rw [he] at h
    cases h
  · rw [hc] at h
    cases h
    obtain ⟨st, -, -, horder⟩ := checkoutTx_frame _ _ _ _ _ _ _ ht
    rw [horder]
    exact ⟨rfl, rfl⟩

/-- C13. The order a successful `createOrder` returns has status `COMPLETED`,
not `CONFIRMED`: in test 1, the order returned and stored has status
`COMPLETED`. -/
theorem order_status_is_completed :
    (∃ o : CreatedOrder, (createOrder .stub { db := happyDb, emailJobs := [] } 1).1 = .ok o ∧
      o.order.status = "COMPLETED" ∧ o.order.status ≠ "CONFIRMED") ∧
    (createOrder .stub { db := happyDb, emailJobs := [] } 1).2.db.orders.map (fun o => o.status)
      = ["COMPLETED"] := by
  refine ⟨⟨{ order := { id := 1, userId := 1, totalPrice := 205996, status := "COMPLETED",
                         items := [{ id := 1, orderId := 1, productId := 1, quantity := 2,
                                     priceAtPurchase := 99999 },
                                   { id := 2, orderId := 1, productId := 2, quantity := 2,
                                     priceAtPurchase := 2999 }] },
              user := { id := 1, name := "Test Customer", email := "c@example.com" } },
            by decide, by decide, by decide⟩, by decide⟩

/-! ## A user without a cart, a cart without lines -/

/-- The cart read of a user without a cart row returns `null`. -/
theorem findByUserId_none (db : Db) (userId : Nat)
    (h : db.carts.find? (fun c => c.userId == userId) = none) :
    CartRepository.findByUserId db userId = .ok none := by
  simp only [CartRepository.findByUserId, h]

/-- C16. CartNotFound: for a user for whom no cart row exists, `createOrder`
fails with the `NotFoundError` "Cart not found" (code `NOT_FOUND`, answered
with status 404), and the world is as before: no table is written and no
notification is queued, whatever the queue would do. -/
theorem cart_not_found (backend : QueueBackend) (production : Bool) (w : World) (userId : Nat)
    (h : w.db.carts.find? (fun c => c.userId == userId) = none) :
    createOrder backend w userId = (.error (.app (NotFoundError "Cart not found")), w) ∧
    (NotFoundError "Cart not found").code = "NOT_FOUND" ∧
    OrderController.createOrder backend production w userId =
      (.failed { status := 404, code := "NOT_FOUND", message := "Cart not found" }, w) ∧
    (createOrder backend w userId).2.db = w.db ∧
    (createOrder backend w userId).2.emailJobs = w.emailJobs := by
  have hc : createOrder backend w userId = (.error (.app (NotFoundError "Cart not found")), w) := by
    simp only [createOrder, findByUserId_none w.db userId h]
  refine ⟨hc, rfl, ?_, by rw [hc], by rw [hc]⟩
  simp only [OrderController.createOrder, hc]
  rfl

/-- C16 at test 1's database, for user 7, who has no cart. -/
theorem cart_not_found_witness :
    createOrder .real { db := happyDb, emailJobs := [] } 7 =
      (.error (.app (NotFoundError "Cart not found")), { db := happyDb, emailJobs := [] }) :=
  (cart_not_found .real true { db := happyDb, emailJobs := [] } 7 (by decide)).1

/-- The checkout of a cart without lines is rejected by `validateCartForCheckout`
with its message "Cart is empty"; the world is as before. -/
theorem empty_cart_rejected (backend : QueueBackend) (w : World) (userId : Nat) (c : Cart)
    (hcart : w.db.carts.find? (fun c => c.userId == userId) = some c)
    (hlines : cartLines w.db c.id = []) :
    createOrder backend w userId = (.error (.app (ValidationError "Cart is empty")), w) := by
  have hl : w.db.cartItems.filter (fun ci => ci.cartId == c.id) = [] := hlines
  simp [createOrder, CartRepository.findByUserId, hcart, hl, includeProduct,
    CartService.validateCartForCheckout, CartRepository.getCartItems]

/-- C17. The message of the rejected empty-cart checkout does not match
`/empty cart/i`: for the user of test 1 with a cart row and no cart item,
`createOrder` throws the `ValidationError` "Cart is empty" of the validation,
answered with status 400 and code `VALIDATION_ERROR`, and the world is as
before; the message "Cannot checkout with empty cart" of `createOrder` itself
would match. -/
theorem empty_cart_message :
    createOrder .stub { db := emptyCartDb, emailJobs := [] } 1 =
      (.error (.app (ValidationError "Cart is empty")), { db := emptyCartDb, emailJobs := [] }) ∧
    (OrderController.createOrder .stub true { db := emptyCartDb, emailJobs := [] } 1).1 =
      .failed { status := 400, code := "VALIDATION_ERROR", message := "Cart is empty" } ∧
    containsIgnoreCase "empty cart" "Cart is empty" = false ∧
    containsIgnoreCase "empty cart" "Cannot checkout with empty cart" = true := by
  refine ⟨empty_cart_rejected .stub { db := emptyCartDb, emailJobs := [] } 1
    { id := 1, userId := 1 } (by decide) (by decide), by decide, by decide, by decide⟩

/-! ## A product that is gone -/

/-- The loop of the transaction creates no product row: an id without a row
before has none after. -/
theorem checkoutLoop_absent (pv : ProductVersions) (cartItems : List CartItemWithProduct)
    (st st1 : TxState) (id : Nat) (h : checkoutLoop pv cartItems st = .ok st1)
    (h0 : findUniqueProduct st.db.products id = none) :
    findUniqueProduct st1.db.products id = none := by
  have := checkoutLoop_products (fun rows => findUniqueProduct rows id = none)
    (by
      intro rows productId version quantity hr
      have hmap : (conditionalUpdate rows productId version quantity).1 =
          rows.map (fun p =>
            if (p.id == productId && p.version == version && decide (p.stockQuantity ≥ quantity))
            then { p with stockQuantity := p.stockQuantity - quantity, version := p.version + 1 }
            else p) := rfl
      rw [hmap, findUniqueProduct_map _ _ (by intro p; split <;> rfl), hr]
      rfl)
    pv cartItems st st1 h h0
  exact this

/-- C18. ProductNotFound mid-transaction: when the product of a cart line has
no row in the database the transaction runs on, the call fails at that line
with the `NotFoundError` "not found during checkout" (code `NOT_FOUND`,
answered with status 404, neither `VERSION_MISMATCH` nor `INSUFFICIENT_STOCK`)
and the world is exactly the one from before the transaction: no stock
decrement of an earlier line, no order and no cart deletion persists. A
product that is already gone when the snapshot loop reads it makes the call
fail with a `NotFoundError` as well, before any transaction. -/
theorem product_not_found_mid_transaction (backend : QueueBackend) (production : Bool)
    (w : World) (userId : Nat) (cart : CartWithItems) (pre post : List CartItemWithProduct)
    (item : CartItemWithProduct) (product : Product) (pv : ProductVersions) (st : TxState)
    (hpre : checkoutLoop pv pre { db := w.db, totalPrice := 0, orderItems := [] } = .ok st)
    (hpv : pv.get item.productId = some product)
    (hgone : findUniqueProduct w.db.products item.productId = none) :
    Call.step backend (.snapshot userId cart (pre ++ item :: post) [] pv) w =
      (.done (.error (missingError item.productId)), w) ∧
    (missingError item.productId).code = some "NOT_FOUND" ∧
    (missingError item.productId).code ≠ some "VERSION_MISMATCH" ∧
    (missingError item.productId).code ≠ some "INSUFFICIENT_STOCK" ∧
    (errorHandler production (missingError item.productId)).status = 404 ∧
    (∀ rest pv0, ∃ e : AppError,
      Call.step backend (.snapshot userId cart (pre ++ item :: post) (item :: rest) pv0) w =
        (.done (.error (.app e)), w) ∧ e.code = "NOT_FOUND") := by
  have hgone1 := checkoutLoop_absent pv pre _ st item.productId hpre hgone
  have hnone := findUniqueProduct_none _ _ hgone1
  have hmiss : conditionalUpdate st.db.products item.productId product.version item.quantity =
      (st.db.products, 0) :=
    conditionalUpdate_miss _ _ _ _ (fun r hr hc => hnone r hr hc.1)
  have hstep := transaction_rollback userId cart.id pre post item product pv w.db st hpre hpv
    (by rw [hmiss])
  rw [hmiss] at hstep
  have hcls : classifyFailure st.db.products item product = missingError item.productId := by
    simp only [classifyFailure, hgone1]
  rw [hcls] at hstep
  refine ⟨?_, rfl, by simp [missingError, Thrown.code, NotFoundError],
    by simp [missingError, Thrown.code, NotFoundError],
    by simp [missingError, errorHandler, NotFoundError], ?_⟩
  · simp only [Call.step, hstep]
  · intro rest pv0
    refine ⟨NotFoundError ("Product " ++ toString item.productId ++ " not found"), ?_, rfl⟩
    simp only [Call.step, ProductRepository.findByIdWithVersion, hgone]

/-- C18 at `staleCall` on a database from which product 2 is gone: line 1
takes 2 units of product 1 inside the transaction, line 2 finds no row, and
the call fails with the database as before. -/
theorem product_not_found_mid_transaction_witness :
    Call.step .real staleCall { db := goneDb, emailJobs := [] } =
      (.done (.error (.app (NotFoundError "Product 2 not found during checkout"))),
       { db := goneDb, emailJobs := [] }) :=
  (product_not_found_mid_transaction .real true { db := goneDb, emailJobs := [] } 1
    staleCart [staleLine1] [] staleLine2
    { id := 2, name := "Test Mouse", price := 2999, stockQuantity := 1, version := 1 }
    staleVersions
    { db := { goneDb with products :=
        [{ id := 1, name := "Test Laptop", price := 99999, stockQuantity := 3, version := 1 }] },
      totalPrice := 199998,
      orderItems := [{ productId := 1, quantity := 2, priceAtPurchase := 99999 }] }
    (by decide) (by decide) (by decide)).1

/-! ## The notification -/

/-- The result of `createOrder` and the database it leaves do not depend on
what `emailQueue.add` does. -/
theorem createOrder_backend (b1 b2 : QueueBackend) (w : World) (userId : Nat) :
    (createOrder b1 w userId).1 = (createOrder b2 w userId).1 ∧
    (createOrder b1 w userId).2.db = (createOrder b2 w userId).2.db := by
  cases hc : CartRepository.findByUserId w.db userId with
  | error e => simp [createOrder, hc]
  | ok oc =>
    cases oc with
    | none => simp [createOrder, hc]
    | some cart =>
      cases hv : CartService.validateCartForCheckout w.db cart.id with
      | error e => simp [createOrder, hc, hv]
      | ok cartItems =>
        by_cases hl : cartItems.length = 0
        · simp [createOrder, hc, hv, hl]
        · cases hf : fetchProductVersions w.db cartItems [] with
          | error e => simp [createOrder, hc, hv, hl, hf]
          | ok pv =>
            cases ht : checkoutTx userId cart.id cartItems pv w.db with
            | error e => simp [createOrder, hc, hv, hl, hf, transaction_error _ _ _ ht]
            | ok r =>
              obtain ⟨o, db1⟩ := r
              simp [createOrder, hc, hv, hl, hf, transaction_ok _ _ _ _ ht]

/-- A validation that returned has returned at least one cart item. -/
theorem validateCartForCheckout_nonempty (db : Db) (cartId : Nat)
    (cartItems : List CartItemWithProduct)
    (h : CartService.validateCartForCheckout db cartId = .ok cartItems) :
    cartItems.length ≠ 0 := by
  intro hl
  unfold CartService.validateCartForCheckout at h
  cases hg : CartRepository.getCartItems db cartId with
  | error e => simp [hg] at h
  | ok items =>
    simp only [hg] at h
    by_cases hz : items.length = 0
    · simp [hz] at h
    · simp only [hz, if_false] at h
      cases hs : CartService.checkStock items with
      | error e => simp [hs] at h
      | ok u =>
        simp only [hs] at h
        cases h
        exact hz hl

/-- C19. Notification failure is isolated: when the transaction of a checkout
commits and `emailQueue.add` throws, `createOrder` returns the committed
order and leaves the database of the transaction (the order, the stock
decrements, the cleared cart) and the queue from before; it returns what it
returns, and leaves the database it leaves, when the queue accepts the job; a
call in the committed state settles with its order and leaves the world as
it is; and a call of `createOrder` that fails, whatever the queue does,
leaves the queue (as the whole world) as it was. -/
theorem notification_failure_isolated (w : World) (userId : Nat) :
    (∀ cart cartItems pv o db1,
      CartRepository.findByUserId w.db userId = .ok (some cart) →
      CartService.validateCartForCheckout w.db cart.id = .ok cartItems →
      fetchProductVersions w.db cartItems [] = .ok pv →
      checkoutTx userId cart.id cartItems pv w.db = .ok (o, db1) →
      createOrder .failing w userId = (.ok o, { db := db1, emailJobs := w.emailJobs })) ∧
    (∀ backend, (createOrder .failing w userId).1 = (createOrder backend w userId).1 ∧
      (createOrder .failing w userId).2.db = (createOrder backend w userId).2.db) ∧
    (createOrder .failing w userId).2.emailJobs = w.emailJobs ∧
    (∀ o, Call.step .failing (.committed o) w = (.done (.ok o), w)) ∧
    (∀ backend e, (createOrder backend w userId).1 = .error e →
      (createOrder backend w userId).2 = w) := by
  refine ⟨?_, fun backend => createOrder_backend .failing backend w userId, ?_, fun o => rfl,
    fun backend e h => createOrder_error_world backend w userId e h⟩
  · intro cart cartItems pv o db1 hc hv hf ht
    have hl := validateCartForCheckout_nonempty _ _ _ hv
    simp only [createOrder, hc, hv, hl, if_false, hf, transaction_ok _ _ _ _ ht]
    rfl
  · rcases createOrder_cases .failing w userId with ⟨e, he⟩ | ⟨_, _, _, o, db1, -, -, -, -, hc⟩
    · rw [he]
    · rw [hc]
      rfl

/-- C19 at test 1 with a queue that throws: the order is returned, both
products are at stock 3, the cart is empty and no job is queued; and the
failed checkout of test 3 queues no job on a queue that works. -/
theorem notification_failure_isolated_witness :
    (createOrder .failing { db := happyDb, emailJobs := [] } 1).1 =
      (createOrder .real { db := happyDb, emailJobs := [] } 1).1 ∧
    (createOrder .failing { db := happyDb, emailJobs := [] } 1).2.db.products.map
      (fun p => p.stockQuantity) = [3, 3] ∧
    (createOrder .failing { db := happyDb, emailJobs := [] } 1).2.emailJobs = [] ∧
    (createOrder .real { db := lowStockDb, emailJobs := [] } 1).2 =
      { db := lowStockDb, emailJobs := [] } :=
  ⟨((notification_failure_isolated { db := happyDb, emailJobs := [] } 1).2.1 .real).1,
   by decide,
   (notification_failure_isolated { db := happyDb, emailJobs := [] } 1).2.2.1,
   (notification_failure_isolated { db := lowStockDb, emailJobs := [] } 1).2.2.2.2 .real
     (.app (InsufficientStockError (.num 1) (.num 1) (.num 2))) (by decide)⟩

/-- The order a successful call returns is a row of the order table it leaves. -/
theorem createOrder_order_mem (backend : QueueBackend) (w w1 : World) (userId : Nat)
    (o : CreatedOrder) (h : createOrder backend w userId = (.ok o, w1)) :
    o.order ∈ w1.db.orders := by
  rcases createOrder_cases backend w userId with ⟨e, he⟩ | ⟨cart, cartItems, pv, o1, db1, -, -, -, ht, hc⟩
  · rw [he] at h
    cases h
  · rw [hc] at h
    obtain ⟨rfl, rfl⟩ : o1 = o ∧ _ = w1 := by simpa using h
    obtain ⟨st, -, hdb, -⟩ := checkoutTx_frame _ _ _ _ _ _ _ ht
    rw [hdb]
    simp

/-- The method `createProduct` leaves the order table as it is. -/
theorem createProduct_orders (app : App) (data : ProductData) :
    (ProductService.createProduct app data).2.world.db.orders = app.world.db.orders := by
  unfold ProductService.createProduct
  split
  · split_ifs <;> rfl
  · rfl

/-- The method `updateProduct` leaves the order table as it is. -/
theorem updateProduct_orders (app : App) (id : Nat) (data : ProductData) :
    (ProductService.updateProduct app id data).2.world.db.orders = app.world.db.orders := by
  unfold ProductService.updateProduct
  split
  · rfl
  · split_ifs
    · rfl
    · rfl
    · split
      · rfl
      · next updated db1 hu =>
        unfold ProductRepository.update at hu
        split at hu
        · cases hu
        · cases hu
          rfl

/-- The method `deleteProduct` leaves the order table as it is when the
relation from the order items to the products restricts. -/
theorem deleteProduct_orders (schema : Schema) (hs : schema.orderItemProduct = .restrict)
    (app : App) (id : Nat) :
    (ProductService.deleteProduct schema app id).2.world.db.orders = app.world.db.orders := by
  unfold ProductService.deleteProduct
  split
  · rfl
  · split
    · rfl
    · next db1 hd =>
      unfold ProductRepository.delete at hd
      split at hd
      · cases hd
      · split_ifs at hd with h1 h2
        · cases hd
          show List.map _ app.world.db.orders = app.world.db.orders
          have hno : ∀ o ∈ app.world.db.orders, ∀ x ∈ o.items, (x.productId == id) = false := by
            intro o ho x hx
            by_contra hne
            apply h1
            refine ⟨hs, ?_⟩
            simp only [List.any_eq_true]
            exact ⟨o, ho, x, hx, by simpa using hne⟩
          conv_rhs => rw [← List.map_id app.world.db.orders]
          apply List.map_congr_left
          intro o ho
          have : o.items.filter (fun x => !(x.productId == id)) = o.items := by
            rw [List.filter_eq_self]
            intro x hx
            simp [hno o ho x hx]
          simp [this]

/-- A catalogue write leaves the order table as it is. -/
theorem CatalogueWrite.run_orders (schema : Schema) (hs : schema.orderItemProduct = .restrict)
    (app : App) (write : CatalogueWrite) :
    (write.run schema app).world.db.orders = app.world.db.orders := by
  cases write with
  | createProduct data => exact createProduct_orders app data
  | updateProduct id data => exact updateProduct_orders app id data
  | deleteProduct id => exact deleteProduct_orders schema hs app id

/-- C15. Price-at-purchase immutability. Let a checkout commit an order, and
let any number of `ProductService.createProduct`, `updateProduct` and
`deleteProduct` calls follow it, each returning or throwing, where the
relation from the order items to the products restricts the deletion of a
referenced product. Every one of the calls leaves the order table exactly as
it found it, so after all of them the committed order is still a row of the
table, with its total and with every order line (product id, quantity and
price at purchase) as committed. -/
theorem price_at_purchase_immutable (schema : Schema)
    (hs : schema.orderItemProduct = .restrict) (backend : QueueBackend) (app app1 : App)
    (userId : Nat) (o : CreatedOrder)
    (hc : App.createOrder backend app userId = (.ok o, app1)) (writes : List CatalogueWrite) :
    (∀ (a : App) (write : CatalogueWrite),
      (write.run schema a).world.db.orders = a.world.db.orders) ∧
    (writes.foldl (CatalogueWrite.run schema) app1).world.db.orders = app1.world.db.orders ∧
    o.order ∈ (writes.foldl (CatalogueWrite.run schema) app1).world.db.orders := by
  have hall : ∀ (ws : List CatalogueWrite) (a : App),
      (ws.foldl (CatalogueWrite.run schema) a).world.db.orders = a.world.db.orders := by
    intro ws
    induction ws with
    | nil => intro a; rfl
    | cons write rest ih =>
      intro a
      rw [List.foldl_cons, ih, CatalogueWrite.run_orders schema hs]
  refine ⟨fun a write => CatalogueWrite.run_orders schema hs a write, hall writes app1, ?_⟩
  rw [hall writes app1]
  have h1 : createOrder backend app.world userId = (.ok o, app1.world) := by
    have := hc
    simp only [App.createOrder, Prod.mk.injEq] at this
    obtain ⟨h1, h2⟩ := this
    rw [← h2]
    exact Prod.ext h1 rfl
  exact createOrder_order_mem backend _ _ _ _ h1

/-- The checkout of test 1 returns its order; then the price of the laptop is
changed to one hundredth, the mouse is renamed, a product is created and the
deletion of the laptop is refused: the order is in the order table as
committed, with the two lines at 999.99 and 29.99, while the laptop now costs
one hundredth. -/
theorem price_at_purchase_immutable_witness :
    App.createOrder .real happyApp 1 = (.ok happyOrder, boughtApp) ∧
    happyOrder.order ∈
      (laterWrites.foldl (CatalogueWrite.run ⟨.cascade, .restrict⟩) boughtApp).world.db.orders ∧
    happyOrder.order.totalPrice = 205996 ∧
    happyOrder.order.items.map (fun x => (x.productId, x.quantity, x.priceAtPurchase)) =
      [(1, 2, 99999), (2, 2, 2999)] ∧
    (laterWrites.foldl (CatalogueWrite.run ⟨.cascade, .restrict⟩) boughtApp).world.db.products.map
        (fun p => (p.id, p.name, p.price)) =
      [(1, "Test Laptop", 1), (2, "Mouse", 2999), (3, "Desk", 10000)] :=
  ⟨by decide,
   (price_at_purchase_immutable ⟨.cascade, .restrict⟩ rfl .real happyApp boughtApp 1 happyOrder
      (by decide) laterWrites).2.2,
   by decide, by decide, by decide⟩

/-- A checkout leaves the cache as it is, whatever its outcome. -/
theorem App.createOrder_cache (backend : QueueBackend) (app : App) (userId : Nat) :
    (App.createOrder backend app userId).2.cache = app.cache := rfl

/-- A list that is in the cache is what `getProducts` returns, whatever the database holds. -/
theorem getProducts_cached (app : App) (filters : Filters) (cached : ProductPage)
    (h : redis.get app.cache (ProductService.cacheKey filters) = some cached) :
    ProductService.getProducts app filters = (.ok cached, app) := by
  simp [ProductService.getProducts, h]

/-- No key with the prefix is left after `invalidateCache`. -/
theorem invalidateCache_keys (cache : Cache) :
    redis.keys (ProductService.invalidateCache cache) "products:*" = [] := by
  have hp : ("products:*" : String).toList ≠ [] := by decide
  have hl : ("products:*" : String).toList.getLast? = some '*' := by decide
  have hk : ∀ c : Cache, redis.keys c "products:*" =
      (c.map (fun kv => kv.1)).filter
        (fun k => ("products:*" : String).toList.dropLast.isPrefixOf k.toList) := by
    intro c
    simp only [redis.keys, if_neg hp, if_pos hl]
  have hc : ProductService.CACHE_PREFIX ++ "*" = "products:*" := by decide
  unfold ProductService.invalidateCache
  rw [hc]
  dsimp only
  split_ifs with h
  · rw [hk, List.filter_eq_nil_iff]
    intro k hmem
    obtain ⟨kv, hkv, rfl⟩ := List.mem_map.1 hmem
    have hkv1 : kv ∈ cache ∧ kv.1 ∉ redis.keys cache "products:*" := by
      simpa [redis.del] using hkv
    intro hpre
    apply hkv1.2
    rw [hk]
    exact List.mem_filter.2 ⟨List.mem_map.2 ⟨kv, hkv1.1, rfl⟩, hpre⟩
  · have : redis.keys cache "products:*" = [] := by
      cases hh : redis.keys cache "products:*" with
      | nil => rfl
      | cons a l => rw [hh] at h; simp at h
    exact this

/-- C20. Checkout and the catalogue cache, on the server of test 1. The list of
products is read (it comes from the database, with stock 5 and 5, and is
stored under a key with the prefix `products:`), then user 1 checks out with
success and the committed stock is 3 and 3. The checkout leaves the cache as
it was: the key written before the checkout is still there, and the next
`ProductService.getProducts` with the same filters returns the list stored
before the checkout, with stock 5 and 5, not the committed stock that
`findAll` reads. -/
theorem checkout_leaves_stale_cache :
    ((ProductService.getProducts happyApp listFilters).1.toOption.map
      (fun r => r.data.map (fun p => (p.id, p.stockQuantity)))) = some [(1, 5), (2, 5)] ∧
    redis.keys listedApp.cache "products:*" = [ProductService.cacheKey listFilters] ∧
    (App.createOrder .real listedApp 1).1 = .ok happyOrder ∧
    staleApp.world.db.products.map (fun p => (p.id, p.stockQuantity)) = [(1, 3), (2, 3)] ∧
    staleApp.cache = listedApp.cache ∧
    redis.keys staleApp.cache "products:*" = [ProductService.cacheKey listFilters] ∧
    ((ProductService.getProducts staleApp listFilters).1.toOption.map
      (fun r => r.data.map (fun p => (p.id, p.stockQuantity)))) = some [(1, 5), (2, 5)] ∧
    ((ProductRepository.findAll staleApp.world.db listFilters).toOption.map
      (fun r => r.data.map (fun p => (p.id, p.stockQuantity)))) = some [(1, 3), (2, 3)] := by
  decide

/-! ## The payload of an insufficient-stock error -/

/-- The error of the validation carries the product id, the stock read and the
quantity of the line, and its message is built from them. -/
theorem checkStock_payload (cartItems : List CartItemWithProduct) (e : Thrown)
    (h : CartService.checkStock cartItems = .error e) :
    ∃ item ∈ cartItems, item.product.stockQuantity < item.quantity ∧
      e = .app { message := "Insufficient stock for product " ++ toString (item.product.id : Int)
                   ++ ". Available: " ++ toString item.product.stockQuantity
                   ++ ", Requested: " ++ toString item.quantity,
                 statusCode := 400, code := "INSUFFICIENT_STOCK",
                 productId := .num item.product.id,
                 available := .num item.product.stockQuantity,
                 requested := .num item.quantity } := by
  rcases checkStock_cases cartItems with ⟨hok, -⟩ | ⟨item, hmem, hlt, herr⟩
  · rw [hok] at h
    cases h
  · rw [herr] at h
    cases h
    exact ⟨item, hmem, hlt, rfl⟩

/-- C30. The payload of the `InsufficientStockError` thrown inside the
transaction is not the product id, the stock and the quantity. The call
`staleCall` read its cart while product 2 had stock 5 and asks for 2 units;
on `staleDb`, where product 2 is down to stock 1 at the version of the
snapshot, its transaction throws an `InsufficientStockError` whose
`productId` is the text "Insufficient stock for Test Mouse. Available: 1",
whose `available` and `requested` are undefined, and whose message repeats
that text inside the pattern. The error of the validation for the same kind
of cart (test 3) carries the id 1, the stock 1 and the quantity 2. -/
theorem insufficient_stock_payload_in_transaction :
    (Call.step .stub staleCall { db := staleDb, emailJobs := [] }).1 =
      .done (.error (.app
        { message := "Insufficient stock for product Insufficient stock for Test Mouse. "
            ++ "Available: 1. Available: undefined, Requested: undefined",
          statusCode := 400, code := "INSUFFICIENT_STOCK",
          productId := .str "Insufficient stock for Test Mouse. Available: 1",
          available := .undefined,
          requested := .undefined })) ∧
    (Call.step .stub staleCall { db := staleDb, emailJobs := [] }).1 ≠
      .done (.error (.app (InsufficientStockError (.num 2) (.num 1) (.num 2)))) ∧
    (createOrder .stub { db := lowStockDb, emailJobs := [] } 1).1 =
      .error (.app
        { message := "Insufficient stock for product 1. Available: 1, Requested: 2",
          statusCode := 400, code := "INSUFFICIENT_STOCK",
          productId := .num 1, available := .num 1, requested := .num 2 }) := by
  decide

/-! ## The validation before the checkout -/

/-- The loop of the validation stops at the first line above the stock. -/
theorem checkStock_first (pre post : List CartItemWithProduct) (item : CartItemWithProduct)
    (hpre : ∀ x ∈ pre, x.quantity ≤ x.product.stockQuantity)
    (hitem : item.product.stockQuantity < item.quantity) :
    CartService.checkStock (pre ++ item :: post) =
      .error (.app (InsufficientStockError (.num item.product.id)
        (.num item.product.stockQuantity) (.num item.quantity))) := by
  induction pre with
  | nil => simp [CartService.checkStock, hitem]
  | cons x rest ih =>
    have hx : ¬ x.quantity > x.product.stockQuantity := by
      have := hpre x (List.mem_cons_self _ _)
      omega
    simp only [List.cons_append, CartService.checkStock, if_neg hx]
    exact ih (fun y hy => hpre y (List.mem_cons_of_mem _ hy))

/-- The join of a list of cart lines in two parts. -/
theorem includeProduct_append (products : List Product) (l1 l2 : List CartItem)
    (items : List CartItemWithProduct) (h : includeProduct products (l1 ++ l2) = .ok items) :
    ∃ i1 i2, items = i1 ++ i2 ∧ includeProduct products l1 = .ok i1 ∧
      includeProduct products l2 = .ok i2 := by
  induction l1 generalizing items with
  | nil => exact ⟨[], items, rfl, rfl, h⟩
  | cons ci rest ih =>
    simp only [List.cons_append, includeProduct] at h ⊢
    cases hf : findUniqueProduct products ci.productId with
    | none => simp [hf] at h
    | some p =>
      simp only [hf] at h ⊢
      cases hr : includeProduct products (rest ++ l2) with
      | error e =>
        have hr1 : includeProduct products (rest.append l2) = .error e := hr
        simp only [hr1] at h
        cases h
      | ok its =>
        have hr1 : includeProduct products (rest.append l2) = .ok its := hr
        simp only [hr1] at h
        cases h
        obtain ⟨i1, i2, rfl, h1, h2⟩ := ih its hr
        rw [h1]
        exact ⟨_ :: i1, i2, rfl, rfl, h2⟩

/-- C28. Pre-checkout validation, on a database in which the product row of
every line of the cart exists (the foreign key of the cart item table).
`CartService.validateCartForCheckout` fails with the `ValidationError`
exactly when the cart has no line; it fails with an `InsufficientStockError`
exactly when the cart has a line whose quantity is above the stock of its
product, and the error is the one of the first such line in the order of the
cart, with the id of its product, the stock read and the quantity asked; in
the remaining case it returns all the lines of the cart, each with its
product row. It is a function of the database and returns no new one. -/
theorem validateCartForCheckout_spec (db : Db) (cartId : Nat)
    (hfk : ∀ l ∈ cartLines db cartId, findUniqueProduct db.products l.productId ≠ none) :
    (cartLines db cartId = [] →
      CartService.validateCartForCheckout db cartId = .error (.app (ValidationError "Cart is empty"))) ∧
    (∀ msg, CartService.validateCartForCheckout db cartId = .error (.app (ValidationError msg)) →
      cartLines db cartId = []) ∧
    (∀ pre l post p, cartLines db cartId = pre ++ l :: post →
      (∀ x ∈ pre, ∀ px, findUniqueProduct db.products x.productId = some px →
        x.quantity ≤ px.stockQuantity) →
      findUniqueProduct db.products l.productId = some p → p.stockQuantity < l.quantity →
      p.id = l.productId ∧
      CartService.validateCartForCheckout db cartId =
        .error (.app (InsufficientStockError (.num p.id) (.num p.stockQuantity) (.num l.quantity)))) ∧
    (∀ a b c, CartService.validateCartForCheckout db cartId =
        .error (.app (InsufficientStockError a b c)) →
      ∃ l ∈ cartLines db cartId, ∃ p, findUniqueProduct db.products l.productId = some p ∧
        p.stockQuantity < l.quantity) ∧
    (cartLines db cartId ≠ [] →
      (∀ l ∈ cartLines db cartId, ∀ p, findUniqueProduct db.products l.productId = some p →
        l.quantity ≤ p.stockQuantity) →
      ∃ items, CartService.validateCartForCheckout db cartId = .ok items ∧
        items.map CartItemWithProduct.toCartItem = cartLines db cartId ∧
        ∀ item ∈ items, findUniqueProduct db.products item.productId = some item.product) ∧
    (∀ items, CartService.validateCartForCheckout db cartId = .ok items →
      cartLines db cartId ≠ [] ∧
      items.map CartItemWithProduct.toCartItem = cartLines db cartId ∧
      ∀ l ∈ cartLines db cartId, ∀ p, findUniqueProduct db.products l.productId = some p →
        l.quantity ≤ p.stockQuantity) := by
  obtain ⟨items, hinc⟩ := includeProduct_ok db.products (cartLines db cartId)
    (fun l hl => Option.ne_none_iff_exists'.1 (hfk l hl))
  obtain ⟨hmap, hprod⟩ := includeProduct_spec _ _ _ hinc
  have hget : CartRepository.getCartItems db cartId = .ok items := hinc
  have hlen : items.length = (cartLines db cartId).length := by
    rw [← hmap, List.length_map]
  have hval : CartService.validateCartForCheckout db cartId =
      if items.length = 0 then .error (.app (ValidationError "Cart is empty"))
      else match CartService.checkStock items with
        | .error e => .error e
        | .ok _ => .ok items := by
    simp only [CartService.validateCartForCheckout, hget]
  have hempty : cartLines db cartId = [] ↔ items.length = 0 := by
    rw [hlen]
    exact List.length_eq_zero.symm
  -- the stock of a line's product, read through the join
  have hstock : ∀ item ∈ items, ∀ p,
      findUniqueProduct db.products (CartItemWithProduct.toCartItem item).productId = some p →
      p = item.product := by
    intro item hi p hp
    have := hprod item hi
    have hp2 : findUniqueProduct db.products item.productId = some p := hp
    rw [this] at hp2
    exact (Option.some.inj hp2).symm
  have hmem : ∀ l ∈ cartLines db cartId, ∃ item ∈ items, CartItemWithProduct.toCartItem item = l := by
    intro l hl
    rw [← hmap] at hl
    obtain ⟨item, hi, rfl⟩ := List.mem_map.1 hl
    exact ⟨item, hi, rfl⟩
  have hvalidation : ∀ msg, CartService.validateCartForCheckout db cartId =
      .error (.app (ValidationError msg)) → cartLines db cartId = [] := by
    intro msg h
    by_contra hne
    have hn : ¬ items.length = 0 := fun h0 => hne (hempty.2 h0)
    rw [hval, if_neg hn] at h
    rcases checkStock_cases items with ⟨hok, -⟩ | ⟨item, -, -, herr⟩
    · rw [hok] at h
      cases h
    · rw [herr] at h
      simp only [Except.error.injEq, Thrown.app.injEq] at h
      have := congrArg AppError.code h
      simp [InsufficientStockError, ValidationError] at this
  refine ⟨?_, hvalidation, ?_, ?_, ?_, ?_⟩
  · intro h
    rw [hval, if_pos (hempty.1 h)]
  · intro pre l post p hsplit hpre hfind hlt
    refine ⟨(findUniqueProduct_some _ _ _ hfind).2, ?_⟩
    have hn : ¬ items.length = 0 := by
      rw [hlen, hsplit]
      simp
    rw [hsplit] at hinc
    obtain ⟨i1, i2, rfl, h1, h2⟩ := includeProduct_append _ _ _ _ hinc
    simp only [includeProduct, hfind] at h2
    cases hr : includeProduct db.products post with
    | error e => simp [hr] at h2
    | ok ipost =>
      simp only [hr] at h2
      cases h2
      rw [hval, if_neg hn, checkStock_first i1 ipost _ ?_ hlt]
      intro x hx
      obtain ⟨hm1, hp1⟩ := includeProduct_spec _ _ _ h1
      have hxm : CartItemWithProduct.toCartItem x ∈ pre := by
        rw [← hm1]
        exact List.mem_map_of_mem _ hx
      exact hpre _ hxm x.product (hp1 x hx)
  · intro a b c h
    have hn : ¬ items.length = 0 := by
      intro h0
      rw [hval, if_pos h0] at h
      simp only [Except.error.injEq, Thrown.app.injEq] at h
      have := congrArg AppError.code h
      simp [InsufficientStockError, ValidationError] at this
    rw [hval, if_neg hn] at h
    rcases checkStock_cases items with ⟨hok, -⟩ | ⟨item, hi, hlt, -⟩
    · rw [hok] at h
      cases h
    · refine ⟨CartItemWithProduct.toCartItem item, ?_, item.product, hprod item hi, hlt⟩
      rw [← hmap]
      exact List.mem_map_of_mem _ hi
  · intro hne hall
    have hn : ¬ items.length = 0 := fun h0 => hne (hempty.2 h0)
    have hok : CartService.checkStock items = .ok () := by
      apply checkStock_ok
      intro item hi
      have hl : CartItemWithProduct.toCartItem item ∈ cartLines db cartId := by
        rw [← hmap]
        exact List.mem_map_of_mem _ hi
      exact hall _ hl item.product (hprod item hi)
    refine ⟨items, ?_, hmap, hprod⟩
    rw [hval, if_neg hn, hok]
  · intro its h
    have hn : ¬ items.length = 0 := by
      intro h0
      rw [hval, if_pos h0] at h
      cases h
    rw [hval, if_neg hn] at h
    rcases checkStock_cases items with ⟨hok, hall⟩ | ⟨item, -, -, herr⟩
    · rw [hok] at h
      cases h
      refine ⟨fun h0 => hn (hempty.1 h0), hmap, ?_⟩
      intro l hl p hp
      obtain ⟨item, hi, rfl⟩ := hmem l hl
      rw [hstock item hi p hp]
      exact hall item hi
    · rw [herr] at h
      cases h

/-- C28 on the databases of the tests: the cart of test 1 is returned whole,
the cart of test 3 is rejected for its first line, and the cart without lines
is rejected as empty. -/
theorem validateCartForCheckout_spec_witness :
    (∃ items, CartService.validateCartForCheckout happyDb 1 = .ok items ∧
      items.map CartItemWithProduct.toCartItem = cartLines happyDb 1 ∧
      ∀ item ∈ items, findUniqueProduct happyDb.products item.productId = some item.product) ∧
    CartService.validateCartForCheckout emptyCartDb 1 =
      .error (.app (ValidationError "Cart is empty")) ∧
    CartService.validateCartForCheckout lowStockDb 1 =
      .error (.app (InsufficientStockError (.num 1) (.num 1) (.num 2))) :=
  ⟨(validateCartForCheckout_spec happyDb 1 (by decide)).2.2.2.2.1 (by decide) (by decide),
   (validateCartForCheckout_spec emptyCartDb 1 (by decide)).1 (by decide),
   ((validateCartForCheckout_spec lowStockDb 1 (by decide)).2.2.1 []
      { id := 1, cartId := 1, productId := 1, quantity := 2 } []
      { id := 1, name := "Limited Stock Item", price := 19999, stockQuantity := 1,
        version := 0, category := "test", description := "Only 1 unit" }
      (by decide) (by decide) (by decide) (by decide)).2⟩

/-! ## The cache after a write to the catalogue -/

/-- The method `invalidateCache` keeps exactly the entries whose key does not
start with the prefix, each as it was. -/
theorem invalidateCache_eq_filter (cache : Cache) :
    ProductService.invalidateCache cache = cache.filter (fun kv => !(hasCachePrefix kv.1)) := by
  have hp : ("products:*" : String).toList ≠ [] := by decide
  have hl : ("products:*" : String).toList.getLast? = some '*' := by decide
  have hd : ("products:*" : String).toList.dropLast = ProductService.CACHE_PREFIX.toList := by
    decide
  have hc : ProductService.CACHE_PREFIX ++ "*" = "products:*" := by decide
  have hk : redis.keys cache "products:*" =
      (cache.map (fun kv => kv.1)).filter (fun k => hasCachePrefix k) := by
    simp only [redis.keys, if_neg hp, if_pos hl, hd, hasCachePrefix]
  have hmem : ∀ kv ∈ cache,
      (redis.keys cache "products:*").contains kv.1 = hasCachePrefix kv.1 := by
    intro kv hkv
    rw [hk, Bool.eq_iff_iff]
    simp only [List.contains_iff_exists_mem_beq, List.mem_filter, List.mem_map, beq_iff_eq]
    constructor
    · rintro ⟨k, ⟨-, hpre⟩, rfl⟩
      exact hpre
    · intro hpre
      exact ⟨kv.1, ⟨⟨kv, hkv, rfl⟩, hpre⟩, rfl⟩
  have hdel : (redis.del cache (redis.keys cache "products:*")).1 =
      cache.filter (fun kv => !(hasCachePrefix kv.1)) := by
    simp only [redis.del]
    apply List.filter_congr
    intro kv hkv
    rw [hmem kv hkv]
  unfold ProductService.invalidateCache
  rw [hc]
  dsimp only
  split_ifs with h
  · exact hdel
  · rw [← hdel]
    have h0 : redis.keys cache "products:*" = [] := by
      cases hh : redis.keys cache "products:*" with
      | nil => rfl
      | cons a l => rw [hh] at h; simp at h
    rw [h0]
    simp [redis.del]

/-- A key of `getProducts` starts with the prefix. -/
theorem cacheKey_hasCachePrefix (filters : Filters) :
    hasCachePrefix (ProductService.cacheKey filters) = true := by
  unfold hasCachePrefix ProductService.cacheKey
  rw [List.isPrefixOf_iff_prefix]
  simp only [String.toList, String.data_append, List.append_assoc]
  exact List.prefix_append _ _

/-- After `invalidateCache` no list of products is in the cache. -/
theorem get_invalidateCache (cache : Cache) (filters : Filters) :
    redis.get (ProductService.invalidateCache cache) (ProductService.cacheKey filters) = none := by
  rw [invalidateCache_eq_filter]
  unfold redis.get
  rw [Option.map_eq_none', List.find?_eq_none]
  intro kv hkv
  obtain ⟨-, hnot⟩ := List.mem_filter.1 hkv
  intro heq
  have : kv.1 = ProductService.cacheKey filters := by simpa using heq
  rw [this, cacheKey_hasCachePrefix] at hnot
  simp at hnot

/-- An entry whose key does not start with the prefix is read after
`invalidateCache` as before. -/
theorem get_invalidateCache_other (cache : Cache) (key : String)
    (h : hasCachePrefix key = false) :
    redis.get (ProductService.invalidateCache cache) key = redis.get cache key := by
  rw [invalidateCache_eq_filter]
  unfold redis.get
  congr 1
  induction cache with
  | nil => rfl
  | cons kv rest ih =>
    by_cases hk : kv.1 = key
    · subst hk
      simp [List.filter, h]
    · cases hpre : hasCachePrefix kv.1 with
      | true =>
        simp only [List.filter, hpre, Bool.not_true]
        rw [ih, List.find?_cons_of_neg]
        simpa using hk
      | false =>
        simp only [List.filter, hpre, Bool.not_false]
        rw [List.find?_cons_of_neg _ (by simpa using hk), List.find?_cons_of_neg _ (by simpa using hk)]
        exact ih

/-- With no list in the cache, `getProducts` returns what `findAll` reads. -/
theorem getProducts_miss (app : App) (filters : Filters)
    (h : redis.get app.cache (ProductService.cacheKey filters) = none) :
    (ProductService.getProducts app filters).1 =
      ProductRepository.findAll app.world.db filters := by
  unfold ProductService.getProducts
  rw [h]
  dsimp only
  cases ProductRepository.findAll app.world.db filters <;> rfl

/-- A successful `createProduct` has appended the product it returns to the
table, at version 0, and has run `invalidateCache`. -/
theorem createProduct_ok (app : App) (data : ProductData) (p : Product)
    (h : (ProductService.createProduct app data).1 = .ok p) :
    (ProductService.createProduct app data).2.cache = ProductService.invalidateCache app.cache ∧
    (ProductService.createProduct app data).2.world.db.products = app.world.db.products ++ [p] ∧
    p.version = 0 ∧ p.id = app.productSeq := by
  revert h
  unfold ProductService.createProduct
  split
  · split_ifs
    · intro h; cases h
    · intro h; cases h
    · intro h; cases h
    · intro h
      cases h
      exact ⟨rfl, rfl, rfl, rfl⟩
  · intro h; cases h

/-- A successful `updateProduct` has run `invalidateCache`, and the row it
returns is the row of the table changed by `updateData`. -/
theorem updateProduct_ok (app : App) (id : Nat) (data : ProductData) (p : Product)
    (h : (ProductService.updateProduct app id data).1 = .ok p) :
    (ProductService.updateProduct app id data).2.cache = ProductService.invalidateCache app.cache ∧
    ∃ before, findUniqueProduct app.world.db.products id = some before ∧
      p = ProductService.updateData data before ∧
      (ProductService.updateProduct app id data).2.world.db.products =
        app.world.db.products.map
          (fun r => if r.id == id then ProductService.updateData data r else r) := by
  revert h
  unfold ProductService.updateProduct
  split
  · intro h; cases h
  · split_ifs
    · intro h; cases h
    · intro h; cases h
    · split
      · intro h; cases h
      · next updated db1 hu =>
        intro h
        cases h
        unfold ProductRepository.update at hu
        split at hu
        · cases hu
        · next before hb =>
          cases hu
          exact ⟨rfl, before, hb, rfl, rfl⟩

/-- A successful `deleteProduct` has run `invalidateCache`. -/
theorem deleteProduct_cache (schema : Schema) (app : App) (id : Nat)
    (h : (ProductService.deleteProduct schema app id).1 = .ok ()) :
    (ProductService.deleteProduct schema app id).2.cache =
      ProductService.invalidateCache app.cache := by
  revert h
  unfold ProductService.deleteProduct
  split
  · intro h; cases h
  · split
    · intro h; cases h
    · intro _
      rfl
/-- The rows after an insertion are the rows before and the new one. -/
theorem insertSorted_perm (before : Product → Product → Bool) (p : Product) (l : List Product) :
    (insertSorted before p l).Perm (p :: l) := by
  induction l with
  | nil => exact List.Perm.refl _
  | cons q rest ih =>
    unfold insertSorted
    split_ifs
    · exact List.Perm.refl _
    · exact ((List.Perm.cons q ih).trans (List.Perm.swap p q rest))

/-- Sorting keeps the rows. -/
theorem sortRows_perm (before : Product → Product → Bool) (l : List Product) :
    (sortRows before l).Perm l := by
  induction l with
  | nil => exact List.Perm.refl _
  | cons p rest ih =>
    unfold sortRows
    exact (insertSorted_perm before p _).trans (List.Perm.cons p ih)

/-- The first page of the whole catalogue, when it has room for every
product, holds every product row. -/
theorem findAll_first_page (db : Db) (filters : Filters) (page : ProductPage)
    (h : ProductRepository.findAll db filters = .ok page)
    (hc : filters.category = none) (hp : filters.page = 1)
    (hl : db.products.length ≤ filters.limit) :
    page.data.Perm db.products := by
  unfold ProductRepository.findAll at h
  rw [hc, hp] at h
  dsimp only at h
  split_ifs at h
  cases h
  dsimp only
  have hlen : (sortRows (orderedBefore filters.sortBy filters.sortOrder) db.products).length ≤
      filters.limit := by
    rw [(sortRows_perm _ _).length_eq]
    exact hl
  simp only [Nat.sub_self, Nat.zero_mul, List.drop_zero]
  rw [List.take_of_length_le hlen]
  exact sortRows_perm _ _

/-- The state after `invalidateCache`, for any change of the database. -/
theorem namespaceCleared_of_cache (before after : App)
    (h : after.cache = ProductService.invalidateCache before.cache) :
    NamespaceCleared before after := by
  have hf := invalidateCache_eq_filter before.cache
  refine ⟨?_, ?_, ?_, ?_, ?_⟩
  · intro kv hkv
    rw [h, hf] at hkv
    simpa using (List.mem_filter.1 hkv).2
  · rw [h]
    exact invalidateCache_keys _
  · rw [h, hf]
  · intro key hkey
    rw [h]
    exact get_invalidateCache_other _ _ hkey
  · intro filters
    apply getProducts_miss
    rw [h]
    exact get_invalidateCache _ _

/-- C21. Admin writes clear the whole namespace. After a successful
`ProductService.createProduct`, `updateProduct` or `deleteProduct` the cache
holds no key that starts with `products:`, it is the cache from before
without the entries under such keys (every other entry is read as before),
and `getProducts` returns for every filter what `findAll` reads in the
database; the product a successful `createProduct` returns is a row of the
table and is on the first page of the whole catalogue when the page has room
for every product. -/
theorem catalogue_write_clears_namespace (schema : Schema) (app : App) :
    (∀ data p, (ProductService.createProduct app data).1 = .ok p →
      NamespaceCleared app (ProductService.createProduct app data).2 ∧
      p ∈ (ProductService.createProduct app data).2.world.db.products ∧
      ∀ filters page, filters.category = none → filters.page = 1 →
        (ProductService.createProduct app data).2.world.db.products.length ≤ filters.limit →
        (ProductService.getProducts (ProductService.createProduct app data).2 filters).1 = .ok page →
        p ∈ page.data) ∧
    (∀ id data p, (ProductService.updateProduct app id data).1 = .ok p →
      NamespaceCleared app (ProductService.updateProduct app id data).2) ∧
    (∀ id, (ProductService.deleteProduct schema app id).1 = .ok () →
      NamespaceCleared app (ProductService.deleteProduct schema app id).2) := by
  refine ⟨?_, ?_, ?_⟩
  · intro data p h
    obtain ⟨hcache, hrows, -, -⟩ := createProduct_ok app data p h
    have hclear := namespaceCleared_of_cache app _ hcache
    have hmem : p ∈ (ProductService.createProduct app data).2.world.db.products := by
      rw [hrows]
      simp
    refine ⟨hclear, hmem, ?_⟩
    intro filters page hc hp hl hget
    rw [hclear.2.2.2.2 filters] at hget
    exact (findAll_first_page _ _ _ hget hc hp hl).mem_iff.2 hmem
  · intro id data p h
    exact namespaceCleared_of_cache app _ (updateProduct_ok app id data p h).1
  · intro id h
    exact namespaceCleared_of_cache app _ (deleteProduct_cache schema app id h)

/-- C21 on test 4: with the product list and a session in the cache, the
administrator creates a product. The list is gone from the cache, the
session is still there, and the next listing holds the three products. -/
theorem catalogue_write_clears_namespace_witness :
    NamespaceCleared sessionApp (ProductService.createProduct sessionApp newProductData).2 ∧
    sessionApp.cache.map (fun kv => kv.1) =
      [ProductService.cacheKey listFilters, "session:1"] ∧
    (ProductService.createProduct sessionApp newProductData).2.cache.map (fun kv => kv.1) =
      ["session:1"] ∧
    ((ProductService.getProducts (ProductService.createProduct sessionApp newProductData).2
        listFilters).1.toOption.map (fun r => r.data.map (fun p => (p.id, p.name)))) =
      some [(3, "Cache Test Product"), (1, "Test Laptop"), (2, "Test Mouse")] :=
  ⟨((catalogue_write_clears_namespace ⟨.restrict, .restrict⟩ sessionApp).1 newProductData
      { id := 3, name := "Cache Test Product", price := 4999, stockQuantity := 20, version := 0,
        category := "test" } (by decide)).1,
   by decide, by decide, by decide⟩

/-! ## The version after a write to the catalogue -/

/-- The change `updateProduct` applies to a row leaves its id and its version. -/
theorem updateData_version (data : ProductData) (p : Product) :
    (ProductService.updateData data p).version = p.version ∧
    (ProductService.updateData data p).id = p.id :=
  ⟨rfl, rfl⟩

/-- A successful `updateProduct` returns its product at the version the row
had before, whatever the data set. -/
theorem updateProduct_version (app : App) (id : Nat) (data : ProductData) (p : Product)
    (h : (ProductService.updateProduct app id data).1 = .ok p) :
    ∃ before, findUniqueProduct app.world.db.products id = some before ∧
      p.version = before.version := by
  obtain ⟨-, before, hb, hp, -⟩ := updateProduct_ok app id data p h
  exact ⟨before, hb, by rw [hp]; rfl⟩

/-- C22. `ProductService.updateProduct` does not bump the version when it
sets the stock. On the database of test 1, where product 2 has stock 5 at
version 0, `updateProduct(2, { stockQuantity: 3 })` returns the product with
stock 3 and version 0, and the row is stored so. The call of user 1 that
holds version 0 of product 2 as its snapshot is not rejected afterwards: its
transaction commits, it returns the order and leaves stock 1 at version 1. A
product returned by `createProduct` has version 0. -/
theorem updateProduct_keeps_version :
    (ProductService.updateProduct happyApp 2 { stockQuantity := some 3 }).1 =
      .ok { id := 2, name := "Test Mouse", price := 2999, stockQuantity := 3, version := 0 } ∧
    restockedApp.world.db.products.map (fun p => (p.id, p.stockQuantity, p.version)) =
      [(1, 5, 0), (2, 3, 0)] ∧
    heldCall = .snapshot 1 staleCart [staleLine1, staleLine2] []
      [(2, { id := 2, name := "Test Mouse", price := 2999, stockQuantity := 5, version := 0 }),
       (1, { id := 1, name := "Test Laptop", price := 99999, stockQuantity := 5, version := 0 })] ∧
    (Call.run .stub 2 heldCall restockedApp.world).1 = .done (.ok happyOrder) ∧
    (Call.run .stub 2 heldCall restockedApp.world).1.errorCode ≠ some "VERSION_MISMATCH" ∧
    (Call.run .stub 2 heldCall restockedApp.world).2.db.products.map
      (fun p => (p.id, p.stockQuantity, p.version)) = [(1, 3, 1), (2, 1, 1)] ∧
    ((ProductService.createProduct happyApp newProductData).1.toOption.map
      (fun p => p.version)) = some 0 := by
  decide

/-! ## Role-based access -/

/-- The middleware of `authorize` hands the request on unchanged, or hands on an error. -/
theorem authorize_cases (allowedRoles : List String) (req : HttpRequest) :
    authorize allowedRoles req = .ok req ∨
    authorize allowedRoles req = .error (.app (UnauthorizedError "User not authenticated")) ∨
    authorize allowedRoles req =
      .error (.app (ForbiddenError "Insufficient permissions for this action")) := by
  unfold authorize
  split
  · exact Or.inr (Or.inl rfl)
  · split_ifs
    · exact Or.inl rfl
    · exact Or.inr (Or.inr rfl)

/-- A request with a token that `jwt.verify` decodes leaves `authenticate`
with the payload as its user. -/
theorem authenticate_decoded (jwtVerify : String → JwtOutcome) (req : HttpRequest)
    (token : String) (payload : TokenPayload) (ht : bearerToken req = some token)
    (hne : token ≠ "") (hv : jwtVerify token = .decoded payload) :
    authenticate jwtVerify req = .ok { req with user := some payload } := by
  simp only [authenticate, ht, if_neg hne, verifyToken, hv]

/-- C27. Role-based access. The middleware returned by
`authorize(...allowedRoles)` hands the request on exactly when `req.user` is
present and its role is one of the allowed roles; without `req.user` it
hands on the `UnauthorizedError` (401 `UNAUTHORIZED`), with a user whose
role is not in the list the `ForbiddenError` (403 `FORBIDDEN`). On `POST`,
`PUT` and `DELETE /products` and on `GET /admin/orders` a request with the
token of a `CUSTOMER` is refused with 403 `FORBIDDEN`, and a request with the
token of an `ADMIN` reaches the handler. -/
theorem role_based_access (allowedRoles : List String) (req : HttpRequest) :
    (authorize allowedRoles req = .ok req ↔
      ∃ user role, req.user = some user ∧ user.role = some role ∧ role ∈ allowedRoles) ∧
    ((∃ passed, authorize allowedRoles req = .ok passed) ↔
      ∃ user role, req.user = some user ∧ user.role = some role ∧ role ∈ allowedRoles) ∧
    (req.user = none →
      authorize allowedRoles req = .error (.app (UnauthorizedError "User not authenticated")) ∧
      ∀ production, errorHandler production (.app (UnauthorizedError "User not authenticated")) =
        { status := 401, code := "UNAUTHORIZED", message := "User not authenticated" }) ∧
    (∀ user, req.user = some user → (∀ role, user.role = some role → role ∉ allowedRoles) →
      authorize allowedRoles req =
        .error (.app (ForbiddenError "Insufficient permissions for this action")) ∧
      ∀ production, errorHandler production
          (.app (ForbiddenError "Insufficient permissions for this action")) =
        { status := 403, code := "FORBIDDEN",
          message := "Insufficient permissions for this action" }) ∧
    (∀ (jwtVerify : String → JwtOutcome) (endpoint : Endpoint) (token : String)
        (payload : TokenPayload),
      endpoint ∈ [Endpoint.postProducts, .putProduct, .deleteProduct, .getAdminOrders] →
      bearerToken req = some token → token ≠ "" → jwtVerify token = .decoded payload →
      (payload.role = some "CUSTOMER" →
        endpoint.guard jwtVerify req =
          .error (.app (ForbiddenError "Insufficient permissions for this action"))) ∧
      (payload.role = some "ADMIN" →
        endpoint.guard jwtVerify req = .ok { req with user := some payload })) := by
  have hiff : authorize allowedRoles req = .ok req ↔
      ∃ user role, req.user = some user ∧ user.role = some role ∧ role ∈ allowedRoles := by
    unfold authorize
    cases hu : req.user with
    | none => simp
    | some user =>
      cases hr : user.role with
      | none => simp [hr]
      | some role =>
        by_cases hm : role ∈ allowedRoles
        · simp [hr, hm]
        · simp [hr, hm]
  refine ⟨hiff, ?_, ?_, ?_, ?_⟩
  · rw [← hiff]
    constructor
    · rintro ⟨passed, hp⟩
      rcases authorize_cases allowedRoles req with h | h | h
      · exact h
      · rw [h] at hp; cases hp
      · rw [h] at hp; cases hp
    · intro h
      exact ⟨req, h⟩
  · intro hu
    refine ⟨?_, fun production => rfl⟩
    simp only [authorize, hu]
  · intro user hu hr
    refine ⟨?_, fun production => rfl⟩
    unfold authorize
    rw [hu]
    cases hrole : user.role with
    | none => simp [hrole]
    | some role =>
      have := hr role hrole
      simp [hrole, this]
  · intro jwtVerify endpoint token payload he ht hne hv
    have hauth := authenticate_decoded jwtVerify req token payload ht hne hv
    have hroles : endpoint.allowedRoles = some ["ADMIN"] := by
      simp only [List.mem_cons, List.mem_singleton, List.not_mem_nil, or_false] at he
      rcases he with rfl | rfl | rfl | rfl <;> rfl
    constructor
    · intro hrole
      simp [Endpoint.guard, hroles, hauth, authorize, hrole]
    · intro hrole
      simp [Endpoint.guard, hroles, hauth, authorize, hrole]

/-- C27 for the tokens of the tests on `POST /products`: the customer is
refused with `ForbiddenError`, the administrator reaches the handler, and a
request without a user is refused by `authorize` with `UnauthorizedError`. -/
theorem role_based_access_witness :
    Endpoint.guard testVerify .postProducts { authorization := some "Bearer customer-token" } =
      .error (.app (ForbiddenError "Insufficient permissions for this action")) ∧
    Endpoint.guard testVerify .postProducts { authorization := some "Bearer admin-token" } =
      .ok { authorization := some "Bearer admin-token",
            user := some { id := 2, email := "a@example.com", role := some "ADMIN" } } ∧
    authorize ["ADMIN"] { authorization := none } =
      .error (.app (UnauthorizedError "User not authenticated")) :=
  ⟨((role_based_access ["ADMIN"] { authorization := some "Bearer customer-token" }).2.2.2.2
      testVerify .postProducts "customer-token"
      { id := 1, email := "c@example.com", role := some "CUSTOMER" }
      (by decide) (by decide) (by decide) (by decide)).1 rfl,
   ((role_based_access ["ADMIN"] { authorization := some "Bearer admin-token" }).2.2.2.2
      testVerify .postProducts "admin-token"
      { id := 2, email := "a@example.com", role := some "ADMIN" }
      (by decide) (by decide) (by decide) (by decide)).2 rfl,
   ((role_based_access ["ADMIN"] { authorization := none }).2.2.1 rfl).1⟩

/-! ## Conservation of units -/

/-- The units on the lines of an order, read off the cart lines they were made from. -/
theorem unitsOn_of_maps (items : List OrderItem) (cartItems : List CartItemWithProduct)
    (h1 : items.map (fun x => x.productId) = cartItems.map (fun item => item.productId))
    (h2 : items.map (fun x => x.quantity) = cartItems.map (fun item => item.quantity))
    (productId : Nat) :
    unitsOn items productId =
      ((cartItems.filter (fun item => item.productId == productId)).map
        (fun item => item.quantity)).sum := by
  induction items generalizing cartItems with
  | nil =>
    cases cartItems with
    | nil => rfl
    | cons c rest => simp at h1
  | cons x xs ih =>
    cases cartItems with
    | nil => simp at h1
    | cons c rest =>
      simp only [List.map_cons, List.cons.injEq] at h1 h2
      have := ih rest h1.2 h2.2
      unfold unitsOn at this ⊢
      simp only [List.filter_cons, h1.1]
      split_ifs
      · simp only [List.map_cons, List.sum_cons, this, h2.1]
      · exact this

/-- The units of a product on cart lines with distinct products: the
quantity of its line, or nothing. -/
theorem units_of_nodup (cartItems : List CartItemWithProduct) (productId : Nat)
    (hd : (cartItems.map (fun item => item.productId)).Nodup) :
    (∀ item ∈ cartItems, item.productId = productId →
      ((cartItems.filter (fun item => item.productId == productId)).map
        (fun item => item.quantity)).sum = item.quantity) ∧
    (productId ∉ cartItems.map (fun item => item.productId) →
      ((cartItems.filter (fun item => item.productId == productId)).map
        (fun item => item.quantity)).sum = 0) := by
  have hnone : ∀ l : List CartItemWithProduct, productId ∉ l.map (fun item => item.productId) →
      l.filter (fun item => item.productId == productId) = [] := by
    intro l hl
    rw [List.filter_eq_nil_iff]
    intro item hi hbeq
    exact hl (List.mem_map.2 ⟨item, hi, by simpa using hbeq⟩)
  constructor
  · induction cartItems with
    | nil => intro item hi; cases hi
    | cons c rest ih =>
      intro item hi hp
      rw [List.map_cons, List.nodup_cons] at hd
      rcases List.mem_cons.1 hi with rfl | hrest
      · have hn : productId ∉ rest.map (fun item => item.productId) := by
          rw [← hp]
          exact hd.1
        simp [List.filter_cons, hp, hnone rest hn]
      · have hc : c.productId ≠ productId := by
          intro hcp
          apply hd.1
          rw [hcp, ← hp]
          exact List.mem_map_of_mem _ hrest
        simp only [List.filter_cons, beq_iff_eq, if_neg hc]
        exact ih hd.2 item hrest hp
  · intro hn
    rw [hnone cartItems hn]
    rfl

/-- A call of `createOrder` keeps the primary key of the product table. -/
theorem createOrder_productKey (backend : QueueBackend) (w : World) (userId : Nat)
    (hkey : ProductKey w.db) : ProductKey (createOrder backend w userId).2.db := by
  obtain ⟨f, hf, hrows⟩ := createOrder_rows backend w userId
  unfold ProductKey at hkey ⊢
  rw [hrows, List.map_map]
  have : ((fun p => p.id) ∘ f) = fun p : Product => p.id := by
    funext p
    exact (hf p).1
  rw [this]
  exact hkey

/-- The order table after a successful call is the one before with the returned order. -/
theorem createOrder_orders (backend : QueueBackend) (w : World) (userId : Nat) (o : CreatedOrder)
    (h : (createOrder backend w userId).1 = .ok o) :
    (createOrder backend w userId).2.db.orders = w.db.orders ++ [o.order] := by
  rcases createOrder_cases backend w userId with ⟨e, he⟩ | ⟨cart, cartItems, pv, o1, db1, -, -, -, ht, hc⟩
  · rw [he] at h
    cases h
  · rw [hc] at h ⊢
    cases h
    obtain ⟨st, -, hdb, -⟩ := checkoutTx_frame _ _ _ _ _ _ _ ht
    rw [hdb]

/-- The cart lines of a successful call: each has its product row, no two
share a product, the product table after the call is the one before with
each of them taken off, and the lines of the order repeat their products and
quantities. -/
theorem createOrder_ok_lines (backend : QueueBackend) (w : World) (userId : Nat)
    (o : CreatedOrder) (hkey : ProductKey w.db) (h : (createOrder backend w userId).1 = .ok o) :
    ∃ cartItems : List CartItemWithProduct,
      (createOrder backend w userId).2.db.products = w.db.products.map (purchase cartItems) ∧
      (cartItems.map (fun item => item.productId)).Nodup ∧
      (∀ item ∈ cartItems, ∃ p, findUniqueProduct w.db.products item.productId = some p ∧
        item.quantity ≤ p.stockQuantity) ∧
      o.order.items.map (fun x => x.productId) = cartItems.map (fun item => item.productId) ∧
      o.order.items.map (fun x => x.quantity) = cartItems.map (fun item => item.quantity) := by
  rcases createOrder_cases backend w userId with ⟨e, he⟩ | ⟨cart, cartItems, pv, o1, db1, -, -, -, ht, hc⟩
  · rw [he] at h
    cases h
  · rw [hc] at h ⊢
    cases h
    obtain ⟨st, hl, hdb, horder⟩ := checkoutTx_frame _ _ _ _ _ _ _ ht
    obtain ⟨hnd, hall⟩ := checkoutLoop_converse pv cartItems
      { db := w.db, totalPrice := 0, orderItems := [] } st hkey hl
    obtain ⟨st1, hl1, hp1⟩ := checkoutLoop_success pv cartItems
      { db := w.db, totalPrice := 0, orderItems := [] } hkey hnd hall
    rw [hl] at hl1
    cases hl1
    obtain ⟨added, hadd, hmap⟩ := checkoutLoop_orderItems pv cartItems _ st hl
    simp only [List.nil_append] at hadd
    have hitems : o.order.items =
        numberItems w.db.nextOrderId w.db.nextOrderItemId st.orderItems := by rw [horder]
    have hm := numberItems_map w.db.nextOrderId w.db.nextOrderItemId st.orderItems
    rw [← hitems, hadd, hmap] at hm
    refine ⟨cartItems, ?_, hnd, ?_, ?_, ?_⟩
    · show db1.products = _
      rw [hdb]
      exact hp1
    · intro item hi
      obtain ⟨p, snap, hf, -, -, hq⟩ := hall item hi
      exact ⟨p, hf, hq⟩
    · have := congrArg (List.map (fun t : Nat × Int × Option Nat => t.1)) hm
      simpa [List.map_map, Function.comp_def] using this
    · have := congrArg (List.map (fun t : Nat × Int × Option Nat => t.2.1)) hm
      simpa [List.map_map, Function.comp_def] using this

/-- The stock a successful call takes from a product is what its order holds of it. -/
theorem createOrder_units (backend : QueueBackend) (w : World) (userId : Nat) (o : CreatedOrder)
    (hkey : ProductKey w.db) (h : (createOrder backend w userId).1 = .ok o) (productId : Nat) :
    stockOf w.db productId - stockOf (createOrder backend w userId).2.db productId =
      unitsOn o.order.items productId := by
  obtain ⟨cartItems, hrows, hd, hex, h1, h2⟩ := createOrder_ok_lines backend w userId o hkey h
  rw [unitsOn_of_maps _ _ h1 h2]
  obtain ⟨hin, hout⟩ := units_of_nodup cartItems productId hd
  unfold stockOf
  rw [hrows, findUniqueProduct_map _ _ (purchase_id cartItems)]
  cases hf : findUniqueProduct w.db.products productId with
  | none =>
    by_cases hm : productId ∈ cartItems.map (fun item => item.productId)
    · exfalso
      obtain ⟨item, hi, hp⟩ := List.mem_map.1 hm
      obtain ⟨p, hp1, -⟩ := hex item hi
      rw [hp, hf] at hp1
      cases hp1
    · simp [hout hm]
  | some p =>
    simp only [Option.map_some']
    by_cases hm : productId ∈ cartItems.map (fun item => item.productId)
    · obtain ⟨item, hi, hp⟩ := List.mem_map.1 hm
      have hpid : p.id = item.productId := by
        rw [(findUniqueProduct_some _ _ _ hf).2]
        exact hp.symm
      rw [purchase_of_mem cartItems item p hd hi hpid, hin item hi hp]
      show p.stockQuantity - (p.stockQuantity - item.quantity) = item.quantity
      omega
    · have hpid : p.id ∉ cartItems.map (fun item => item.productId) := by
        rw [(findUniqueProduct_some _ _ _ hf).2]
        exact hm
      rw [purchase_of_not_mem cartItems p hpid, hout hm]
      omega

/-- C29. Conservation of units, on a database whose product ids are a primary
key. A successful `createOrder` takes from the stock of every product
exactly the units its new order holds of it, and appends that order alone; a
failed one leaves the world as it was, so no order line is created and no
stock changes. Hence over any sequence of checkouts the stock of a product
plus its units on all order lines stays what it was at the start. -/
theorem conservation_of_units (backend : QueueBackend) (w : World) (hkey : ProductKey w.db)
    (productId : Nat) :
    (∀ userId o, (createOrder backend w userId).1 = .ok o →
      stockOf w.db productId - stockOf (createOrder backend w userId).2.db productId =
        unitsOn o.order.items productId ∧
      (createOrder backend w userId).2.db.orders = w.db.orders ++ [o.order]) ∧
    (∀ userId e, (createOrder backend w userId).1 = .error e →
      (createOrder backend w userId).2 = w) ∧
    (∀ userIds : List Nat,
      stockOf (checkouts backend w userIds).db productId +
        unitsSold (checkouts backend w userIds).db productId =
      stockOf w.db productId + unitsSold w.db productId) := by
  have hone : ∀ (w1 : World) (userId : Nat), ProductKey w1.db →
      stockOf (createOrder backend w1 userId).2.db productId +
        unitsSold (createOrder backend w1 userId).2.db productId =
      stockOf w1.db productId + unitsSold w1.db productId := by
    intro w1 userId hk
    cases hr : (createOrder backend w1 userId).1 with
    | error e => rw [createOrder_error_world backend w1 userId e hr]
    | ok o =>
      have h1 := createOrder_units backend w1 userId o hk hr productId
      have h2 := createOrder_orders backend w1 userId o hr
      unfold unitsSold
      rw [h2, List.map_append, List.sum_append]
      simp only [List.map_cons, List.map_nil, List.sum_cons, List.sum_nil, add_zero]
      omega
  refine ⟨?_, ?_, ?_⟩
  · intro userId o h
    exact ⟨createOrder_units backend w userId o hkey h productId,
      createOrder_orders backend w userId o h⟩
  · intro userId e h
    exact createOrder_error_world backend w userId e h
  · intro userIds
    have hall : ∀ (ids : List Nat) (w1 : World), ProductKey w1.db →
        stockOf (checkouts backend w1 ids).db productId +
          unitsSold (checkouts backend w1 ids).db productId =
        stockOf w1.db productId + unitsSold w1.db productId := by
      intro ids
      induction ids with
      | nil => intro w1 _; rfl
      | cons userId rest ih =>
        intro w1 hk
        have hstep : checkouts backend w1 (userId :: rest) =
            checkouts backend (createOrder backend w1 userId).2 rest := rfl
        rw [hstep, ih _ (createOrder_productKey backend w1 userId hk), hone w1 userId hk]
    exact hall userIds w hkey

/-- C29 on test 1: the order takes 2 of the 5 laptops, and after the checkouts
of user 1, of user 7 (who has no cart) and of user 1 again (whose cart is
empty by then) the 5 laptops are the 3 in stock and the 2 on the order. -/
theorem conservation_of_units_witness :
    stockOf happyDb 1 = 5 ∧ unitsSold happyDb 1 = 0 ∧
    stockOf (checkouts .real { db := happyDb, emailJobs := [] } [1, 7, 1]).db 1 = 3 ∧
    stockOf (checkouts .real { db := happyDb, emailJobs := [] } [1, 7, 1]).db 1 +
      unitsSold (checkouts .real { db := happyDb, emailJobs := [] } [1, 7, 1]).db 1 =
    stockOf happyDb 1 + unitsSold happyDb 1 :=
  ⟨by decide, by decide, by decide,
   (conservation_of_units .real { db := happyDb, emailJobs := [] } (by decide) 1).2.2 [1, 7, 1]⟩

/-! ## The cart tables under the requests -/

/-- A change of the cart tables keeps their keys and sequences. -/
theorem CartStep.keys {actor opener : Option Nat} {a b : App} (h : CartStep actor opener a b)
    (hk : CartKeys a) : CartKeys b := by
  obtain ⟨k1, k2, k3, k4, k5, k6, k7⟩ := hk
  cases h with
  | same hc hi hs ht =>
    unfold CartKeys
    rw [hc, hi, hs, ht]
    exact ⟨k1, k2, k3, k4, k5, k6, k7⟩
  | newCart userId ho hnone hc hi hs ht =>
    unfold CartKeys
    rw [hc, hi, hs, ht]
    have hu : ∀ c ∈ a.world.db.carts, c.userId ≠ userId := by
      intro c hcm heq
      have := List.find?_eq_none.1 hnone c hcm
      simp [heq] at this
    refine ⟨?_, ?_, k3, k4, ?_, k6, ?_⟩
    · rw [List.map_append, List.nodup_append]
      refine ⟨k1, by simp, ?_⟩
      intro x hx1 hx2
      simp only [List.map_cons, List.map_nil, List.mem_singleton] at hx2
      obtain ⟨c, hcm, rfl⟩ := List.mem_map.1 hx1
      have := k5 c hcm
      omega
    · rw [List.map_append, List.nodup_append]
      refine ⟨k2, by simp, ?_⟩
      intro x hx1 hx2
      simp only [List.map_cons, List.map_nil, List.mem_singleton] at hx2
      obtain ⟨c, hcm, rfl⟩ := List.mem_map.1 hx1
      exact hu c hcm hx2
    · intro c hcm
      rcases List.mem_append.1 hcm with h1 | h1
      · have := k5 c h1
        omega
      · simp only [List.mem_singleton] at h1
        rw [h1]
        exact Nat.lt_succ_self _
    · intro ci hci
      have := k7 ci hci
      omega
  | setQuantity touched quantity hown hq hc hi hs ht =>
    unfold CartKeys
    rw [hc, hi, hs, ht]
    have hid : (a.world.db.cartItems.map (fun ci =>
        if touched ci then { ci with quantity := quantity ci } else ci)).map (fun ci => ci.id) =
        a.world.db.cartItems.map (fun ci => ci.id) := by
      rw [List.map_map]
      apply List.map_congr_left
      intro ci _
      simp only [Function.comp]
      split <;> rfl
    have hpair : (a.world.db.cartItems.map (fun ci =>
        if touched ci then { ci with quantity := quantity ci } else ci)).map
          (fun ci => (ci.cartId, ci.productId)) =
        a.world.db.cartItems.map (fun ci => (ci.cartId, ci.productId)) := by
      rw [List.map_map]
      apply List.map_congr_left
      intro ci _
      simp only [Function.comp]
      split <;> rfl
    refine ⟨k1, k2, by rw [hid]; exact k3, by rw [hpair]; exact k4, k5, ?_, ?_⟩
    · intro ci hci
      obtain ⟨x, hx, rfl⟩ := List.mem_map.1 hci
      have := k6 x hx
      split <;> exact this
    · intro ci hci
      obtain ⟨x, hx, rfl⟩ := List.mem_map.1 hci
      have := k7 x hx
      split <;> exact this
  | newLine userId cartId productId quantity ha hcart hfree hq hc hi hs ht =>
    unfold CartKeys
    rw [hc, hi, hs, ht]
    obtain ⟨c, hcm, hcid, -⟩ := hcart
    refine ⟨k1, k2, ?_, ?_, k5, ?_, ?_⟩
    · rw [List.map_append, List.nodup_append]
      refine ⟨k3, by simp, ?_⟩
      intro x hx1 hx2
      simp only [List.map_cons, List.map_nil, List.mem_singleton] at hx2
      obtain ⟨ci, hci, rfl⟩ := List.mem_map.1 hx1
      have := k6 ci hci
      omega
    · rw [List.map_append, List.nodup_append]
      refine ⟨k4, by simp, ?_⟩
      intro x hx1 hx2
      simp only [List.map_cons, List.map_nil, List.mem_singleton] at hx2
      obtain ⟨ci, hci, rfl⟩ := List.mem_map.1 hx1
      simp only [Prod.mk.injEq] at hx2
      exact hfree ci hci hx2
    · intro ci hci
      rcases List.mem_append.1 hci with h1 | h1
      · have := k6 ci h1
        omega
      · simp only [List.mem_singleton] at h1
        rw [h1]
        exact Nat.lt_succ_self _
    · intro ci hci
      rcases List.mem_append.1 hci with h1 | h1
      · exact k7 ci h1
      · simp only [List.mem_singleton] at h1
        rw [h1, ← hcid]
        exact k5 c hcm
  | remove keep hown hc hi hs ht =>
    unfold CartKeys
    rw [hc, hi, hs, ht]
    have hsub : (a.world.db.cartItems.filter keep).Sublist a.world.db.cartItems :=
      List.filter_sublist _
    refine ⟨k1, k2, k3.sublist (hsub.map _), k4.sublist (hsub.map _), k5, ?_, ?_⟩
    · intro ci hci
      exact k6 ci (List.mem_filter.1 hci).1
    · intro ci hci
      exact k7 ci (List.mem_filter.1 hci).1

/-- A change of the cart tables keeps every quantity at 1 or more. -/
theorem CartStep.positive {actor opener : Option Nat} {a b : App}
    (h : CartStep actor opener a b) (hp : QuantitiesPositive a.world.db) :
    QuantitiesPositive b.world.db := by
  unfold QuantitiesPositive at hp ⊢
  cases h with
  | same hc hi hs ht => rw [hi]; exact hp
  | newCart userId ho hnone hc hi hs ht => rw [hi]; exact hp
  | setQuantity touched quantity hown hq hc hi hs ht =>
    rw [hi]
    intro ci hci
    obtain ⟨x, hx, rfl⟩ := List.mem_map.1 hci
    by_cases ht : touched x = true
    · simp only [ht, if_true]
      exact hq x hx ht (hp x hx)
    · simp only [ht]
      exact hp x hx
  | newLine userId cartId productId quantity ha hcart hfree hq hc hi hs ht =>
    rw [hi]
    intro ci hci
    rcases List.mem_append.1 hci with h1 | h1
    · exact hp ci h1
    · simp only [List.mem_singleton] at h1
      rw [h1]
      exact hq
  | remove keep hown hc hi hs ht =>
    rw [hi]
    intro ci hci
    exact hp ci (List.mem_filter.1 hci).1

/-- A change of the cart tables creates a cart row only for the user the
request calls `getOrCreateCart` for. -/
theorem CartStep.noCart {actor opener : Option Nat} {a b : App} (h : CartStep actor opener a b)
    (userId : Nat) (ho : opener ≠ some userId)
    (hn : a.world.db.carts.find? (fun c => c.userId == userId) = none) :
    b.world.db.carts.find? (fun c => c.userId == userId) = none := by
  cases h with
  | same hc hi hs ht => rw [hc]; exact hn
  | newCart u hou hnone hc hi hs ht =>
    rw [hc, List.find?_append, hn]
    have hne : u ≠ userId := by
      intro he
      apply ho
      rw [hou, he]
    simp [hne]
  | setQuantity touched quantity hown hq hc hi hs ht => rw [hc]; exact hn
  | newLine u cartId productId quantity ha hcart hfree hq hc hi hs ht => rw [hc]; exact hn
  | remove keep hown hc hi hs ht => rw [hc]; exact hn

/-- The cart row of a user is a row of the cart table with that user. -/
theorem find?_cart (carts : List Cart) (userId : Nat) (c : Cart)
    (h : carts.find? (fun c => c.userId == userId) = some c) : c ∈ carts ∧ c.userId = userId := by
  refine ⟨List.mem_of_find?_eq_some h, ?_⟩
  have := List.find?_some h
  simpa using this

/-- The filter of a cart commutes with a change of quantities that leaves the
rows of the cart alone. -/
theorem filter_map_untouched (l : List CartItem) (p touched : CartItem → Bool)
    (quantity : CartItem → Int) (hp : ∀ ci ∈ l, p ci = true → touched ci = false)
    (hcart : ∀ ci, p { ci with quantity := quantity ci } = p ci) :
    (l.map (fun ci => if touched ci then { ci with quantity := quantity ci } else ci)).filter p =
      l.filter p := by
  induction l with
  | nil => rfl
  | cons x rest ih =>
    have ih1 := ih (fun ci hci => hp ci (List.mem_cons_of_mem _ hci))
    simp only [List.map_cons, List.filter_cons]
    by_cases hx : p x = true
    · have ht := hp x (List.mem_cons_self _ _) hx
      simp only [ht, Bool.false_eq_true, if_false, hx, if_true, ih1]
    · by_cases ht : touched x = true
      · simp only [ht, if_true, hcart, hx, if_false, ih1]
        simp [hx]
      · simp only [ht, if_false, hx, ih1]
        simp [hx]

/-- A change of the cart tables made for one user leaves the lines of the
cart of every other user as they were. -/
theorem CartStep.frame {opener : Option Nat} {a b : App} (actor other : Nat)
    (h : CartStep (some actor) opener a b) (hk : CartKeys a) (hne : actor ≠ other) :
    userLines b.world.db other = userLines a.world.db other := by
  obtain ⟨k1, k2, k3, k4, k5, k6, k7⟩ := hk
  -- a row owned by the actor is not in the cart of the other user
  have hown : ∀ (c : Cart) (ci : CartItem), c ∈ a.world.db.carts → c.userId = other →
      ownedBy a actor ci → (ci.cartId == c.id) = false := by
    intro c ci hc hu ⟨c1, hc1, hid, hu1⟩
    by_contra hcon
    have heq : ci.cartId = c.id := by simpa using hcon
    have hsame : c1 = c := by
      have hinj := List.inj_on_of_nodup_map k1
      exact hinj hc1 hc (by rw [hid, heq])
    rw [hsame] at hu1
    exact hne (hu1.symm.trans hu)
  cases h with
  | same hc hi hs ht =>
    unfold userLines cartLines
    rw [hc, hi]
  | newCart userId ho hnone hc hi hs ht =>
    unfold userLines cartLines
    rw [hc, hi, List.find?_append]
    cases hf : a.world.db.carts.find? (fun c => c.userId == other) with
    | some c => rfl
    | none =>
      by_cases hu : userId = other
      · simp only [Option.none_or, List.find?_cons, hu, beq_self_eq_true]
        rw [List.filter_eq_nil_iff]
        intro ci hci hbeq
        have := k7 ci hci
        have heq : ci.cartId = a.cartSeq := by simpa using hbeq
        omega
      · simp [hu]
  | setQuantity touched quantity hown1 hq hc hi hs ht =>
    unfold userLines cartLines
    rw [hc, hi]
    cases hf : a.world.db.carts.find? (fun c => c.userId == other) with
    | none => rfl
    | some c =>
      obtain ⟨hcm, hcu⟩ := find?_cart _ _ _ hf
      dsimp only
      apply filter_map_untouched
      · intro ci hci hp
        by_contra hcon
        have htouched : touched ci = true := by simpa using hcon
        obtain ⟨u, hu, how⟩ := hown1 ci hci htouched
        cases hu
        rw [hown c ci hcm hcu how] at hp
        cases hp
      · intro ci
        rfl
  | newLine userId cartId productId quantity ha hcart hfree hq hc hi hs ht =>
    unfold userLines cartLines
    rw [hc, hi]
    cases ha
    cases hf : a.world.db.carts.find? (fun c => c.userId == other) with
    | none => rfl
    | some c =>
      obtain ⟨hcm, hcu⟩ := find?_cart _ _ _ hf
      dsimp only
      rw [List.filter_append]
      have := hown c { id := a.cartItemSeq, cartId := cartId, productId := productId,
                       quantity := quantity } hcm hcu hcart
      simp only [List.filter_cons, this, Bool.false_eq_true, if_false, List.filter_nil,
        List.append_nil]
  | remove keep hown1 hc hi hs ht =>
    unfold userLines cartLines
    rw [hc, hi]
    cases hf : a.world.db.carts.find? (fun c => c.userId == other) with
    | none => rfl
    | some c =>
      obtain ⟨hcm, hcu⟩ := find?_cart _ _ _ hf
      dsimp only
      rw [List.filter_filter]
      apply List.filter_congr
      intro ci hci
      by_cases hkeep : keep ci = true
      · simp [hkeep]
      · have hk0 : keep ci = false := by simpa using hkeep
        rcases hown1 ci hci hk0 with h0 | ⟨u, hu, how⟩
        · cases h0
        · cases hu
          simp [hown c ci hcm hcu how, hk0]

/-- What `findByUserId` returns for a user with a cart: the row of the cart
and its lines, each with its product. -/
theorem findByUserId_some (db : Db) (userId : Nat) (cart : CartWithItems)
    (h : CartRepository.findByUserId db userId = .ok (some cart)) :
    ∃ c, db.carts.find? (fun c => c.userId == userId) = some c ∧ cart.id = c.id ∧
      cart.items.map CartItemWithProduct.toCartItem = cartLines db c.id := by
  unfold CartRepository.findByUserId at h
  split at h
  · cases h
  · next c hc =>
    split at h
    · cases h
    · next items hi =>
      cases h
      exact ⟨c, hc, rfl, (includeProduct_spec _ _ _ hi).1⟩

/-- A user without a cart row has no cart for `findByUserId`. -/
theorem findByUserId_ok_none (db : Db) (userId : Nat)
    (h : CartRepository.findByUserId db userId = .ok none) :
    db.carts.find? (fun c => c.userId == userId) = none := by
  unfold CartRepository.findByUserId at h
  split at h
  · next hn => exact hn
  · split at h <;> cases h

/-- The method `getOrCreateCart` changes nothing or creates the cart of the
user; the cart it returns is then a row of the cart table. -/
theorem getOrCreateCart_step (app : App) (userId : Nat) (actor : Option Nat) :
    CartStep actor (some userId) app (CartRepository.getOrCreateCart app userId).2 ∧
    (CartRepository.getOrCreateCart app userId).2.world.db.products = app.world.db.products ∧
    (CartRepository.getOrCreateCart app userId).2.world.db.cartItems = app.world.db.cartItems ∧
    (CartRepository.getOrCreateCart app userId).2.cartItemSeq = app.cartItemSeq ∧
    ∀ cart, (CartRepository.getOrCreateCart app userId).1 = .ok cart →
      ∃ c ∈ (CartRepository.getOrCreateCart app userId).2.world.db.carts,
        c.id = cart.id ∧ c.userId = userId := by
  unfold CartRepository.getOrCreateCart
  split
  · next c hc =>
    obtain ⟨hcm, hcu⟩ := find?_cart _ _ _ hc
    split
    · exact ⟨.same rfl rfl rfl rfl, rfl, rfl, rfl, fun cart h => by cases h⟩
    · refine ⟨.same rfl rfl rfl rfl, rfl, rfl, rfl, ?_⟩
      intro cart h
      cases h
      exact ⟨c, hcm, rfl, hcu⟩
  · next hnone =>
    split
    · exact ⟨.same rfl rfl rfl rfl, rfl, rfl, rfl, fun cart h => by cases h⟩
    · dsimp only
      split
      · exact ⟨.newCart userId rfl hnone rfl rfl rfl rfl, rfl, rfl, rfl, fun cart h => by cases h⟩
      · refine ⟨.newCart userId rfl hnone rfl rfl rfl rfl, rfl, rfl, rfl, ?_⟩
        intro cart h
        cases h
        exact ⟨_, List.mem_append_right _ (List.mem_singleton_self _), rfl, rfl⟩

/-- The method `addItem` with a quantity of 1 or more: at most a new cart
row, then a higher quantity on the line of the product or a new line. -/
theorem addItem_steps (app : App) (userId productId : Nat) (quantity : Int) (hq : 1 ≤ quantity) :
    ∃ mid, CartStep (some userId) (some userId) app mid ∧
      CartStep (some userId) (some userId) mid
        (CartRepository.addItem app userId productId quantity).2 := by
  obtain ⟨hstep, -, -, -, hcart⟩ := getOrCreateCart_step app userId (some userId)
  unfold CartRepository.addItem
  split
  · next e app1 heq =>
    have h2 : (CartRepository.getOrCreateCart app userId).2 = app1 := by rw [heq]
    rw [h2] at hstep
    exact ⟨app1, hstep, .same rfl rfl rfl rfl⟩
  · next cart app1 heq =>
    have h1 : (CartRepository.getOrCreateCart app userId).1 = .ok cart := by rw [heq]
    have h2 : (CartRepository.getOrCreateCart app userId).2 = app1 := by rw [heq]
    rw [h2] at hstep hcart
    obtain ⟨c, hcm, hcid, hcu⟩ := hcart cart h1
    refine ⟨app1, hstep, ?_⟩
    split
    · exact .same rfl rfl rfl rfl
    · split
      · next row hrow =>
        split_ifs
        · refine .setQuantity
            (fun ci => ci.cartId == cart.id && ci.productId == productId)
            (fun ci => ci.quantity + quantity) ?_ ?_ rfl rfl rfl rfl
          · intro ci _ ht
            simp only [Bool.and_eq_true, beq_iff_eq] at ht
            exact ⟨userId, rfl, c, hcm, by rw [hcid, ht.1], hcu⟩
          · intro ci _ _ hpos
            show 1 ≤ ci.quantity + quantity
            omega
        · exact .same rfl rfl rfl rfl
      · next hnone =>
        split_ifs
        · refine .newLine userId cart.id productId quantity rfl ⟨c, hcm, hcid, hcu⟩ ?_ hq
            rfl rfl rfl rfl
          intro ci hci hboth
          have := List.find?_eq_none.1 hnone ci hci
          simp [hboth.1, hboth.2] at this
        · exact .same rfl rfl rfl rfl

/-- The quantity that passes the test of `addToCart` and `updateCartItem` is 1 or more. -/
theorem quantity_accepted (quantity : Option Int)
    (h : CartService.quantityRejected quantity = false) :
    ∃ q, quantity = some q ∧ 1 ≤ q := by
  cases quantity with
  | none => simp [CartService.quantityRejected] at h
  | some q =>
    refine ⟨q, rfl, ?_⟩
    simp only [CartService.quantityRejected, Bool.or_eq_false_iff, decide_eq_false_iff_not] at h
    omega

/-- The method `addToCart`, whatever it is called with. -/
theorem addToCart_steps (app : App) (userId productId : Nat) (quantity : Option Int) :
    ∃ mid, CartStep (some userId) (some userId) app mid ∧
      CartStep (some userId) (some userId) mid
        (CartService.addToCart app userId productId quantity).2 := by
  unfold CartService.addToCart
  split_ifs with hr
  · exact ⟨app, .same rfl rfl rfl rfl, .same rfl rfl rfl rfl⟩
  · split
    · exact ⟨app, .same rfl rfl rfl rfl, .same rfl rfl rfl rfl⟩
    · obtain ⟨q, rfl, hq⟩ := quantity_accepted quantity (by simpa using hr)
      exact addItem_steps app userId productId q hq

/-- A line of the cart `findByUserId` returned is a cart item row of that cart. -/
theorem cart_item_row (db : Db) (cart : CartWithItems) (c : Cart)
    (item : CartItemWithProduct) (cartItemId : Nat)
    (hmap : cart.items.map CartItemWithProduct.toCartItem = cartLines db c.id)
    (hfind : cart.items.find? (fun item => item.id == cartItemId) = some item) :
    ∃ row ∈ db.cartItems, row.id = cartItemId ∧ row.cartId = c.id ∧
      row.productId = item.productId := by
  have hmem := List.mem_of_find?_eq_some hfind
  have hid : item.id = cartItemId := by simpa using List.find?_some hfind
  have hrow : CartItemWithProduct.toCartItem item ∈ cartLines db c.id := by
    rw [← hmap]
    exact List.mem_map_of_mem _ hmem
  obtain ⟨h1, h2⟩ := List.mem_filter.1 hrow
  exact ⟨_, h1, hid, by simpa using h2, rfl⟩

/-- With the key of the cart item table, the rows with the id of a row of a
cart are rows of that cart. -/
theorem owned_of_id (app : App) (hk : CartKeys app) (userId : Nat) (c : Cart) (row : CartItem)
    (hc : c ∈ app.world.db.carts) (hu : c.userId = userId)
    (hrow : row ∈ app.world.db.cartItems) (hcart : row.cartId = c.id) :
    ∀ ci ∈ app.world.db.cartItems, ci.id = row.id → ownedBy app userId ci := by
  intro ci hci hid
  have hinj := List.inj_on_of_nodup_map hk.2.2.1
  have : ci = row := hinj hci hrow hid
  rw [this]
  exact ⟨c, hc, hcart.symm, hu⟩

/-- The method `updateCartItem` changes nothing or sets the quantity of a
line of the cart of the user. -/
theorem updateCartItem_step (app : App) (hk : CartKeys app) (userId cartItemId : Nat)
    (quantity : Option Int) (opener : Option Nat) :
    CartStep (some userId) opener app
      (CartService.updateCartItem app userId cartItemId quantity).2 := by
  unfold CartService.updateCartItem
  split_ifs with hr
  · exact .same rfl rfl rfl rfl
  · obtain ⟨q, rfl, hq⟩ := quantity_accepted quantity (by simpa using hr)
    split
    · exact .same rfl rfl rfl rfl
    · exact .same rfl rfl rfl rfl
    · next cart hcart =>
      obtain ⟨c, hc, hcid, hmap⟩ := findByUserId_some _ _ _ hcart
      obtain ⟨hcm, hcu⟩ := find?_cart _ _ _ hc
      split
      · exact .same rfl rfl rfl rfl
      · next cartItem hitem =>
        obtain ⟨row, hrow, hrid, hrcart, -⟩ := cart_item_row _ cart c cartItem cartItemId hmap hitem
        split
        · exact .same rfl rfl rfl rfl
        · split_ifs
          · exact .same rfl rfl rfl rfl
          · split
            · exact .same rfl rfl rfl rfl
            · next updatedItem db1 hu =>
              unfold CartRepository.updateItem at hu
              split_ifs at hu
              split at hu
              · cases hu
              · split at hu
                · cases hu
                · cases hu
                  refine .setQuantity (fun ci => ci.id == cartItemId) (fun _ => q) ?_ ?_
                    rfl rfl rfl rfl
                  · intro ci hci ht
                    have hid : ci.id = row.id := by
                      rw [hrid]
                      simpa using ht
                    exact ⟨userId, rfl, owned_of_id app hk userId c row hcm hcu hrow hrcart ci hci hid⟩
                  · intro _ _ _ _
                    exact hq

/-- The method `removeFromCart` changes nothing or deletes a line of the cart
of the user. -/
theorem removeFromCart_step (app : App) (hk : CartKeys app) (userId cartItemId : Nat)
    (opener : Option Nat) :
    CartStep (some userId) opener app (CartService.removeFromCart app userId cartItemId).2 := by
  unfold CartService.removeFromCart
  split
  · exact .same rfl rfl rfl rfl
  · exact .same rfl rfl rfl rfl
  · next cart hcart =>
    obtain ⟨c, hc, hcid, hmap⟩ := findByUserId_some _ _ _ hcart
    obtain ⟨hcm, hcu⟩ := find?_cart _ _ _ hc
    split
    · exact .same rfl rfl rfl rfl
    · next cartItem hitem =>
      obtain ⟨row, hrow, hrid, hrcart, -⟩ := cart_item_row _ cart c cartItem cartItemId hmap hitem
      split
      · exact .same rfl rfl rfl rfl
      · next db1 hd =>
        unfold CartRepository.removeItem at hd
        split at hd
        · cases hd
        · cases hd
          refine .remove (fun ci => !(ci.id == cartItemId)) ?_ rfl rfl rfl rfl
          intro ci hci hkeep
          have hid : ci.id = row.id := by
            rw [hrid]
            simpa using hkeep
          exact Or.inr ⟨userId, rfl, owned_of_id app hk userId c row hcm hcu hrow hrcart ci hci hid⟩

/-- Emptying the cart of a user removes lines of that cart alone. -/
theorem clearCart_remove (a b : App) (userId : Nat) (c : Cart) (opener : Option Nat)
    (hc : a.world.db.carts.find? (fun c => c.userId == userId) = some c)
    (hcarts : b.world.db.carts = a.world.db.carts)
    (hitems : b.world.db.cartItems = a.world.db.cartItems.filter (fun ci => !(ci.cartId == c.id)))
    (hs : b.cartSeq = a.cartSeq) (ht : b.cartItemSeq = a.cartItemSeq) :
    CartStep (some userId) opener a b := by
  obtain ⟨hcm, hcu⟩ := find?_cart _ _ _ hc
  refine .remove (fun ci => !(ci.cartId == c.id)) ?_ hcarts hitems hs ht
  intro ci _ hkeep
  exact Or.inr ⟨userId, rfl, c, hcm, by simpa using Eq.symm (by simpa using hkeep : ci.cartId = c.id), hcu⟩

/-- The method `clearCart` changes nothing or empties the cart of the user. -/
theorem clearCart_step (app : App) (userId : Nat) (opener : Option Nat) :
    CartStep (some userId) opener app (CartService.clearCart app userId).2 := by
  unfold CartService.clearCart
  split
  · exact .same rfl rfl rfl rfl
  · exact .same rfl rfl rfl rfl
  · next cart hcart =>
    obtain ⟨c, hc, hcid, -⟩ := findByUserId_some _ _ _ hcart
    refine clearCart_remove app _ userId c opener hc rfl ?_ rfl rfl
    show (CartRepository.clearCart app.world.db cart.id).cartItems = _
    rw [hcid]
    rfl

/-- The method `createOrder` changes nothing in the cart tables or empties
the cart of the user. -/
theorem createOrder_step (backend : QueueBackend) (app : App) (userId : Nat)
    (opener : Option Nat) :
    CartStep (some userId) opener app (App.createOrder backend app userId).2 := by
  rcases createOrder_cases backend app.world userId with ⟨e, he⟩ | ⟨cart, cartItems, pv, o, db1, hcart, -, -, ht, hc⟩
  · refine .same ?_ ?_ rfl rfl
    · show (createOrder backend app.world userId).2.db.carts = _
      rw [he]
    · show (createOrder backend app.world userId).2.db.cartItems = _
      rw [he]
  · obtain ⟨c, hcf, hcid, -⟩ := findByUserId_some _ _ _ hcart
    obtain ⟨st, -, hdb, -⟩ := checkoutTx_frame _ _ _ _ _ _ _ ht
    refine clearCart_remove app _ userId c opener hcf ?_ ?_ rfl rfl
    · show (createOrder backend app.world userId).2.db.carts = _
      rw [hc, hdb]
    · show (createOrder backend app.world userId).2.db.cartItems = _
      rw [hc, hdb, hcid]

/-- A write to the catalogue changes nothing in the cart tables or, for a
deleted product, removes its lines. -/
theorem catalogue_step (schema : Schema) (app : App) (write : CatalogueWrite)
    (opener : Option Nat) :
    CartStep none opener app (write.run schema app) := by
  cases write with
  | createProduct data =>
    show CartStep none opener app (ProductService.createProduct app data).2
    unfold ProductService.createProduct
    split
    · split_ifs <;> exact .same rfl rfl rfl rfl
    · exact .same rfl rfl rfl rfl
  | updateProduct id data =>
    show CartStep none opener app (ProductService.updateProduct app id data).2
    unfold ProductService.updateProduct
    split
    · exact .same rfl rfl rfl rfl
    · split_ifs
      · exact .same rfl rfl rfl rfl
      · exact .same rfl rfl rfl rfl
      · split
        · exact .same rfl rfl rfl rfl
        · next updated db1 hu =>
          unfold ProductRepository.update at hu
          split at hu
          · cases hu
          · cases hu
            exact .same rfl rfl rfl rfl
  | deleteProduct id =>
    show CartStep none opener app (ProductService.deleteProduct schema app id).2
    unfold ProductService.deleteProduct
    split
    · exact .same rfl rfl rfl rfl
    · split
      · exact .same rfl rfl rfl rfl
      · next db1 hd =>
        unfold ProductRepository.delete at hd
        split at hd
        · cases hd
        · split_ifs at hd
          cases hd
          exact .remove (fun ci => !(ci.productId == id)) (fun _ _ _ => Or.inl rfl)
            rfl rfl rfl rfl

/-- The method `getProducts` leaves the cart tables alone. -/
theorem getProducts_step (app : App) (filters : Filters) (actor opener : Option Nat) :
    CartStep actor opener app (ProductService.getProducts app filters).2 := by
  unfold ProductService.getProducts
  split
  · exact .same rfl rfl rfl rfl
  · split <;> exact .same rfl rfl rfl rfl

/-- Every request changes the cart tables in at most two steps, each made for
the user of the request. -/
theorem Operation.run_steps (backend : QueueBackend) (schema : Schema) (app : App)
    (hk : CartKeys app) (op : Operation) :
    ∃ mid, CartStep op.actor op.opener app mid ∧
      CartStep op.actor op.opener mid (op.run backend schema app) := by
  cases op with
  | getCart userId =>
    exact ⟨app, .same rfl rfl rfl rfl, (getOrCreateCart_step app userId (some userId)).1⟩
  | addToCart userId productId quantity => exact addToCart_steps app userId productId quantity
  | updateCartItem userId cartItemId quantity =>
    exact ⟨app, .same rfl rfl rfl rfl, updateCartItem_step app hk userId cartItemId quantity none⟩
  | removeFromCart userId cartItemId =>
    exact ⟨app, .same rfl rfl rfl rfl, removeFromCart_step app hk userId cartItemId none⟩
  | clearCart userId => exact ⟨app, .same rfl rfl rfl rfl, clearCart_step app userId none⟩
  | createOrder userId =>
    exact ⟨app, .same rfl rfl rfl rfl, createOrder_step backend app userId none⟩
  | getProducts filters =>
    exact ⟨app, .same rfl rfl rfl rfl, getProducts_step app filters none none⟩
  | catalogue write => exact ⟨app, .same rfl rfl rfl rfl, catalogue_step schema app write none⟩

/-- Every request keeps the keys of the cart tables. -/
theorem Operation.run_keys (backend : QueueBackend) (schema : Schema) (app : App)
    (hk : CartKeys app) (op : Operation) : CartKeys (op.run backend schema app) := by
  obtain ⟨mid, h1, h2⟩ := Operation.run_steps backend schema app hk op
  exact h2.keys (h1.keys hk)

/-- Every sequence of requests keeps the keys of the cart tables. -/
theorem Operation.runAll_keys (backend : QueueBackend) (schema : Schema) (ops : List Operation)
    (app : App) (hk : CartKeys app) : CartKeys (Operation.runAll backend schema app ops) := by
  induction ops generalizing app with
  | nil => exact hk
  | cons op rest ih => exact ih _ (Operation.run_keys backend schema app hk op)

/-! ## Adding to the cart -/

/-- The join of cart lines whose product rows exist with a further line. -/
theorem includeProduct_isOk (products : List Product) (lines : List CartItem)
    (h : ∀ l ∈ lines, findUniqueProduct products l.productId ≠ none) :
    ∃ items, includeProduct products lines = .ok items :=
  includeProduct_ok products lines (fun l hl => Option.ne_none_iff_exists'.1 (h l hl))

/-- The method `addToCart` for a user who has a cart whose lines have their
product rows: the line of the product gets the quantity added, or a line is
created when the cart has none for the product; a quantity the column cannot
hold leaves the server as it was. -/
theorem addToCart_of_cart (app : App) (userId productId : Nat) (q : Int) (c : Cart)
    (product : Product) (hq : 1 ≤ q)
    (hc : app.world.db.carts.find? (fun c => c.userId == userId) = some c)
    (hfk : ∀ ci ∈ cartLines app.world.db c.id,
      findUniqueProduct app.world.db.products ci.productId ≠ none)
    (hp : findUniqueProduct app.world.db.products productId = some product) :
    (CartService.addToCart app userId productId (some q)).2 =
      match app.world.db.cartItems.find?
          (fun ci => ci.cartId == c.id && ci.productId == productId) with
      | some row =>
        if CartRepository.fitsInt4 q && CartRepository.fitsInt4 (row.quantity + q) then
          { app with
            world := { app.world with
              db := { app.world.db with
                cartItems := app.world.db.cartItems.map (fun ci =>
                  if ci.cartId == c.id && ci.productId == productId then
                    { ci with quantity := ci.quantity + q }
                  else ci) } } }
        else app
      | none =>
        if CartRepository.fitsInt4 q then
          { app with
            world := { app.world with
              db := { app.world.db with
                cartItems := app.world.db.cartItems ++
                  [{ id := app.cartItemSeq, cartId := c.id, productId := productId,
                     quantity := q }] } },
            cartItemSeq := app.cartItemSeq + 1 }
        else app := by
  obtain ⟨items, hitems⟩ := includeProduct_isOk _ _ hfk
  have hrej : CartService.quantityRejected (some q) = false := by
    simp only [CartService.quantityRejected, Bool.or_eq_false_iff, decide_eq_false_iff_not,
      beq_eq_false_iff_ne]
    omega
  have hget : CartRepository.getOrCreateCart app userId =
      (.ok { id := c.id, userId := c.userId, items := items }, app) := by
    unfold CartRepository.getOrCreateCart
    rw [hc]
    dsimp only
    have : includeProduct app.world.db.products
        (app.world.db.cartItems.filter (fun ci => ci.cartId == c.id)) = .ok items := hitems
    rw [this]
  have hfind : ProductRepository.findById app.world.db productId = some product := hp
  cases hrow : app.world.db.cartItems.find?
      (fun ci => ci.cartId == c.id && ci.productId == productId) with
  | some row =>
    simp only [CartService.addToCart, hrej, Bool.false_eq_true, if_false, hfind,
      CartRepository.addItem, hget, hp, hrow, Option.getD_some]
    split_ifs <;> rfl
  | none =>
    simp only [CartService.addToCart, hrej, Bool.false_eq_true, if_false, hfind,
      CartRepository.addItem, hget, hp, hrow, Option.getD_some]
    split_ifs <;> rfl

/-- For a user without a cart, `addToCart` does what it does once
`getOrCreateCart` has created the cart. -/
theorem addToCart_opens (app : App) (hk : CartKeys app) (userId productId : Nat)
    (quantity : Option Int) (user : User)
    (hn : app.world.db.carts.find? (fun c => c.userId == userId) = none)
    (hu : app.world.db.users.find? (fun u => u.id == userId) = some user) :
    CartService.addToCart app userId productId quantity =
      if CartService.quantityRejected quantity ∨
          ProductRepository.findById app.world.db productId = none then
        CartService.addToCart app userId productId quantity
      else
        CartService.addToCart
          { app with
            world := { app.world with
              db := { app.world.db with
                carts := app.world.db.carts ++ [{ id := app.cartSeq, userId := userId }] } },
            cartSeq := app.cartSeq + 1 } userId productId quantity := by
  split_ifs with h
  · rfl
  · have h1 : CartService.quantityRejected quantity = false := by
      cases hq : CartService.quantityRejected quantity with
      | true => exact absurd (Or.inl hq) h
      | false => rfl
    obtain ⟨product, h2⟩ : ∃ product,
        ProductRepository.findById app.world.db productId = some product := by
      cases hf : ProductRepository.findById app.world.db productId with
      | none => exact absurd (Or.inr hf) h
      | some product => exact ⟨product, rfl⟩
    have hempty : app.world.db.cartItems.filter (fun ci => ci.cartId == app.cartSeq) = [] := by
      rw [List.filter_eq_nil_iff]
      intro ci hci hbeq
      have := hk.2.2.2.2.2.2 ci hci
      have heq : ci.cartId = app.cartSeq := by simpa using hbeq
      omega
    have hget1 : CartRepository.getOrCreateCart app userId =
        (.ok { id := app.cartSeq, userId := userId, items := [] },
         { app with
           world := { app.world with
             db := { app.world.db with
               carts := app.world.db.carts ++ [{ id := app.cartSeq, userId := userId }] } },
           cartSeq := app.cartSeq + 1 }) := by
      unfold CartRepository.getOrCreateCart
      rw [hn]
      dsimp only
      rw [hu]
      dsimp only
      rw [hempty]
      rfl
    have hget2 : CartRepository.getOrCreateCart
        { app with
          world := { app.world with
            db := { app.world.db with
              carts := app.world.db.carts ++ [{ id := app.cartSeq, userId := userId }] } },
          cartSeq := app.cartSeq + 1 } userId =
        (.ok { id := app.cartSeq, userId := userId, items := [] },
         { app with
           world := { app.world with
             db := { app.world.db with
               carts := app.world.db.carts ++ [{ id := app.cartSeq, userId := userId }] } },
           cartSeq := app.cartSeq + 1 }) := by
      unfold CartRepository.getOrCreateCart
      dsimp only
      rw [List.find?_append, hn]
      simp only [Option.none_or, List.find?_cons, beq_self_eq_true]
      rw [hempty]
      rfl
    have h2a : ProductRepository.findById
        ({ app with
           world := { app.world with
             db := { app.world.db with
               carts := app.world.db.carts ++ [{ id := app.cartSeq, userId := userId }] } },
           cartSeq := app.cartSeq + 1 } : App).world.db productId = some product := h2
    simp only [CartService.addToCart, h1, Bool.false_eq_true, if_false, h2, h2a,
      CartRepository.addItem, hget1, hget2]

/-- Two calls of `addToCart` for a product the cart of the user has no line
for: the cart ends with its former lines and one line for the product, with
the sum of the two quantities. -/
theorem addToCart_twice_of_cart (app : App) (userId productId : Nat) (q1 q2 : Int) (c : Cart)
    (product : Product) (hq1 : 1 ≤ q1) (hq2 : 1 ≤ q2) (hsum : q1 + q2 ≤ 2147483647)
    (hc : app.world.db.carts.find? (fun c => c.userId == userId) = some c)
    (hfk : ∀ ci ∈ cartLines app.world.db c.id,
      findUniqueProduct app.world.db.products ci.productId ≠ none)
    (hp : findUniqueProduct app.world.db.products productId = some product)
    (hfree : ∀ ci ∈ cartLines app.world.db c.id, ci.productId ≠ productId) :
    userLines (CartService.addToCart (CartService.addToCart app userId productId (some q1)).2
        userId productId (some q2)).2.world.db userId =
      cartLines app.world.db c.id ++
        [{ id := app.cartItemSeq, cartId := c.id, productId := productId,
           quantity := q1 + q2 }] := by
  have hcond : ∀ ci ∈ app.world.db.cartItems,
      (ci.cartId == c.id && ci.productId == productId) = false := by
    intro ci hci
    by_contra hcon
    have hboth : ci.cartId = c.id ∧ ci.productId = productId := by simpa using hcon
    have hmem : ci ∈ cartLines app.world.db c.id :=
      List.mem_filter.2 ⟨hci, by simpa using hboth.1⟩
    exact hfree ci hmem hboth.2
  have hnone : app.world.db.cartItems.find?
      (fun ci => ci.cartId == c.id && ci.productId == productId) = none := by
    rw [List.find?_eq_none]
    intro ci hci
    simp only [hcond ci hci, Bool.false_eq_true, not_false_eq_true]
  have hfit : ∀ n : Int, 1 ≤ n → n ≤ 2147483647 → CartRepository.fitsInt4 n = true := by
    intro n h1 h2
    simp only [CartRepository.fitsInt4, Bool.and_eq_true, decide_eq_true_eq]
    omega
  have hfit1 := hfit q1 hq1 (by omega)
  have hfit2 := hfit q2 hq2 (by omega)
  have hfit12 := hfit (q1 + q2) (by omega) hsum
  have h1 := addToCart_of_cart app userId productId q1 c product hq1 hc hfk hp
  simp only [hnone, hfit1, if_true] at h1
  rw [h1]
  have hfk1 : ∀ ci ∈ cartLines
      ({ app with
         world := { app.world with
           db := { app.world.db with
             cartItems := app.world.db.cartItems ++
               [{ id := app.cartItemSeq, cartId := c.id, productId := productId,
                  quantity := q1 }] } },
         cartItemSeq := app.cartItemSeq + 1 } : App).world.db c.id,
      findUniqueProduct app.world.db.products ci.productId ≠ none := by
    intro ci hci
    obtain ⟨hm, hcart⟩ := List.mem_filter.1 hci
    rcases List.mem_append.1 hm with h | h
    · exact hfk ci (List.mem_filter.2 ⟨h, hcart⟩)
    · simp only [List.mem_singleton] at h
      rw [h, hp]
      simp
  have h2 := addToCart_of_cart
    ({ app with
       world := { app.world with
         db := { app.world.db with
           cartItems := app.world.db.cartItems ++
             [{ id := app.cartItemSeq, cartId := c.id, productId := productId,
                quantity := q1 }] } },
       cartItemSeq := app.cartItemSeq + 1 } : App) userId productId q2 c product hq2 hc hfk1 hp
  have hfind : (app.world.db.cartItems ++
      [({ id := app.cartItemSeq, cartId := c.id, productId := productId,
          quantity := q1 } : CartItem)]).find?
        (fun ci => ci.cartId == c.id && ci.productId == productId) =
      some { id := app.cartItemSeq, cartId := c.id, productId := productId, quantity := q1 } := by
    rw [List.find?_append, hnone]
    simp
  simp only [hfind, hfit2, hfit12, Bool.and_self, if_true] at h2
  rw [h2]
  unfold userLines
  simp only [hc]
  unfold cartLines
  simp only [List.map_append, List.filter_append, List.map_cons, List.map_nil, beq_self_eq_true,
    Bool.and_self, if_true, List.filter_cons, List.filter_nil]
  congr 1
  apply congrArg
  conv_rhs => rw [← List.map_id app.world.db.cartItems]
  apply List.map_congr_left
  intro ci hci
  simp only [hcond ci hci, Bool.false_eq_true, if_false, id]

/-- The other lines of the cart tables are left alone by `addToCart`. -/
theorem addToCart_other_lines (app : App) (userId productId : Nat) (quantity : Option Int) :
    (CartService.addToCart app userId productId quantity).2.world.db.cartItems.filter
        (fun ci => !(ci.productId == productId)) =
      app.world.db.cartItems.filter (fun ci => !(ci.productId == productId)) := by
  obtain ⟨-, -, hitems, -, -⟩ := getOrCreateCart_step app userId (some userId)
  unfold CartService.addToCart
  split_ifs
  · rfl
  · split
    · rfl
    · unfold CartRepository.addItem
      split
      · next e app1 heq =>
        have : (CartRepository.getOrCreateCart app userId).2 = app1 := by rw [heq]
        rw [← this, hitems]
      · next cart app1 heq =>
        have h2 : (CartRepository.getOrCreateCart app userId).2 = app1 := by rw [heq]
        rw [h2] at hitems
        split
        · rw [hitems]
        · split
          · split_ifs
            · dsimp only
              rw [hitems]
              apply filter_map_untouched
              · intro ci _ hp
                by_contra hcon
                have hboth : ci.cartId = cart.id ∧ ci.productId = productId := by
                  simpa using hcon
                simp [hboth.2] at hp
              · intro ci
                rfl
            · rw [hitems]
          · split_ifs
            · dsimp only
              rw [hitems, List.filter_append]
              simp
            · rw [hitems]

/-- C23, as amended. Add-to-cart accumulates within the range of the
quantity column. On a server whose cart tables have their keys, for a user
with a row in the user table, a product with a row in the product table, and
a cart (if the user has one) whose lines have their product rows and none of
which is for the product: after `addToCart(u, p, q1)` and
`addToCart(u, p, q2)` with `q1, q2 ≥ 1` and `q1 + q2 ≤ 2147483647` the cart
of the user has exactly one line for the product, with quantity `q1 + q2`,
and its lines for other products are as before. An `addToCart`, whatever its
arguments, leaves every cart line of another product as it was, and in every
state reached by a sequence of requests no two cart lines share the pair of
cart and product. -/
theorem add_to_cart_accumulates (app : App) (hk : CartKeys app) (userId productId : Nat)
    (q1 q2 : Int) (user : User) (product : Product) (hq1 : 1 ≤ q1) (hq2 : 1 ≤ q2)
    (hsum : q1 + q2 ≤ 2147483647)
    (hu : app.world.db.users.find? (fun u => u.id == userId) = some user)
    (hp : findUniqueProduct app.world.db.products productId = some product)
    (hfk : ∀ ci ∈ userLines app.world.db userId,
      findUniqueProduct app.world.db.products ci.productId ≠ none)
    (hfree : ∀ ci ∈ userLines app.world.db userId, ci.productId ≠ productId) :
    (∃ row, (userLines (CartService.addToCart
          (CartService.addToCart app userId productId (some q1)).2
          userId productId (some q2)).2.world.db userId).filter
        (fun ci => ci.productId == productId) = [row] ∧
      row.productId = productId ∧ row.quantity = q1 + q2) ∧
    (userLines (CartService.addToCart
          (CartService.addToCart app userId productId (some q1)).2
          userId productId (some q2)).2.world.db userId).filter
        (fun ci => !(ci.productId == productId)) =
      (userLines app.world.db userId).filter (fun ci => !(ci.productId == productId)) ∧
    (∀ (u p : Nat) (q : Option Int),
      (CartService.addToCart app u p q).2.world.db.cartItems.filter
          (fun ci => !(ci.productId == p)) =
        app.world.db.cartItems.filter (fun ci => !(ci.productId == p))) ∧
    (∀ (backend : QueueBackend) (schema : Schema) (ops : List Operation),
      ((Operation.runAll backend schema app ops).world.db.cartItems.map
        (fun ci => (ci.cartId, ci.productId))).Nodup) := by
  have hshape : ∃ row : CartItem,
      userLines (CartService.addToCart
          (CartService.addToCart app userId productId (some q1)).2
          userId productId (some q2)).2.world.db userId =
        userLines app.world.db userId ++ [row] ∧
      row.productId = productId ∧ row.quantity = q1 + q2 := by
    cases hc : app.world.db.carts.find? (fun c => c.userId == userId) with
    | some c =>
      have hlines : userLines app.world.db userId = cartLines app.world.db c.id := by
        unfold userLines
        rw [hc]
      rw [hlines] at hfk hfree ⊢
      exact ⟨_, addToCart_twice_of_cart app userId productId q1 q2 c product hq1 hq2 hsum hc hfk
        hp hfree, rfl, rfl⟩
    | none =>
      have hlines : userLines app.world.db userId = [] := by
        unfold userLines
        rw [hc]
      have hopen := addToCart_opens app hk userId productId (some q1) user hc hu
      have hcondf : ¬ (CartService.quantityRejected (some q1) = true ∨
          ProductRepository.findById app.world.db productId = none) := by
        have hf : ProductRepository.findById app.world.db productId = some product := hp
        rw [hf]
        simp only [CartService.quantityRejected, Bool.or_eq_true, beq_iff_eq, decide_eq_true_eq,
          reduceCtorEq, or_false]
        omega
      rw [if_neg hcondf] at hopen
      rw [hopen, hlines]
      have hempty : cartLines
          ({ app with
             world := { app.world with
               db := { app.world.db with
                 carts := app.world.db.carts ++ [{ id := app.cartSeq, userId := userId }] } },
             cartSeq := app.cartSeq + 1 } : App).world.db app.cartSeq = [] := by
        unfold cartLines
        rw [List.filter_eq_nil_iff]
        intro ci hci hbeq
        have := hk.2.2.2.2.2.2 ci hci
        have heq : ci.cartId = app.cartSeq := by simpa using hbeq
        omega
      have hc0 : ({ app with
             world := { app.world with
               db := { app.world.db with
                 carts := app.world.db.carts ++ [{ id := app.cartSeq, userId := userId }] } },
             cartSeq := app.cartSeq + 1 } : App).world.db.carts.find?
            (fun c => c.userId == userId) = some { id := app.cartSeq, userId := userId } := by
        show (app.world.db.carts ++ [({ id := app.cartSeq, userId := userId } : Cart)]).find?
          (fun c => c.userId == userId) = _
        rw [List.find?_append, hc]
        simp
      have htwice := addToCart_twice_of_cart
        ({ app with
           world := { app.world with
             db := { app.world.db with
               carts := app.world.db.carts ++ [{ id := app.cartSeq, userId := userId }] } },
           cartSeq := app.cartSeq + 1 } : App) userId productId q1 q2
        { id := app.cartSeq, userId := userId } product hq1 hq2 hsum hc0
        (by rw [hempty]; intro ci hci; cases hci) hp
        (by rw [hempty]; intro ci hci; cases hci)
      rw [hempty] at htwice
      exact ⟨_, htwice, rfl, rfl⟩
  obtain ⟨row, hrow, hpid, hqty⟩ := hshape
  have hnone : (userLines app.world.db userId).filter (fun ci => ci.productId == productId) = [] := by
    rw [List.filter_eq_nil_iff]
    intro ci hci hbeq
    exact hfree ci hci (by simpa using hbeq)
  refine ⟨⟨row, ?_, hpid, hqty⟩, ?_, ?_, ?_⟩
  · rw [hrow, List.filter_append, hnone]
    simp [hpid]
  · rw [hrow, List.filter_append]
    simp [hpid]
  · intro u p q
    exact addToCart_other_lines app u p q
  · intro backend schema ops
    exact (Operation.runAll_keys backend schema ops app hk).2.2.2.1

/-- C23, as amended, on a server without carts: user 1 adds 2 laptops, then 3
more, and has one line with 5; requests of every kind follow and no two
lines share a cart and a product. -/
theorem add_to_cart_accumulates_witness :
    (∃ row, (userLines (CartService.addToCart
          (CartService.addToCart freshApp 1 1 (some 2)).2 1 1 (some 3)).2.world.db 1).filter
        (fun ci => ci.productId == 1) = [row] ∧
      row.productId = 1 ∧ row.quantity = 2 + 3) ∧
    userLines (CartService.addToCart
        (CartService.addToCart freshApp 1 1 (some 2)).2 1 1 (some 3)).2.world.db 1 =
      [{ id := 1, cartId := 1, productId := 1, quantity := 5 }] ∧
    ((Operation.runAll .real ⟨.cascade, .restrict⟩ freshApp
        [.addToCart 1 1 (some 2), .addToCart 1 2 (some 1), .addToCart 1 1 (some 3),
         .updateCartItem 1 2 (some 4), .removeFromCart 1 2, .catalogue (.deleteProduct 2),
         .createOrder 1, .getCart 1]).world.db.cartItems.map
      (fun ci => (ci.cartId, ci.productId))).Nodup :=
  ⟨(add_to_cart_accumulates freshApp (by decide) 1 1 2 3
      { id := 1, name := "Test Customer", email := "c@example.com" }
      { id := 1, name := "Test Laptop", price := 99999, stockQuantity := 5, version := 0 }
      (by decide) (by decide) (by decide) (by decide) (by decide) (by decide) (by decide)).1,
   by decide,
   (add_to_cart_accumulates freshApp (by decide) 1 1 2 3
      { id := 1, name := "Test Customer", email := "c@example.com" }
      { id := 1, name := "Test Laptop", price := 99999, stockQuantity := 5, version := 0 }
      (by decide) (by decide) (by decide) (by decide) (by decide) (by decide)
      (by decide)).2.2.2 .real ⟨.cascade, .restrict⟩ _⟩

/-- C23 as stated fails: on a server without carts user 1 adds 1073741824
laptops twice. The first call creates the line; the sum 2147483648 does not
fit the column, so the second call is refused by the client with `P2020`
and the cart keeps its one line with 1073741824, not the sum. -/
theorem add_to_cart_overflow_counterexample :
    (CartService.addToCart (CartService.addToCart freshApp 1 1 (some 1073741824)).2 1 1
      (some 1073741824)).1 = .error CartRepository.valueOutOfRange ∧
    userLines (CartService.addToCart (CartService.addToCart freshApp 1 1 (some 1073741824)).2
      1 1 (some 1073741824)).2.world.db 1 =
      [{ id := 1, cartId := 1, productId := 1, quantity := 1073741824 }] ∧
    (∀ ci ∈ userLines (CartService.addToCart
        (CartService.addToCart freshApp 1 1 (some 1073741824)).2 1 1
        (some 1073741824)).2.world.db 1, ci.quantity ≠ 1073741824 + 1073741824) := by
  decide

/-! ## The quantities of the cart lines -/

/-- The lines `validateCartForCheckout` returns are the cart item rows of the cart. -/
theorem validateCartForCheckout_lines (db : Db) (cartId : Nat)
    (cartItems : List CartItemWithProduct)
    (h : CartService.validateCartForCheckout db cartId = .ok cartItems) :
    cartItems.map CartItemWithProduct.toCartItem = cartLines db cartId := by
  unfold CartService.validateCartForCheckout at h
  cases hg : CartRepository.getCartItems db cartId with
  | error e => simp [hg] at h
  | ok items =>
    simp only [hg] at h
    split_ifs at h
    cases hs : CartService.checkStock items with
    | error e => simp [hs] at h
    | ok u =>
      simp only [hs] at h
      cases h
      exact (includeProduct_spec _ _ _ hg).1

/-- The lines of the order a successful call returns repeat the quantities of
cart item rows. -/
theorem createOrder_quantities (backend : QueueBackend) (w : World) (userId : Nat)
    (o : CreatedOrder) (h : (createOrder backend w userId).1 = .ok o) :
    ∀ x ∈ o.order.items, ∃ ci ∈ w.db.cartItems, ci.quantity = x.quantity ∧
      ci.productId = x.productId := by
  rcases createOrder_cases backend w userId with ⟨e, he⟩ | ⟨cart, cartItems, pv, o1, db1, -, hv, -, ht, hc⟩
  · rw [he] at h
    cases h
  · rw [hc] at h
    cases h
    obtain ⟨st, hl, -, horder⟩ := checkoutTx_frame _ _ _ _ _ _ _ ht
    obtain ⟨added, hadd, hmap⟩ := checkoutLoop_orderItems pv cartItems _ st hl
    simp only [List.nil_append] at hadd
    have hitems : o.order.items =
        numberItems w.db.nextOrderId w.db.nextOrderItemId st.orderItems := by rw [horder]
    have hm := numberItems_map w.db.nextOrderId w.db.nextOrderItemId st.orderItems
    rw [← hitems, hadd, hmap] at hm
    have hpairs : o.order.items.map (fun x => (x.productId, x.quantity)) =
        cartItems.map (fun item => (item.productId, item.quantity)) := by
      have := congrArg (List.map (fun t : Nat × Int × Option Nat => (t.1, t.2.1))) hm
      simpa [List.map_map, Function.comp_def] using this
    have hlines := validateCartForCheckout_lines _ _ _ hv
    intro x hx
    have hxm : (x.productId, x.quantity) ∈ o.order.items.map (fun x => (x.productId, x.quantity)) :=
      List.mem_map_of_mem _ hx
    rw [hpairs] at hxm
    obtain ⟨item, hi, heq⟩ := List.mem_map.1 hxm
    have hrow : CartItemWithProduct.toCartItem item ∈ cartLines w.db cart.id := by
      rw [← hlines]
      exact List.mem_map_of_mem _ hi
    simp only [Prod.mk.injEq] at heq
    exact ⟨_, (List.mem_filter.1 hrow).1, heq.2, heq.1⟩

/-- Every request keeps the quantities of the cart lines at 1 or more. -/
theorem Operation.runAll_positive (backend : QueueBackend) (schema : Schema)
    (ops : List Operation) (app : App) (hk : CartKeys app)
    (hp : QuantitiesPositive app.world.db) :
    QuantitiesPositive (Operation.runAll backend schema app ops).world.db := by
  induction ops generalizing app with
  | nil => exact hp
  | cons op rest ih =>
    obtain ⟨mid, h1, h2⟩ := Operation.run_steps backend schema app hk op
    exact ih _ (Operation.run_keys backend schema app hk op) (h2.positive (h1.positive hp))

/-- C24. Cart quantities are positive. `CartService.addToCart` and
`CartService.updateCartItem` answer a quantity that is missing or `NaN`
(`none`), 0 or negative with the `ValidationError` "Quantity must be at least
1" (400 `VALIDATION_ERROR`) and leave the server as it was. Hence, from a
state in which the cart tables have their keys and every cart line has a
quantity of 1 or more, every state reached by a sequence of requests has
every cart line at 1 or more, and every line of an order a checkout returns
there, which is the quantity its conditional update takes from the stock,
is 1 or more. -/
theorem cart_quantities_positive (app : App) (hk : CartKeys app)
    (hp : QuantitiesPositive app.world.db) :
    (∀ (a : App) (userId productId : Nat) (quantity : Option Int),
      (quantity = none ∨ ∃ q, quantity = some q ∧ q ≤ 0) →
      CartService.addToCart a userId productId quantity =
        (.error (.app (ValidationError "Quantity must be at least 1")), a)) ∧
    (∀ (a : App) (userId cartItemId : Nat) (quantity : Option Int),
      (quantity = none ∨ ∃ q, quantity = some q ∧ q ≤ 0) →
      CartService.updateCartItem a userId cartItemId quantity =
        (.error (.app (ValidationError "Quantity must be at least 1")), a)) ∧
    (∀ production, errorHandler production (.app (ValidationError "Quantity must be at least 1")) =
      { status := 400, code := "VALIDATION_ERROR", message := "Quantity must be at least 1" }) ∧
    (∀ (backend : QueueBackend) (schema : Schema) (ops : List Operation),
      QuantitiesPositive (Operation.runAll backend schema app ops).world.db ∧
      ∀ userId o,
        (App.createOrder backend (Operation.runAll backend schema app ops) userId).1 = .ok o →
        ∀ x ∈ o.order.items, 1 ≤ x.quantity) := by
  have hrej : ∀ quantity : Option Int, (quantity = none ∨ ∃ q, quantity = some q ∧ q ≤ 0) →
      CartService.quantityRejected quantity = true := by
    rintro quantity (rfl | ⟨q, rfl, hq⟩)
    · rfl
    · simp only [CartService.quantityRejected, Bool.or_eq_true, beq_iff_eq, decide_eq_true_eq]
      omega
  refine ⟨?_, ?_, fun production => rfl, ?_⟩
  · intro a userId productId quantity hq
    simp only [CartService.addToCart, hrej quantity hq, if_true]
  · intro a userId cartItemId quantity hq
    simp only [CartService.updateCartItem, hrej quantity hq, if_true]
  · intro backend schema ops
    have hpos := Operation.runAll_positive backend schema ops app hk hp
    refine ⟨hpos, ?_⟩
    intro userId o ho x hx
    obtain ⟨ci, hci, hq, -⟩ := createOrder_quantities backend _ userId o ho x hx
    rw [← hq]
    exact hpos ci hci

/-- C24 on a server without carts: adding 0 laptops is refused and changes
nothing, and after requests with good and bad quantities every cart line has
a quantity of 1 or more. -/
theorem cart_quantities_positive_witness :
    CartService.addToCart freshApp 1 1 (some 0) =
      (.error (.app (ValidationError "Quantity must be at least 1")), freshApp) ∧
    CartService.updateCartItem happyApp 1 1 none =
      (.error (.app (ValidationError "Quantity must be at least 1")), happyApp) ∧
    QuantitiesPositive (Operation.runAll .real ⟨.cascade, .restrict⟩ freshApp
      [.addToCart 1 1 (some 2), .addToCart 1 2 (some (-1)), .addToCart 1 2 (some 1),
       .updateCartItem 1 1 (some 0), .updateCartItem 1 2 (some 3), .addToCart 1 1 none]).world.db ∧
    (Operation.runAll .real ⟨.cascade, .restrict⟩ freshApp
      [.addToCart 1 1 (some 2), .addToCart 1 2 (some (-1)), .addToCart 1 2 (some 1),
       .updateCartItem 1 1 (some 0), .updateCartItem 1 2 (some 3),
       .addToCart 1 1 none]).world.db.cartItems.map (fun ci => (ci.productId, ci.quantity)) =
      [(1, 2), (2, 3)] :=
  ⟨(cart_quantities_positive freshApp (by decide) (by decide)).1 freshApp 1 1 (some 0)
      (Or.inr ⟨0, rfl, by decide⟩),
   (cart_quantities_positive freshApp (by decide) (by decide)).2.1 happyApp 1 1 none (Or.inl rfl),
   ((cart_quantities_positive freshApp (by decide) (by decide)).2.2.2 .real
      ⟨.cascade, .restrict⟩ _).1,
   by decide⟩

/-! ## The cart row of a user -/

/-- The method `getCart` creates the cart row of a user who has a row in the
user table and no cart. -/
theorem getCart_creates (app : App) (userId : Nat) (user : User)
    (hn : app.world.db.carts.find? (fun c => c.userId == userId) = none)
    (hu : app.world.db.users.find? (fun u => u.id == userId) = some user) :
    (CartService.getCart app userId).2.world.db.carts =
      app.world.db.carts ++ [{ id := app.cartSeq, userId := userId }] := by
  unfold CartService.getCart CartRepository.getOrCreateCart
  rw [hn]
  dsimp only
  rw [hu]
  dsimp only
  split <;> rfl

/-- C25, as amended. A cart row is created by the first `getCart` or
`addToCart` of its user, and by nothing else: from a state in which the cart
tables have their keys and the user has no cart row, every sequence of
requests without a `getCart` and without an `addToCart` of that user leaves
the user without a cart row; and `getCart` creates the row of a user who has
none. -/
theorem cart_created_by_getCart_or_addToCart (app : App) (hk : CartKeys app) (userId : Nat)
    (hn : app.world.db.carts.find? (fun c => c.userId == userId) = none)
    (backend : QueueBackend) (schema : Schema) (ops : List Operation)
    (hops : ∀ op ∈ ops, op.opener ≠ some userId) :
    (Operation.runAll backend schema app ops).world.db.carts.find?
        (fun c => c.userId == userId) = none ∧
    ∀ user, (Operation.runAll backend schema app ops).world.db.users.find?
        (fun u => u.id == userId) = some user →
      (CartService.getCart (Operation.runAll backend schema app ops) userId).2.world.db.carts =
        (Operation.runAll backend schema app ops).world.db.carts ++
          [{ id := (Operation.runAll backend schema app ops).cartSeq, userId := userId }] := by
  have hall : ∀ (l : List Operation) (a : App), CartKeys a →
      a.world.db.carts.find? (fun c => c.userId == userId) = none →
      (∀ op ∈ l, op.opener ≠ some userId) →
      (Operation.runAll backend schema a l).world.db.carts.find?
        (fun c => c.userId == userId) = none := by
    intro l
    induction l with
    | nil => intro a _ h _; exact h
    | cons op rest ih =>
      intro a hka hna hl
      obtain ⟨mid, h1, h2⟩ := Operation.run_steps backend schema a hka op
      have hop := hl op (List.mem_cons_self _ _)
      exact ih _ (Operation.run_keys backend schema a hka op)
        (h2.noCart userId hop (h1.noCart userId hop hna))
        (fun o ho => hl o (List.mem_cons_of_mem _ ho))
  have hnone := hall ops app hk hn hops
  exact ⟨hnone, fun user hu => getCart_creates _ userId user hnone hu⟩

/-- C25, as amended, on a server without carts: user 1 adds to the cart,
updates, checks out and the catalogue is written, and user 2 has no cart row. -/
theorem cart_created_by_getCart_or_addToCart_witness :
    (Operation.runAll .real ⟨.cascade, .restrict⟩ freshApp
      [.addToCart 1 1 (some 2), .updateCartItem 2 1 (some 1), .removeFromCart 2 1, .clearCart 2,
       .createOrder 2, .createOrder 1, .catalogue (.deleteProduct 2)]).world.db.carts.find?
        (fun c => c.userId == 2) = none :=
  (cart_created_by_getCart_or_addToCart freshApp (by decide) 2 (by decide) .real
    ⟨.cascade, .restrict⟩ _ (by decide)).1

/-- C25 as stated fails: user 1 has done no cart mutation, and after
`getCart(1)` the cart table holds a cart row of user 1. -/
theorem lazy_cart_counterexample :
    freshApp.world.db.carts = [] ∧
    (Operation.runAll .real ⟨.cascade, .restrict⟩ freshApp [.getCart 1]).world.db.carts =
      [{ id := 1, userId := 1 }] ∧
    ¬ ((Operation.runAll .real ⟨.cascade, .restrict⟩ freshApp [.getCart 1]).world.db.carts.find?
        (fun c => c.userId == 1) = none) := by
  decide

/-! ## The cart of another user -/

/-- A request made for one user leaves the lines of the cart of every other
user as they were. -/
theorem Operation.run_frame (backend : QueueBackend) (schema : Schema) (app : App)
    (hk : CartKeys app) (op : Operation) (actor other : Nat) (ha : op.actor = some actor)
    (hne : actor ≠ other) :
    userLines (op.run backend schema app).world.db other = userLines app.world.db other := by
  obtain ⟨mid, h1, h2⟩ := Operation.run_steps backend schema app hk op
  rw [ha] at h1 h2
  rw [CartStep.frame actor other h2 (h1.keys hk) hne, CartStep.frame actor other h1 hk hne]

/-- What `findByUserId` returns when the lines of the cart of the user have
their product rows: no cart, or the cart with exactly those lines. -/
theorem findByUserId_lines (db : Db) (userId : Nat)
    (hfk : ∀ ci ∈ userLines db userId, findUniqueProduct db.products ci.productId ≠ none) :
    CartRepository.findByUserId db userId = .ok none ∨
    ∃ cart, CartRepository.findByUserId db userId = .ok (some cart) ∧
      cart.items.map CartItemWithProduct.toCartItem = userLines db userId := by
  unfold CartRepository.findByUserId
  cases hc : db.carts.find? (fun c => c.userId == userId) with
  | none => exact Or.inl rfl
  | some c =>
    have hlines : userLines db userId = cartLines db c.id := by
      unfold userLines
      rw [hc]
    rw [hlines] at hfk ⊢
    obtain ⟨items, hitems⟩ := includeProduct_isOk _ _ hfk
    have hitems1 : includeProduct db.products (db.cartItems.filter (fun ci => ci.cartId == c.id)) =
        .ok items := hitems
    refine Or.inr ⟨{ id := c.id, userId := c.userId, items := items }, ?_, ?_⟩
    · simp only [hitems1]
    · exact (includeProduct_spec _ _ _ hitems).1

/-- An id that no line of the cart has is found in no line of the cart read. -/
theorem find?_foreign (cart : CartWithItems) (lines : List CartItem) (cartItemId : Nat)
    (hmap : cart.items.map CartItemWithProduct.toCartItem = lines)
    (hforeign : cartItemId ∉ lines.map (fun ci => ci.id)) :
    cart.items.find? (fun item => item.id == cartItemId) = none := by
  rw [List.find?_eq_none]
  intro item hi hbeq
  apply hforeign
  rw [← hmap, List.map_map]
  exact List.mem_map.2 ⟨item, hi, by simpa using hbeq⟩

/-- C26, as amended. No cross-user cart mutation, on a server whose cart
tables have their keys. Every request made for a user `U` (`getCart`,
`addToCart`, `updateCartItem`, `removeFromCart`, `clearCart`, `createOrder`,
with any arguments) leaves the lines of the cart of every other user `V` as
they were. With a cart item id that is no line of the cart of `U`, whose
lines have their product rows, `removeFromCart` fails with a `NotFoundError`
and so does `updateCartItem` when its quantity is 1 or more; with a quantity
that is missing, `NaN`, 0 or negative `updateCartItem` fails with the
`ValidationError` before the cart is read. In each case the server is as
before. -/
theorem no_cross_user_cart_mutation (app : App) (hk : CartKeys app) (actor other : Nat)
    (hne : actor ≠ other)
    (hfk : ∀ ci ∈ userLines app.world.db actor,
      findUniqueProduct app.world.db.products ci.productId ≠ none) :
    (∀ (backend : QueueBackend) (schema : Schema) (op : Operation), op.actor = some actor →
      userLines (op.run backend schema app).world.db other = userLines app.world.db other) ∧
    (∀ cartItemId, cartItemId ∉ (userLines app.world.db actor).map (fun ci => ci.id) →
      (CartService.removeFromCart app actor cartItemId =
          (.error (.app (NotFoundError "Cart not found")), app) ∨
        CartService.removeFromCart app actor cartItemId =
          (.error (.app (NotFoundError "Cart item not found")), app)) ∧
      (∀ quantity, CartService.quantityRejected quantity = false →
        CartService.updateCartItem app actor cartItemId quantity =
          (.error (.app (NotFoundError "Cart not found")), app) ∨
        CartService.updateCartItem app actor cartItemId quantity =
          (.error (.app (NotFoundError "Cart item not found")), app)) ∧
      (∀ quantity, CartService.quantityRejected quantity = true →
        CartService.updateCartItem app actor cartItemId quantity =
          (.error (.app (ValidationError "Quantity must be at least 1")), app))) ∧
    (∀ production message, errorHandler production (.app (NotFoundError message)) =
      { status := 404, code := "NOT_FOUND", message := message }) := by
  refine ⟨?_, ?_, fun production message => rfl⟩
  · intro backend schema op ha
    exact Operation.run_frame backend schema app hk op actor other ha hne
  · intro cartItemId hforeign
    refine ⟨?_, ?_, ?_⟩
    · rcases findByUserId_lines app.world.db actor hfk with h | ⟨cart, h, hmap⟩
      · left
        simp only [CartService.removeFromCart, h]
      · right
        simp only [CartService.removeFromCart, h, find?_foreign cart _ cartItemId hmap hforeign]
    · intro quantity hq
      rcases findByUserId_lines app.world.db actor hfk with h | ⟨cart, h, hmap⟩
      · left
        simp only [CartService.updateCartItem, hq, Bool.false_eq_true, if_false, h]
      · right
        simp only [CartService.updateCartItem, hq, Bool.false_eq_true, if_false, h,
          find?_foreign cart _ cartItemId hmap hforeign]
    · intro quantity hq
      simp only [CartService.updateCartItem, hq, if_true]

/-- C26, as amended, with two carts: user 1 asks to update and to remove the
cart item of user 2 and gets `NotFoundError`, and after requests of user 1 of
every kind the cart of user 2 holds its line as before. -/
theorem no_cross_user_cart_mutation_witness :
    userLines (Operation.run .real ⟨.cascade, .restrict⟩ twoCartsApp
      (.updateCartItem 1 2 (some 3))).world.db 2 = userLines twoCartsApp.world.db 2 ∧
    userLines (Operation.run .real ⟨.cascade, .restrict⟩ twoCartsApp (.createOrder 1)).world.db 2 =
      userLines twoCartsApp.world.db 2 ∧
    userLines twoCartsApp.world.db 2 =
      [{ id := 2, cartId := 2, productId := 1, quantity := 1 }] ∧
    CartService.removeFromCart twoCartsApp 1 2 =
      (.error (.app (NotFoundError "Cart item not found")), twoCartsApp) ∧
    CartService.updateCartItem twoCartsApp 1 2 (some 3) =
      (.error (.app (NotFoundError "Cart item not found")), twoCartsApp) :=
  ⟨(no_cross_user_cart_mutation twoCartsApp (by decide) 1 2 (by decide) (by decide)).1 .real
      ⟨.cascade, .restrict⟩ (.updateCartItem 1 2 (some 3)) rfl,
   (no_cross_user_cart_mutation twoCartsApp (by decide) 1 2 (by decide) (by decide)).1 .real
      ⟨.cascade, .restrict⟩ (.createOrder 1) rfl,
   by decide, by decide, by decide⟩

/-- C26 as stated fails: the cart item 2 is no line of the cart of user 1,
and `updateCartItem(1, 2, 0)` fails with the `ValidationError`, answered with
400 `VALIDATION_ERROR`, not with a `NotFoundError`. -/
theorem update_foreign_item_counterexample :
    2 ∉ (userLines twoCartsApp.world.db 1).map (fun ci => ci.id) ∧
    CartService.updateCartItem twoCartsApp 1 2 (some 0) =
      (.error (.app (ValidationError "Quantity must be at least 1")), twoCartsApp) ∧
    (∀ message, (CartService.updateCartItem twoCartsApp 1 2 (some 0)).1 ≠
      .error (.app (NotFoundError message))) ∧
    errorHandler true (.app (ValidationError "Quantity must be at least 1")) =
      { status := 400, code := "VALIDATION_ERROR", message := "Quantity must be at least 1" } := by
  refine ⟨by decide, by decide, ?_, by decide⟩
  intro message h
  have h1 : (CartService.updateCartItem twoCartsApp 1 2 (some 0)).1 =
      .error (.app (ValidationError "Quantity must be at least 1")) := by decide
  rw [h1] at h
  simp only [Except.error.injEq, Thrown.app.injEq] at h
  have := congrArg AppError.code h
  simp [ValidationError, NotFoundError] at this

end Ecommerce
